import Mathlib

/-!
# MyGPT_API: authentication core

A shallow embedding of the Go sources under `internal/` and `configs/`
(middlewares, auth controller, models, utils) together with the properties
proved about them.

Conventions of the embedding.

* A Go `string` is a Lean `String`; `len` is the byte length `utf8ByteSize`.
* A Go `error` result is an `Option String` (`none` is `nil`) or the error side
  of an `Except String _`; the string is the text of `err.Error()`.
* A handler is a function from the gin context and the record store to
  `Except String (Context × DB)`; the error side of that `Except` is a Go
  run-time panic, with its text.
* Whatever lives outside the repository (bcrypt, the JWT library, the JSON
  decoder, the clock, the configuration file) is read from a `World` value.
-/

namespace MyGPT

/-! ## Go values -/

deriving instance DecidableEq for Except

/-- Bytes, as `[]byte`. -/
abbrev Bytes := List Nat

/-- Type uuid.UUID in its canonical 36-character text form, the form stored in the
`char(36)` primary-key column and carried by the `sub` claim. -/
abbrev UUID := String

/-- Type time.Time as the instant it denotes: nanoseconds since January 1, year 1,
00:00:00 UTC (the zero value of the Go type). -/
structure Time where
  ns : Int
deriving DecidableEq, Repr

/-- Method `IsZero` of time.Time. -/
def Time.IsZero (t : Time) : Bool := t.ns == 0

/-- Method `Unix` of time.Time: whole seconds since January 1, 1970 UTC. -/
def Time.Unix (t : Time) : Int := t.ns / 1000000000 - 62135596800

/-- Method `Add` of time.Time, the duration in nanoseconds. -/
def Time.Add (t : Time) (d : Int) : Time := ⟨t.ns + d⟩

/-- Type sql.NullString. -/
structure NullString where
  String : String
  Valid : Bool
deriving DecidableEq, Repr

/-- Type models.User (user.model.go). -/
structure User where
  ID : UUID
  FirstName : String
  Name : String
  Birthday : Time
  Gender : String
  Email : String
  Password : String
  Role : String
  Address : NullString
  SubscriptionCode : NullString
  IsActive : Bool
  VerificationCode : NullString
  Verified : Bool
  CreatedAt : Time
  UpdatedAt : Time
  DeletedAt : Time
deriving DecidableEq, Repr

/-- Type models.SignUpInput (user.model.go). -/
structure SignUpInput where
  FirstName : String
  Name : String
  Birthday : Time
  Gender : String
  Email : String
  Password : String
deriving DecidableEq, Repr

/-- Type models.SignInInput (user.model.go). -/
structure SignInInput where
  Email : String
  Password : String
deriving DecidableEq, Repr

/-- A Go `interface{}` value, for the dynamic types that reach the code modelled
here: the nil interface, a string, a `*models.User` (given by the record it points
to), the `*gorm.DB` handle, and a value of any other type, under a description. -/
inductive Any where
  | nil
  | str (s : String)
  | userPtr (u : User)
  | gormDB
  | other (desc : String)
deriving DecidableEq, Repr

/-- A claim value as the JSON decoder leaves it in a `map[string]interface{}`: a
string, or a value of another JSON type kept as the text `fmt.Sprint` prints for
it. -/
inductive JSONValue where
  | str (s : String)
  | other (printed : String)
deriving DecidableEq, Repr

/-- Type configs.Config, the fields the authentication core reads. Durations are in
nanoseconds, as time.Duration. -/
structure Config where
  AccessTokenPrivateKey : String
  AccessTokenPublicKey : String
  RefreshTokenPrivateKey : String
  RefreshTokenPublicKey : String
  AccessTokenExpiresIn : Int
  RefreshTokenExpiresIn : Int
  AccessTokenMaxAge : Int
  RefreshTokenMaxAge : Int
deriving DecidableEq, Repr

/-! ## The JWT library, as far as the code drives it -/

/-- The signing methods registered by the JWT library, by the Go type that
implements them: `*SigningMethodRSA` serves RS256, RS384 and RS512,
`*SigningMethodRSAPSS` the PS family, and so on. The string is the `alg` name. -/
inductive SigningMethod where
  | RSA (alg : String)
  | RSAPSS (alg : String)
  | HMAC (alg : String)
  | ECDSA (alg : String)
  | none
deriving DecidableEq, Repr

/-- Value jwt.SigningMethodRS256. -/
def SigningMethodRS256 : SigningMethod := .RSA "RS256"

/-- Type jwt.MapClaims restricted to the registered claims the code writes and the
library checks; an absent claim is `none`. -/
structure MapClaims where
  sub : Option JSONValue
  exp : Option Int
  iat : Option Int
  nbf : Option Int
deriving DecidableEq, Repr

/-- Type jwt.Token after the unverified parse: method, claims, and the two pieces the
signature check compares. -/
structure Token where
  Method : SigningMethod
  Claims : MapClaims
  signingString : String
  Signature : String
  Valid : Bool
deriving DecidableEq, Repr

/-- An RSA public key. -/
structure RSAPublicKey where
  N : Nat
  E : Nat
deriving DecidableEq, Repr

/-- An RSA private key. -/
structure RSAPrivateKey where
  N : Nat
  E : Nat
  D : Nat
deriving DecidableEq, Repr

/-- Method Alg of a signing method, the value of the `alg` header. -/
def SigningMethod.Alg : SigningMethod → String
  | .RSA alg => alg
  | .RSAPSS alg => alg
  | .HMAC alg => alg
  | .ECDSA alg => alg
  | .none => "none"

/-! ## The world outside the repository -/

/-- What one request sees of the libraries and of the environment. Functions of
libraries are fields; a call whose result is drawn at random or read from the
environment (salted hashing, a fresh UUID, the clock, the configuration file) is the
field holding what that call returns during this request. -/
structure World where
  /-- Function time.Now. -/
  now : Time
  /-- Function configs.LoadConfig; the zero Config when loading fails. -/
  config : Config
  /-- Function strings.ToLower. -/
  ToLower : String → String
  /-- Function govalidator.IsEmail, behind is.Email. -/
  IsEmail : String → Bool
  /-- Function bcrypt.GenerateFromPassword at the default cost. -/
  GenerateFromPassword : String → Except String String
  /-- Function bcrypt.CompareHashAndPassword, hash first: `true` for a nil error. -/
  CompareHashAndPassword : String → String → Bool
  /-- Function uuid.New. -/
  uuidNew : UUID
  /-- Function base64.StdEncoding.DecodeString. -/
  DecodeString : String → Except String Bytes
  /-- Function jwt.ParseRSAPublicKeyFromPEM. -/
  ParseRSAPublicKeyFromPEM : Bytes → Except String RSAPublicKey
  /-- Function jwt.ParseRSAPrivateKeyFromPEM. -/
  ParseRSAPrivateKeyFromPEM : Bytes → Except String RSAPrivateKey
  /-- Method ParseUnverified of the JWT parser: split, decode, look the method up. -/
  ParseUnverified : String → Except String Token
  /-- Method Verify of a signing method: signing string, signature, key. -/
  Verify : SigningMethod → String → String → RSAPublicKey → Bool
  /-- Method SigningString of a new token: the encoded header and the encoded claims,
  joined by a dot. -/
  SigningString : SigningMethod → MapClaims → Except String String
  /-- Method Sign of a signing method: signing string, key; the encoded signature. -/
  Sign : SigningMethod → String → RSAPrivateKey → Except String String
  /-- Method ShouldBindJSON of the gin context on a `**SignUpInput`, from the request
  body: the JSON decoder and the `binding` tags. `none` is the nil pointer that the
  body `null` leaves behind. -/
  bindSignUpInput : String → Except String (Option SignUpInput)
  /-- Method ShouldBindJSON of the gin context on a `**SignInInput`. -/
  bindSignInInput : String → Except String (Option SignInInput)
  /-- Method ShouldBindJSON of the gin context on a `*User`, from the request body. -/
  bindUser : String → Except String User
  /-- Function uuid.Parse. -/
  uuidParse : String → Except String UUID

/-- Function fmt.Sprint on one operand, the operand being what `claims["sub"]`
yields (`none` is the nil interface of an absent key). -/
def Sprint : Option JSONValue → String
  | none => "<nil>"
  | some (.str s) => s
  | some (.other printed) => printed

/-! ## Package strings -/

/-- Function strings.ContainsAny: some code point of `chars` occurs in `s`. -/
def ContainsAny (s chars : String) : Bool :=
  s.toList.any (fun c => chars.toList.contains c)

/-- Function strings.Join. -/
def Join (elems : List String) (sep : String) : String :=
  sep.intercalate elems

/-- Function unicode.IsSpace. -/
def IsSpace (c : Char) : Bool :=
  let n := c.toNat
  n == 9 || n == 10 || n == 11 || n == 12 || n == 13 || n == 32 ||
  n == 0x85 || n == 0xA0 || n == 0x1680 || (0x2000 ≤ n && n ≤ 0x200A) ||
  n == 0x2028 || n == 0x2029 || n == 0x202F || n == 0x205F || n == 0x3000

/-- The scan of strings.Fields: `cur` is the field being read, reversed. -/
def fieldsAux : List Char → List Char → List String
  | [], cur => if cur.isEmpty then [] else [String.mk cur.reverse]
  | c :: cs, cur =>
    if IsSpace c then
      if cur.isEmpty then fieldsAux cs [] else String.mk cur.reverse :: fieldsAux cs []
    else fieldsAux cs (c :: cur)

/-- Function strings.Fields: the maximal runs of non-space characters of `s`. -/
def Fields (s : String) : List String :=
  fieldsAux s.toList []

/-! ## utils/passwordRequirements.go -/

/-- Function utils.PasswordRequirements. -/
def PasswordRequirements (value : Any) : Option String :=
  let s := match value with
    | .str s => s
    | _ => ""
  let errMessages : List String := []
  let errMessages :=
    if !ContainsAny s "0123456789" then
      errMessages ++ ["must contain at least one digit"] else errMessages
  let errMessages :=
    if !ContainsAny s "*!.@$%^&()\x7b\x7d[]:;<>,.?/~_+-=" then
      errMessages ++ ["must contain at least one special character"] else errMessages
  let errMessages :=
    if !ContainsAny s "ABCDEFGHIJKLMNOPQRSTUVWXYZ" then
      errMessages ++ ["must contain at least one uppercase letter"] else errMessages
  let errMessages :=
    if !ContainsAny s "abcdefghijklmnopqrstuvwxyz" then
      errMessages ++ ["must contain at least one lowercase letter"] else errMessages
  if errMessages.length > 0 then some (Join errMessages ", ") else none

/-! ## The validation library (ozzo-validation), as far as the models drive it -/

/-- The value of a validated struct field: the models validate strings and one
time.Time. -/
inductive FieldValue where
  | str (s : String)
  | time (t : Time)
deriving DecidableEq, Repr

/-- Function validation.IsEmpty: a string of length zero, the zero time. -/
def FieldValue.IsEmpty : FieldValue → Bool
  | .str s => s.utf8ByteSize == 0
  | .time t => t.IsZero

/-- The field value as the `interface{}` handed to an inline rule. -/
def FieldValue.toAny : FieldValue → Any
  | .str s => .str s
  | .time _ => .other "time.Time"

/-- The validation rules the models use. -/
inductive Rule where
  | Required
  | Length (min max : Nat)
  | In (values : List String)
  | Email
  | PrintableASCII
  | By (f : Any → Option String)

/-- Function govalidator.IsPrintableASCII on a non-empty string: every character in
the range 0x20 to 0x7E. -/
def IsPrintableASCII (s : String) : Bool :=
  s.toList.all (fun c => 0x20 ≤ c.toNat && c.toNat ≤ 0x7E)

/-- The message validation.Length builds for its bounds. -/
def lengthMessage (min max : Nat) : String :=
  if min == 0 && max > 0 then "the length must be no more than " ++ toString max
  else if min > 0 && max == 0 then "the length must be no less than " ++ toString min
  else if min > 0 && max > 0 then
    if min == max then "the length must be exactly " ++ toString min
    else "the length must be between " ++ toString min ++ " and " ++ toString max
  else "the value must be empty"

/-- Method Validate of each rule. Every rule but Required and By passes an empty
value; the length is `len`, a count of bytes. -/
def Rule.Validate (w : World) : Rule → FieldValue → Option String
  | .Required, v => if v.IsEmpty then some "cannot be blank" else none
  | .Length min max, v =>
    if v.IsEmpty then none else
    match v with
    | .str s =>
      let l := s.utf8ByteSize
      if (min > 0 && l < min) || (max > 0 && l > max) then some (lengthMessage min max)
      else none
    | .time _ => some "cannot get the length of struct"
  | .In values, v =>
    if v.IsEmpty then none else
    match v with
    | .str s => if values.contains s then none else some "must be a valid value"
    | .time _ => some "must be a valid value"
  | .Email, v =>
    if v.IsEmpty then none else
    match v with
    | .str s => if w.IsEmail s then none else some "must be a valid email address"
    | .time _ => some "must be either a string or byte slice"
  | .PrintableASCII, v =>
    if v.IsEmpty then none else
    match v with
    | .str s =>
      if IsPrintableASCII s then none
      else some "must contain printable ASCII characters only"
    | .time _ => some "must be either a string or byte slice"
  | .By f, v => f v.toAny

/-- Function validation.Validate: the rules in order, the first error wins. -/
def Validate (w : World) (value : FieldValue) : List Rule → Option String
  | [] => none
  | rule :: rules =>
    match rule.Validate w value with
    | some err => some err
    | none => Validate w value rules

/-- Type validation.Errors: field name and message, in the order of the fields. -/
abbrev Errors := List (String × String)

/-- One validation.Field(...) argument of ValidateStruct: the name the error is
filed under (the json tag, or the Go field name without one), the field value and
its rules. -/
structure FieldRules where
  name : String
  value : FieldValue
  rules : List Rule

/-- Function validation.ValidateStruct: every field is validated, the failures are
collected, and the result is nil when there is none. -/
def ValidateStruct (w : World) (fields : List FieldRules) : Option Errors :=
  let errs : Errors := fields.filterMap
    (fun fr => (Validate w fr.value fr.rules).map (fun err => (fr.name, err)))
  if errs.length > 0 then some errs else none

/-- Insertion into a list of entries sorted by key. -/
def insertByKey (e : String × String) : Errors → Errors
  | [] => [e]
  | x :: xs => if e.1 < x.1 then e :: x :: xs else x :: insertByKey e xs

/-- Method Error of validation.Errors: the entries by sorted key, as
`key: message` joined by `; ` and closed by a full stop. -/
def Errors.Error (es : Errors) : String :=
  if es.length == 0 then "" else
  Join ((es.foldr insertByKey []).map (fun e => e.1 ++ ": " ++ e.2)) "; " ++ "."

/-! ## models/user.model.go -/

/-- Method Validate of models.User. -/
def User.Validate (w : World) (u : User) : Option Errors :=
  ValidateStruct w [
    ⟨"FirstName", .str u.FirstName, [.Required, .Length 1 20]⟩,
    ⟨"Name", .str u.Name, [.Required, .Length 1 20]⟩,
    ⟨"Birthday", .time u.Birthday, [.Required]⟩,
    ⟨"Gender", .str u.Gender, [.Required, .In ["male", "female", "other"]]⟩,
    ⟨"Email", .str u.Email, [.Required, .Email]⟩,
    ⟨"Password", .str u.Password,
      [.Required, .Length 8 100, .PrintableASCII, .By PasswordRequirements]⟩,
    ⟨"Role", .str u.Role, [.Required, .In ["user", "admin"]]⟩]

/-- Method Validate of models.SignUpInput. -/
def SignUpInput.Validate (w : World) (s : SignUpInput) : Option Errors :=
  ValidateStruct w [
    ⟨"first_name", .str s.FirstName, [.Required, .Length 1 20]⟩,
    ⟨"name", .str s.Name, [.Required, .Length 1 20]⟩,
    ⟨"birthday", .time s.Birthday, [.Required]⟩,
    ⟨"gender", .str s.Gender, [.Required, .In ["male", "female", "other"]]⟩,
    ⟨"email", .str s.Email, [.Required, .Email]⟩,
    ⟨"password", .str s.Password,
      [.Required, .Length 8 100, .PrintableASCII, .By PasswordRequirements]⟩]

/-- Method Validate of models.SignInInput. -/
def SignInInput.Validate (w : World) (s : SignInInput) : Option Errors :=
  ValidateStruct w [
    ⟨"email", .str s.Email, [.Required, .Email]⟩,
    ⟨"password", .str s.Password,
      [.Required, .Length 8 100, .PrintableASCII, .By PasswordRequirements]⟩]

/-! ## The record store: gorm over the `users` table

The store is the table, a plan of faults and a log. Every call is logged and takes
the head of the plan: `some e` makes the call fail with the error text `e` (a lost
connection, a timeout) and leave the table alone, `none` (or an exhausted plan) lets
the table answer. -/

/-- The columns the code filters on. -/
inductive Column where
  | id
  | email
deriving DecidableEq, Repr

/-- The calls the code makes on the store, each with what it hands over. -/
inductive Query where
  | First (column : Column) (arg : String)
  | Create (u : User)
  | Find
  | Save (u : User)
  | Delete (u : User)
deriving DecidableEq, Repr

/-- The errors of a store call: gorm.ErrRecordNotFound, or anything else. -/
inductive DBError where
  | ErrRecordNotFound
  | other (msg : String)
deriving DecidableEq, Repr

/-- Method Error of a store error. -/
def DBError.Error : DBError → String
  | .ErrRecordNotFound => "record not found"
  | .other msg => msg

/-- The record store. -/
structure DB where
  users : List User
  faults : List (Option String)
  log : List Query
deriving DecidableEq, Repr

/-- Every store call: log it, take the planned fault. -/
def DB.call (db : DB) (q : Query) : DB × Option String :=
  ({ db with log := db.log ++ [q], faults := db.faults.tail }, db.faults.head?.join)

/-- The value of a column in a row. -/
def Column.get : Column → User → String
  | .id, u => u.ID
  | .email, u => u.Email

/-- The row that `ORDER BY id LIMIT 1` keeps. -/
def leastID : List User → Option User
  | [] => none
  | u :: us =>
    match leastID us with
    | none => some u
    | some v => if v.ID < u.ID then some v else some u

/-- Call `First` with the condition `column = ?`:
`SELECT * FROM users WHERE column = arg ORDER BY id LIMIT 1`. -/
def DB.First (db : DB) (column : Column) (arg : String) : DB × Except DBError User :=
  match db.call (.First column arg) with
  | (db, some e) => (db, .error (.other e))
  | (db, none) =>
    match leastID (db.users.filter (fun u => column.get u == arg)) with
    | some u => (db, .ok u)
    | none => (db, .error .ErrRecordNotFound)

/-- Method BeforeCreate of models.User: a fresh UUID. -/
def User.BeforeCreate (w : World) (u : User) : User :=
  { u with ID := w.uuidNew }

/-- Call `Create`: the BeforeCreate hook, the creation and update times, the column
defaults for zero values (`Role` defaults to user, `IsActive` to true), then the
insert, which the primary key and the unique index on `Email` can refuse. -/
def DB.Create (w : World) (db : DB) (u : User) : DB × Except DBError User :=
  match db.call (.Create u) with
  | (db, some e) => (db, .error (.other e))
  | (db, none) =>
    let u := u.BeforeCreate w
    let u := { u with
      CreatedAt := if u.CreatedAt.IsZero then w.now else u.CreatedAt
      UpdatedAt := if u.UpdatedAt.IsZero then w.now else u.UpdatedAt
      Role := if u.Role == "" then "user" else u.Role
      IsActive := if u.IsActive then u.IsActive else true }
    if db.users.any (fun x => x.ID == u.ID || x.Email == u.Email) then
      (db, .error (.other "duplicate key value violates unique constraint"))
    else ({ db with users := db.users ++ [u] }, .ok u)

/-- Call `Find` on the whole table: `SELECT * FROM users`. -/
def DB.Find (db : DB) : DB × Except DBError (List User) :=
  match db.call .Find with
  | (db, some e) => (db, .error (.other e))
  | (db, none) => (db, .ok db.users)

/-- The zero value of uuid.UUID, printed. -/
def uuidNil : UUID := "00000000-0000-0000-0000-000000000000"

/-- Call `Save`: without a primary key it is Create; with one, the update time is
set and every column of the row under that key is overwritten, unless the unique
index on `Email` refuses; when no row has the key, the record goes through the
insert of Create, hook included. -/
def DB.Save (w : World) (db : DB) (u : User) : DB × Except DBError User :=
  if u.ID == uuidNil then db.Create w u else
  match db.call (.Save u) with
  | (db, some e) => (db, .error (.other e))
  | (db, none) =>
    let u := { u with UpdatedAt := w.now }
    if db.users.any (fun x => x.ID != u.ID && x.Email == u.Email) then
      (db, .error (.other "duplicate key value violates unique constraint"))
    else if db.users.any (fun x => x.ID == u.ID) then
      ({ db with users := db.users.map (fun x => if x.ID == u.ID then u else x) }, .ok u)
    else
      let u := u.BeforeCreate w
      if db.users.any (fun x => x.ID == u.ID) then
        (db, .error (.other "duplicate key value violates unique constraint"))
      else ({ db with users := db.users ++ [u] }, .ok u)

/-- Call `Delete` with a record: `DELETE FROM users WHERE id = u.ID`; a record
without a primary key gives no condition, which gorm refuses before any statement. -/
def DB.Delete (db : DB) (u : User) : DB × Except DBError Unit :=
  if u.ID == uuidNil then (db, .error (.other "WHERE conditions required")) else
  match db.call (.Delete u) with
  | (db, some e) => (db, .error (.other e))
  | (db, none) => ({ db with users := db.users.filter (fun x => x.ID != u.ID) }, .ok ())

/-! ## The gin context -/

/-- A cookie as the arguments of SetCookie, in their order. -/
structure Cookie where
  Name : String
  Value : String
  MaxAge : Int
  Path : String
  Domain : String
  Secure : Bool
  HttpOnly : Bool
deriving DecidableEq, Repr

/-- The request: header fields under their canonical names, cookies under their
names with the value gin hands out, and the body. -/
structure Request where
  Header : List (String × String)
  Cookies : List (String × String)
  Body : String
  /-- The path parameters of the matched route. -/
  Params : List (String × String) := []
deriving DecidableEq, Repr

/-- Type models.UserResponse (user.model.go). -/
structure UserResponse where
  ID : UUID
  FirstName : String
  Name : String
  Birthday : Time
  Gender : String
  Email : String
  Role : String
  Address : String
  SubscriptionCode : String
  CreatedAt : Time
  UpdatedAt : Time
deriving DecidableEq, Repr

/-- A response body, before its JSON encoding: a `gin.H` of strings, one user, a list
of users, or a user response. A `models.User` has no json tags, so its encoding
carries every field, `Password` included. -/
inductive Body where
  | H (fields : List (String × String))
  | user (u : User)
  | users (us : List User)
  | userResponse (r : UserResponse)
deriving DecidableEq, Repr

/-- Type gin.Context: the request, the keys set on the context, whether the chain
was aborted, and the response written so far. -/
structure Context where
  Request : Request
  Keys : List (String × Any)
  aborted : Bool
  status : Option Int
  body : Option Body
  cookies : List Cookie
deriving DecidableEq, Repr

/-- Method Get of http.Header: the first value under the key, or the empty
string. -/
def Request.HeaderGet (r : Request) (key : String) : String :=
  (r.Header.lookup key).getD ""

/-- Method Cookie of the context: the value and whether the cookie was found (the
error is nil). -/
def Context.Cookie (c : Context) (name : String) : String × Bool :=
  match c.Request.Cookies.lookup name with
  | some v => (v, true)
  | none => ("", false)

/-- Method Param of the context: the value of the path parameter, or the empty
string. -/
def Context.Param (c : Context) (key : String) : String :=
  (c.Request.Params.lookup key).getD ""

/-- Method Get of the context. -/
def Context.Get (c : Context) (key : String) : Option Any :=
  c.Keys.lookup key

/-- Method Set of the context. -/
def Context.Set (c : Context) (key : String) (value : Any) : Context :=
  { c with Keys := (key, value) :: c.Keys.filter (fun kv => kv.1 != key) }

/-- Method SetCookie of the context: an empty path becomes `/`. -/
def Context.SetCookie (c : Context) (name value : String) (maxAge : Int)
    (path domain : String) (secure httpOnly : Bool) : Context :=
  { c with cookies := c.cookies ++
      [⟨name, value, maxAge, if path == "" then "/" else path, domain, secure, httpOnly⟩] }

/-- A handler of the chain: the context and the store go in and come out, or the
handler panics. When a handler returns without having aborted, the chain goes on to
the next handler (a closing `context.Next()` is that same step). -/
abbrev HandlerFunc := Context → DB → Except String (Context × DB)

/-- The Go `int` of a 64-bit platform: wrap-around on overflow. -/
def wrapInt (x : Int) : Int :=
  (x + 2 ^ 63) % 2 ^ 64 - 2 ^ 63

/-! ## utils/response.go, utils/getDatabaseInContext.go -/

/-- Function utils.AbortWithError. -/
def AbortWithError (c : Context) (code : Int) (message : String) : Context :=
  { c with aborted := true, status := some code,
           body := some (.H [("status", "fail"), ("message", message)]) }

/-- Function utils.SendSuccess. -/
def SendSuccess (c : Context) (code : Int) (data : Body) : Context :=
  { c with status := some code, body := some data }

/-- Function utils.GetDatabaseInContext. The outer error is the panic of the
unchecked type assertion `database.(*gorm.DB)`; inside, `.ok ()` is the handle and
`.error` the returned error. -/
def GetDatabaseInContext (context : Context) : Except String (Except String Unit) :=
  match context.Get "db" with
  | none => .ok (.error "database not available")
  | some .gormDB => .ok (.ok ())
  | some _ => .error "interface conversion: interface \x7b\x7d is not *gorm.DB"

/-! ## utils/password.go -/

/-- Function utils.HashPassword. -/
def HashPassword (w : World) (password : String) : Except String String :=
  match w.GenerateFromPassword password with
  | .error err => .error ("could not hash password: " ++ err)
  | .ok hashedPassword => .ok hashedPassword

/-- Function utils.VerifyPassword: `true` for a nil error. -/
def VerifyPassword (w : World) (hashedPassword candidatePassword : String) : Bool :=
  w.CompareHashAndPassword hashedPassword candidatePassword

/-! ## utils/token.go -/

/-- Method SignedString of a new token: the signing string, its signature under the
key, and the two joined by a dot. -/
def SignedString (w : World) (method : SigningMethod) (claims : MapClaims)
    (key : RSAPrivateKey) : Except String String :=
  match w.SigningString method claims with
  | .error err => .error err
  | .ok sstr =>
    match w.Sign method sstr key with
    | .error err => .error err
    | .ok sig => .ok (Join [sstr, sig] ".")

/-- The claims GenerateToken fills in, `now` being `time.Now().UTC()`. -/
def GenerateToken.claims (w : World) (ttl : Int) (payload : UUID) : MapClaims :=
  let now := w.now
  { sub := some (.str payload)
    exp := some (now.Add ttl).Unix
    iat := some now.Unix
    nbf := some now.Unix }

/-- Function utils.GenerateToken, the payload being a user ID; its JSON form in the
`sub` claim is its text. -/
def GenerateToken (w : World) (ttl : Int) (payload : UUID) (privateKey : String) :
    Except String String :=
  match w.DecodeString privateKey with
  | .error err => .error ("could not decode key: " ++ err)
  | .ok decodedPrivateKey =>
    match w.ParseRSAPrivateKeyFromPEM decodedPrivateKey with
    | .error err => .error ("create: parse key: " ++ err)
    | .ok key =>
      let claims := GenerateToken.claims w ttl payload
      match SignedString w SigningMethodRS256 claims key with
      | .error err => .error ("create: sign token: " ++ err)
      | .ok token => .ok token

/-- The key function ValidateToken hands to jwt.Parse: the type assertion
`t.Method.(*jwt.SigningMethodRSA)`, then the key. -/
def keyFunc (key : RSAPublicKey) (t : Token) : Except String RSAPublicKey :=
  match t.Method with
  | .RSA _ => .ok key
  | _ => .error ("unexpected method: " ++ t.Method.Alg)

/-- Method Valid of jwt.MapClaims at the time `now` (Unix seconds): the text of the
last failed check, or nil. An absent or zero claim passes. -/
def MapClaims.Valid (m : MapClaims) (now : Int) : Option String :=
  let inner : Option String := none
  let inner := match m.exp with
    | some exp => if exp != 0 && !(now ≤ exp) then some "Token is expired" else inner
    | none => inner
  let inner := match m.iat with
    | some iat => if iat != 0 && !(now ≥ iat) then some "Token used before issued" else inner
    | none => inner
  let inner := match m.nbf with
    | some nbf => if nbf != 0 && !(now ≥ nbf) then some "Token is not valid yet" else inner
    | none => inner
  inner

/-- Function jwt.Parse with a key function: the unverified parse, the key lookup,
the claims against the clock, the signature against the key. -/
def Parse (w : World) (tokenString : String)
    (keyFunc : Token → Except String RSAPublicKey) : Except String Token :=
  match w.ParseUnverified tokenString with
  | .error err => .error err
  | .ok token =>
    match keyFunc token with
    | .error err => .error err
    | .ok key =>
      let vErr := token.Claims.Valid w.now.Unix
      let vErr :=
        if !w.Verify token.Method token.signingString token.Signature key then
          some "crypto/rsa: verification error" else vErr
      match vErr with
      | none => .ok { token with Valid := true }
      | some err => .error err

/-- Function utils.ValidateToken: the `sub` claim (`none` when the claims have no
such key), or an error. -/
def ValidateToken (w : World) (token publicKey : String) :
    Except String (Option JSONValue) :=
  match w.DecodeString publicKey with
  | .error err => .error ("could not decode: " ++ err)
  | .ok decodedPublicKey =>
    match w.ParseRSAPublicKeyFromPEM decodedPublicKey with
    | .error err => .error ("validate: parse key: " ++ err)
    | .ok key =>
      match Parse w token (keyFunc key) with
      | .error err => .error ("validate: " ++ err)
      | .ok parsedToken =>
        if !parsedToken.Valid then .error "validate: invalid token"
        else .ok parsedToken.Claims.sub

/-! ## middlewares -/

/-- Function middlewares.InjectDB. -/
def InjectDB : HandlerFunc := fun c db =>
  .ok (c.Set "db" .gormDB, db)

/-- The token DeserializeUser selects: the second header field after `Bearer`, else
the cookie. Indexing `fields[1]` in a slice of length one is a run-time panic. -/
def selectAccessToken (fields : List String) (cookie : String) : Except String String :=
  if fields.length != 0 && fields[0]? == some "Bearer" then
    match fields[1]? with
    | some accessToken => .ok accessToken
    | none => .error "runtime error: index out of range [1] with length 1"
  else
    -- `else if err == nil`: err is the error of GetDatabaseInContext, nil here
    .ok cookie

/-- Function middlewares.DeserializeUser. -/
def DeserializeUser (w : World) : HandlerFunc := fun context db =>
  match GetDatabaseInContext context with
  | .error panic => .error panic
  | .ok (.error err) => .ok (AbortWithError context 500 err, db)
  | .ok (.ok ()) =>
    let cookie := (context.Cookie "access_token").1
    let authorizationHeader := context.Request.HeaderGet "Authorization"
    let fields := Fields authorizationHeader
    match selectAccessToken fields cookie with
    | .error panic => .error panic
    | .ok accessToken =>
      if accessToken == "" then
        .ok (AbortWithError context 401 "You are not logged in", db)
      else
        let config := w.config
        match ValidateToken w accessToken config.AccessTokenPublicKey with
        | .error _ => .ok (AbortWithError context 401 "The access token is not valid", db)
        | .ok sub =>
          match db.First .id (Sprint sub) with
          | (db, .error _) =>
            .ok (AbortWithError context 404
              "the user belonging to this token no longer exists", db)
          | (db, .ok user) => .ok (context.Set "currentUser" (.userPtr user), db)

/-- Function middlewares.CheckUserRole. -/
def CheckUserRole (role : String) : HandlerFunc := fun context db =>
  match context.Get "currentUser" with
  | none => .ok (AbortWithError context 401 "You are not logged in", db)
  | some value =>
    match value with
    | .userPtr currentUser =>
      if currentUser.Role != role then
        .ok (AbortWithError context 401 "You are not allowed", db)
      else .ok (context, db)
    | _ => .ok (AbortWithError context 401 "invalid user type", db)

/-! ## controllers/auth/auth.controller.go -/

/-- The record SignUpUser builds from the payload and the hash; the fields the
struct literal leaves out have their zero value. -/
def SignUpUser.newUser (w : World) (payload : SignUpInput) (hashedPassword : String) : User :=
  { ID := "00000000-0000-0000-0000-000000000000"
    FirstName := payload.FirstName
    Name := payload.Name
    Email := w.ToLower payload.Email
    Password := hashedPassword
    Birthday := payload.Birthday
    Gender := payload.Gender
    Role := "user"
    Verified := false
    Address := ⟨"", false⟩
    SubscriptionCode := ⟨"", false⟩
    IsActive := false
    VerificationCode := ⟨"", false⟩
    CreatedAt := ⟨0⟩
    UpdatedAt := ⟨0⟩
    DeletedAt := ⟨0⟩ }

/-- Method SignUpUser of the auth controller. -/
def SignUpUser (w : World) : HandlerFunc := fun context db =>
  match GetDatabaseInContext context with
  | .error panic => .error panic
  | .ok (.error err) => .ok (AbortWithError context 500 err, db)
  | .ok (.ok ()) =>
    match w.bindSignUpInput context.Request.Body with
    | .error err => .ok (AbortWithError context 400 err, db)
    | .ok none => .error "runtime error: invalid memory address or nil pointer dereference"
    | .ok (some payload) =>
      match payload.Validate w with
      | some err => .ok (AbortWithError context 400 err.Error, db)
      | none =>
        match HashPassword w payload.Password with
        | .error err => .ok (AbortWithError context 500 err, db)
        | .ok hashedPassword =>
          let newUser := SignUpUser.newUser w payload hashedPassword
          match newUser.Validate w with
          | some err => .ok (AbortWithError context 400 err.Error, db)
          | none =>
            match db.First .email newUser.Email with
            | (db, .ok _) =>
              .ok (AbortWithError context 409 "User with that email already exists", db)
            | (db, .error _) =>
              match db.Create w newUser with
              | (db, .error _) =>
                .ok (AbortWithError context 502 "Something bad happened", db)
              | (db, .ok _) =>
                .ok (SendSuccess context 201 (.H [("status", "success")]), db)

/-- Method SignInUser of the auth controller. -/
def SignInUser (w : World) : HandlerFunc := fun context db =>
  match GetDatabaseInContext context with
  | .error panic => .error panic
  | .ok (.error err) => .ok (AbortWithError context 500 err, db)
  | .ok (.ok ()) =>
    match w.bindSignInInput context.Request.Body with
    | .error err => .ok (AbortWithError context 400 err, db)
    | .ok none => .error "runtime error: invalid memory address or nil pointer dereference"
    | .ok (some payload) =>
      match payload.Validate w with
      | some err => .ok (AbortWithError context 400 err.Error, db)
      | none =>
        match db.First .email (w.ToLower payload.Email) with
        | (db, .error _) =>
          .ok (AbortWithError context 401 "Invalid email or Password", db)
        | (db, .ok user) =>
          if !VerifyPassword w user.Password payload.Password then
            .ok (AbortWithError context 401 "Invalid email or Password", db)
          else
            -- `config, _ := configs.LoadConfig()`; the test `err != nil` that follows
            -- reads the nil error of payload.Validate and never fires
            let config := w.config
            match GenerateToken w config.AccessTokenExpiresIn user.ID
                config.AccessTokenPrivateKey with
            | .error err => .ok (AbortWithError context 500 err, db)
            | .ok accessToken =>
              match GenerateToken w config.RefreshTokenExpiresIn user.ID
                  config.RefreshTokenPrivateKey with
              | .error err => .ok (AbortWithError context 500 err, db)
              | .ok refreshToken =>
                let context := context.SetCookie "access_token" accessToken
                  (wrapInt (config.AccessTokenMaxAge * 60)) "/" "localhost" false true
                let context := context.SetCookie "refresh_token" refreshToken
                  (wrapInt (config.RefreshTokenMaxAge * 60)) "/" "localhost" false true
                let context := context.SetCookie "logged_in" "true"
                  (wrapInt (config.AccessTokenMaxAge * 60)) "/" "localhost" false false
                .ok (SendSuccess context 200
                  (.H [("status", "success"), ("token", accessToken)]), db)

/-- Method LogoutUser of the auth controller. -/
def LogoutUser : HandlerFunc := fun context db =>
  let context := context.SetCookie "access_token" "" (-1) "/" "localhost" false true
  let context := context.SetCookie "refresh_token" "" (-1) "/" "localhost" false true
  let context := context.SetCookie "logged_in" "" (-1) "/" "localhost" false false
  .ok (SendSuccess context 200 (.H [("status", "success")]), db)

/-- Method RefreshAccessToken of the auth controller. -/
def RefreshAccessToken (w : World) : HandlerFunc := fun context db =>
  match context.Cookie "refresh_token" with
  | (_, false) => .ok (AbortWithError context 401 "could not found refresh token", db)
  | (cookie, true) =>
    match GetDatabaseInContext context with
    | .error panic => .error panic
    | .ok (.error err) => .ok (AbortWithError context 500 err, db)
    | .ok (.ok ()) =>
      -- `config, _ := configs.LoadConfig()`; the test `err != nil` that follows reads
      -- the nil error of GetDatabaseInContext and never fires
      let config := w.config
      match ValidateToken w cookie config.RefreshTokenPublicKey with
      | .error _ => .ok (AbortWithError context 401 "The refresh token is not valid", db)
      | .ok sub =>
        match db.First .id (Sprint sub) with
        | (db, .error _) =>
          .ok (AbortWithError context 404
            "the user belonging to this token no logger exists", db)
        | (db, .ok user) =>
          match GenerateToken w config.AccessTokenExpiresIn user.ID
              config.AccessTokenPrivateKey with
          | .error err => .ok (AbortWithError context 500 err, db)
          | .ok accessToken =>
            let context := context.SetCookie "access_token" accessToken
              (wrapInt (config.AccessTokenMaxAge * 60)) "/" "localhost" false true
            let context := context.SetCookie "logged_in" "true"
              (wrapInt (config.AccessTokenMaxAge * 60)) "/" "localhost" false false
            .ok (SendSuccess context 200
              (.H [("status", "success"), ("token", accessToken)]), db)

/-! ## controllers/user/user.controller.go -/

/-- Method GetUsers of the user controller. -/
def GetUsers : HandlerFunc := fun context db =>
  match GetDatabaseInContext context with
  | .error panic => .error panic
  | .ok (.error err) => .ok (AbortWithError context 500 err, db)
  | .ok (.ok ()) =>
    match db.Find with
    | (db, .error err) => .ok (AbortWithError context 500 err.Error, db)
    | (db, .ok users) =>
      if users.length == 0 then
        .ok (AbortWithError context 404 "can't found any users", db)
      else .ok (SendSuccess context 200 (.users users), db)

/-- Method GetUserByID of the user controller. -/
def GetUserByID (w : World) : HandlerFunc := fun context db =>
  let idStr := context.Param "id"
  match w.uuidParse idStr with
  | .error _ => .ok (AbortWithError context 400 "Invalid UUID format", db)
  | .ok _ =>
    match GetDatabaseInContext context with
    | .error panic => .error panic
    | .ok (.error err) => .ok (AbortWithError context 500 err, db)
    | .ok (.ok ()) =>
      match db.First .id idStr with
      | (db, .error .ErrRecordNotFound) =>
        .ok (AbortWithError context 404 "Can't found user", db)
      | (db, .error err) => .ok (AbortWithError context 500 err.Error, db)
      | (db, .ok user) => .ok (SendSuccess context 200 (.user user), db)

/-- Method UpdateUser of the user controller. -/
def UpdateUser (w : World) : HandlerFunc := fun context db =>
  let idStr := context.Param "id"
  match w.uuidParse idStr with
  | .error _ => .ok (AbortWithError context 400 "Invalid UUID format", db)
  | .ok _ =>
    match w.bindUser context.Request.Body with
    | .error err => .ok (AbortWithError context 400 err, db)
    | .ok user =>
      match user.Validate w with
      | some err => .ok (AbortWithError context 400 err.Error, db)
      | none =>
        match GetDatabaseInContext context with
        | .error panic => .error panic
        | .ok (.error err) => .ok (AbortWithError context 500 err, db)
        | .ok (.ok ()) =>
          match db.First .id idStr with
          | (db, .error .ErrRecordNotFound) =>
            .ok (AbortWithError context 404 "Can't found user", db)
          | (db, .error err) => .ok (AbortWithError context 500 err.Error, db)
          | (db, .ok oldUser) =>
            let user := { user with ID := oldUser.ID }
            match db.Save w user with
            | (db, .error err) => .ok (AbortWithError context 500 err.Error, db)
            | (db, .ok user) => .ok (SendSuccess context 200 (.user user), db)

/-- Method DeleteUser of the user controller. -/
def DeleteUser (w : World) : HandlerFunc := fun context db =>
  let idStr := context.Param "id"
  match w.uuidParse idStr with
  | .error _ => .ok (AbortWithError context 400 "Invalid UUID format", db)
  | .ok _ =>
    match GetDatabaseInContext context with
    | .error panic => .error panic
    | .ok (.error err) => .ok (AbortWithError context 500 err, db)
    | .ok (.ok ()) =>
      match db.First .id idStr with
      | (db, .error .ErrRecordNotFound) =>
        .ok (AbortWithError context 404 "Can't found user", db)
      | (db, .error err) => .ok (AbortWithError context 500 err.Error, db)
      | (db, .ok user) =>
        match db.Delete user with
        | (db, .error err) => .ok (AbortWithError context 500 err.Error, db)
        | (db, .ok ()) => .ok (SendSuccess context 200 (.H []), db)

/-- Method GetMe of the user controller. The type assertion `obj.(*models.User)` is
unchecked: another type under the key is a panic. -/
def GetMe : HandlerFunc := fun context db =>
  match context.Get "currentUser" with
  | none => .ok (AbortWithError context 401 "You are not logged in", db)
  | some (.userPtr currentUser) =>
    let userResponse : UserResponse :=
      { ID := currentUser.ID
        FirstName := ""
        Name := currentUser.Name
        Birthday := currentUser.Birthday
        Gender := currentUser.Gender
        Email := currentUser.Email
        Role := currentUser.Role
        Address := currentUser.Address.String
        SubscriptionCode := currentUser.SubscriptionCode.String
        CreatedAt := currentUser.CreatedAt
        UpdatedAt := currentUser.UpdatedAt }
    .ok (SendSuccess context 200 (.userResponse userResponse), db)
  | some _ => .error "interface conversion: interface \x7b\x7d is not *models.User"

/-! ## cmd/MyGPT/main.go -/

/-- The chain of a route registered under `/admin`, from InjectDB on: the store
handle, the session resolver, the role gate for `admin`, then the handler of the
route. -/
def adminRoute (w : World) (handler : HandlerFunc) : List HandlerFunc :=
  [InjectDB, DeserializeUser w, CheckUserRole "admin", handler]

/-- Function gin's chain of handlers for one request: each handler in turn, until one
aborts or panics. -/
def runChain : List HandlerFunc → Context → DB → Except String (Context × DB)
  | [], c, db => .ok (c, db)
  | h :: hs, c, db =>
    if c.aborted then .ok (c, db) else
    match h c db with
    | .error panic => .error panic
    | .ok (c, db) => runChain hs c db

/-! ## The password requirements, as the specification words them -/

/-- At least one digit 0-9. -/
def hasDigit (s : String) : Bool :=
  s.toList.any (fun c => decide ('0' ≤ c ∧ c ≤ '9'))

/-- The special characters of the specification. -/
def specialChars : List Char :=
  ['*', '!', '.', '@', '$', '%', '^', '&', '(', ')', '\x7b', '\x7d', '[', ']', ':', ';',
   '<', '>', ',', '.', '?', '/', '~', '_', '+', '-', '=']

/-- At least one special character. -/
def hasSpecial (s : String) : Bool :=
  s.toList.any (fun c => decide (c ∈ specialChars))

/-- At least one letter A-Z. -/
def hasUpper (s : String) : Bool :=
  s.toList.any (fun c => decide ('A' ≤ c ∧ c ≤ 'Z'))

/-- At least one letter a-z. -/
def hasLower (s : String) : Bool :=
  s.toList.any (fun c => decide ('a' ≤ c ∧ c ≤ 'z'))

/-- The four requirements in their fixed order, each with its message. -/
def requirements : List ((String → Bool) × String) :=
  [(hasDigit, "must contain at least one digit"),
   (hasSpecial, "must contain at least one special character"),
   (hasUpper, "must contain at least one uppercase letter"),
   (hasLower, "must contain at least one lowercase letter")]

/-- The messages of the requirements `s` fails, in the fixed order. -/
def failedRequirements (s : String) : List String :=
  (requirements.filter (fun r => !r.1 s)).map Prod.snd

/-! ## A sample world, store and requests -/

/-- The same context with other request cookies. -/
def Context.withCookies (c : Context) (cookies : List (String × String)) : Context :=
  { c with Request := { c.Request with Cookies := cookies } }

/-- A bcrypt hash of the usual shape. -/
def sampleHash : String := "$2a$10$N9qo8uLOickgx2ZMRZoMyeIjZAgcfl7p92ldGxad68LJZdL17lhWy"

def sampleConfig : Config :=
  { AccessTokenPrivateKey := "YWNjZXNzLXByaXZhdGU="
    AccessTokenPublicKey := "YWNjZXNzLXB1YmxpYw=="
    RefreshTokenPrivateKey := "cmVmcmVzaC1wcml2YXRl"
    RefreshTokenPublicKey := "cmVmcmVzaC1wdWJsaWM="
    AccessTokenExpiresIn := 900000000000
    RefreshTokenExpiresIn := 3600000000000
    AccessTokenMaxAge := 15
    RefreshTokenMaxAge := 60 }

def sampleSignUpInput : SignUpInput :=
  { FirstName := "John", Name := "Doe", Birthday := ⟨62800000000000000000⟩, Gender := "male",
    Email := "John.Doe@mail.pe", Password := "Password123." }

def sampleSignInInput : SignInInput :=
  { Email := "John.Doe@mail.pe", Password := "Password456." }

/-- The user an update request carries in its body: an ID of its own and a
plaintext password. -/
def sampleUserInput : User :=
  { ID := "11111111-2222-3333-4444-555555555555", FirstName := "Johnny", Name := "Doe",
    Birthday := ⟨62800000000000000000⟩, Gender := "male", Email := "johnny.doe@mail.pe",
    Password := "Password123.", Role := "admin", Address := ⟨"", false⟩,
    SubscriptionCode := ⟨"", false⟩, IsActive := true, VerificationCode := ⟨"", false⟩,
    Verified := false, CreatedAt := ⟨0⟩, UpdatedAt := ⟨0⟩, DeletedAt := ⟨0⟩ }

/-- A world with toy libraries: a token is `jwt.`, its subject and `.sig`, every
hash is `sampleHash`, which only `Password123.` matches, the bodies `sign-up`,
`sign-in` and `user` bind to the sample payloads, and a UUID is any text of 36
characters. -/
def sampleWorld : World where
  now := ⟨63850000000000000000⟩
  config := sampleConfig
  ToLower := fun s => String.mk (s.toList.map Char.toLower)
  IsEmail := fun s => s.toList.contains '@'
  GenerateFromPassword := fun _ => .ok sampleHash
  CompareHashAndPassword := fun h p => h == sampleHash && p == "Password123."
  uuidNew := "6ba7b810-9dad-11d1-80b4-00c04fd430c8"
  DecodeString := fun s => .ok (s.toList.map Char.toNat)
  ParseRSAPublicKeyFromPEM := fun b => .ok ⟨3233 + b.length, 17⟩
  ParseRSAPrivateKeyFromPEM := fun b => .ok ⟨3233 + b.length, 17, 2753⟩
  ParseUnverified := fun t =>
    match t.toList with
    | 'j' :: 'w' :: 't' :: '.' :: rest =>
      match rest.reverse with
      | 'g' :: 'i' :: 's' :: '.' :: sub =>
        .ok ⟨.RSA "RS256", ⟨some (.str (String.mk sub.reverse)), none, none, none⟩,
          "jwt." ++ String.mk sub.reverse, "sig", false⟩
      | _ => .error "token contains an invalid number of segments"
    | _ => .error "token contains an invalid number of segments"
  Verify := fun _ _ sig _ => sig == "sig"
  SigningString := fun _ claims =>
    match claims.sub with
    | some (.str sub) => .ok ("jwt." ++ sub)
    | _ => .error "json: unsupported value"
  Sign := fun _ _ _ => .ok "sig"
  bindSignUpInput := fun body =>
    if body == "sign-up" then .ok (some sampleSignUpInput) else .error "EOF"
  bindSignInInput := fun body =>
    if body == "sign-in" then .ok (some sampleSignInInput) else .error "EOF"
  bindUser := fun body =>
    if body == "user" then .ok sampleUserInput else .error "EOF"
  uuidParse := fun s =>
    if s.length == 36 then .ok s else .error "invalid UUID length"

/-- A registered user, with the role user. -/
def sampleUser : User :=
  { ID := "6ba7b810-9dad-11d1-80b4-00c04fd430c8", FirstName := "John", Name := "Doe",
    Birthday := ⟨62800000000000000000⟩, Gender := "male", Email := "john.doe@mail.pe",
    Password := sampleHash, Role := "user", Address := ⟨"", false⟩,
    SubscriptionCode := ⟨"", false⟩, IsActive := true, VerificationCode := ⟨"", false⟩,
    Verified := false, CreatedAt := ⟨63850000000000000000⟩,
    UpdatedAt := ⟨63850000000000000000⟩, DeletedAt := ⟨0⟩ }

/-- A store holding the sample user, and the empty store. -/
def sampleDB : DB := { users := [sampleUser], faults := [], log := [] }

def emptyDB : DB := { users := [], faults := [], log := [] }

/-- A fresh context, as InjectDB leaves it, for a request with the given
Authorization header, `access_token` cookie and body. -/
def sampleContext (authorization : Option String) (cookie : Option String)
    (body : String) : Context :=
  { Request :=
      { Header := authorization.toList.map (fun v => ("Authorization", v))
        Cookies := cookie.toList.map (fun v => ("access_token", v))
        Body := body }
    Keys := [("db", .gormDB)]
    aborted := false
    status := none
    body := none
    cookies := [] }

/-- The sample context with an identity attached, as DeserializeUser leaves it. -/
def sampleContextWith (u : User) : Context :=
  (sampleContext none none "").Set "currentUser" (.userPtr u)

/-- The sample user as an administrator. -/
def sampleAdmin : User := { sampleUser with Role := "admin" }

/-- A handler that marks the context it runs on. -/
def markHandler : HandlerFunc := fun c db =>
  .ok (SendSuccess c 200 (.H []), db)

/-- The shape of what bcrypt returns at cost 10: `$2a$10$`, then 53 characters of
the bcrypt alphabet, 22 of salt and 31 of hash. -/
def isBcryptHash (h : String) : Bool :=
  match h.toList with
  | '$' :: '2' :: 'a' :: '$' :: '1' :: '0' :: '$' :: rest =>
    rest.length == 53 && rest.all (fun c =>
      "./ABCDEFGHIJKLMNOPQRSTUVWXYZabcdefghijklmnopqrstuvwxyz0123456789".toList.contains c)
  | _ => false

/-- A bcrypt hash of the usual shape in which no salt or hash character happens to
be an uppercase letter. -/
def lowercaseHash : String := "$2a$10$abcdefghijklmnopqrstuu0123456789abcdefghijklmnopqrsta"

/-- The sample world on a request where the salted hashing returns `lowercaseHash`. -/
def lowercaseWorld : World :=
  { sampleWorld with GenerateFromPassword := fun _ => .ok lowercaseHash }

/-- A valid sign-up payload whose password is 73 bytes long. -/
def longSignUpInput : SignUpInput :=
  { sampleSignUpInput with
    Password := "Password123.xxxxxxxxxxxxxxxxxxxxxxxxxxxxxxxxxxxxxxxxxxxxxxxxxxxxxxxxxxxxxxxxx" }

/-- The sample world with a bcrypt that refuses a password of more than 72 bytes,
on a request whose body binds to `longSignUpInput`. -/
def longPasswordWorld : World :=
  { sampleWorld with
    GenerateFromPassword := fun p =>
      if p.utf8ByteSize > 72 then .error "bcrypt: password length exceeds 72 bytes"
      else .ok sampleHash
    bindSignUpInput := fun body =>
      if body == "sign-up" then .ok (some longSignUpInput) else .error "EOF" }

/-- The store after the sample registration on the empty store. -/
def registeredDB : DB :=
  match SignUpUser sampleWorld (sampleContext none none "sign-up") emptyDB with
  | .ok (_, db) => db
  | .error _ => emptyDB

/-- The claim C8 as it is worded: a valid payload whose email, case put aside, is
that of an identity registered through SignUpUser is answered 409, and no record is
created. -/
def duplicateIsConflict : Prop :=
  ∀ (w0 w : World) (context0 context c0 : Context) (db0 db : DB)
    (payload0 payload : SignUpInput),
    SignUpUser w0 context0 db0 = .ok (c0, db) → c0.status = some 201 →
    w0.bindSignUpInput context0.Request.Body = .ok (some payload0) →
    context.Get "db" = some .gormDB →
    w.bindSignUpInput context.Request.Body = .ok (some payload) →
    payload.Validate w = none →
    w.ToLower payload.Email = w0.ToLower payload0.Email →
    ∃ c db2, SignUpUser w context db = .ok (c, db2) ∧ c.status = some 409 ∧
      db2.users = db.users

/-- The claim C4 as it is worded: a role mismatch is answered 403. -/
def mismatchIsForbidden : Prop :=
  ∀ (role : String) (context : Context) (db : DB) (u : User),
    context.Get "currentUser" = some (.userPtr u) → u.Role ≠ role →
    ∃ c, CheckUserRole role context db = .ok (c, db) ∧ c.status = some 403

/-- The sample world on a request whose body `sign-in` binds to the sample email
with its correct password. -/
def goodSignInWorld : World :=
  { sampleWorld with
    bindSignInInput := fun body =>
      if body == "sign-in" then .ok (some ⟨"John.Doe@mail.pe", "Password123."⟩)
      else .error "EOF" }

/-- A fresh context, as InjectDB leaves it, for a request with the given
`refresh_token` cookie. -/
def refreshContext (cookie : Option String) : Context :=
  { Request :=
      { Header := []
        Cookies := cookie.toList.map (fun v => ("refresh_token", v))
        Body := "" }
    Keys := [("db", .gormDB)]
    aborted := false
    status := none
    body := none
    cookies := [] }

/-- The refresh token of the sample user in the sample world. -/
def sampleRefreshToken : String := "jwt.6ba7b810-9dad-11d1-80b4-00c04fd430c8.sig"

/-- The sample world with a parser that reads the header `alg` as RS384. -/
def rs384World : World :=
  { sampleWorld with
    ParseUnverified := fun t =>
      match sampleWorld.ParseUnverified t with
      | .ok token => .ok { token with Method := .RSA "RS384" }
      | .error err => .error err }

/-- The sample world seven tenths of a second later. -/
def lateWorld : World :=
  { sampleWorld with now := ⟨63850000000700000000⟩ }

/-- The claim C19 as it is worded: `nbf = iat`, `iat` the issuance time in whole
seconds, and `exp = iat + ttl` with the ttl put in seconds, here with both sides
scaled to nanoseconds, the unit of the ttl. -/
def claimsAddTtlExactly : Prop :=
  ∀ (w : World) (ttl : Int) (payload : UUID),
    (GenerateToken.claims w ttl payload).nbf = (GenerateToken.claims w ttl payload).iat ∧
    ∃ iat exp,
      (GenerateToken.claims w ttl payload).iat = some iat ∧
      (GenerateToken.claims w ttl payload).exp = some exp ∧
      iat = w.now.Unix ∧
      exp * 1000000000 = iat * 1000000000 + ttl

/-- A fresh context, as InjectDB leaves it, for a request on a route with the path
parameter `id`, with the given body. -/
def paramContext (id : String) (body : String) : Context :=
  { Request := { Header := [], Cookies := [], Body := body, Params := [("id", id)] }
    Keys := [("db", .gormDB)]
    aborted := false
    status := none
    body := none
    cookies := [] }

/-- The sample store, its next call failing with the error `e`, which is not
gorm.ErrRecordNotFound. -/
def faultyDB (e : String) : DB := { sampleDB with faults := [some e] }

/-- The sample store with another stored credential for its user. -/
def credentialDB (password : String) : DB :=
  { sampleDB with users := [{ sampleUser with Password := password }] }

/-- The access token of the sample user in the sample world. -/
def sampleAccessToken : String := "jwt.6ba7b810-9dad-11d1-80b4-00c04fd430c8.sig"

/-- The record UpdateUser saves on the sample update of the sample user. -/
def sampleSaved : User :=
  { sampleUserInput with ID := sampleUser.ID, UpdatedAt := sampleWorld.now }

/-- A well-formed UUID that no sample user has. -/
def unknownID : String := "6ba7b810-9dad-11d1-80b4-00c04fd430c9"

/-- The claim C27 as it is worded, for UpdateUser: with the store at hand, a request
whose `id` is a valid UUID that no user has is answered 404, and the users are as
they were. -/
def unknownIdIsNotFound : Prop :=
  ∀ (w : World) (context : Context) (db : DB) (id : UUID),
    context.Get "db" = some .gormDB → db.faults.head?.join = none →
    w.uuidParse (context.Param "id") = .ok id →
    (∀ u ∈ db.users, u.ID ≠ context.Param "id") →
    ∃ c d, UpdateUser w context db = .ok (c, d) ∧ c.status = some 404 ∧
      d.users = db.users

/-- The key pair and the JWT library fit the claims: both keys decode and parse, the
claims serialise to a signing string, the private key signs it, the parser reads
the token back into the same method, claims, signing string and signature, and the
public key verifies that signature. -/
def RoundTrip (w : World) (privateKey publicKey : String) (claims : MapClaims) : Prop :=
  ∃ (dpriv dpub : Bytes) (key : RSAPrivateKey) (pub : RSAPublicKey) (sstr sig : String),
    w.DecodeString privateKey = .ok dpriv ∧
    w.ParseRSAPrivateKeyFromPEM dpriv = .ok key ∧
    w.DecodeString publicKey = .ok dpub ∧
    w.ParseRSAPublicKeyFromPEM dpub = .ok pub ∧
    w.SigningString SigningMethodRS256 claims = .ok sstr ∧
    w.Sign SigningMethodRS256 sstr key = .ok sig ∧
    w.ParseUnverified (Join [sstr, sig] ".") =
      .ok ⟨SigningMethodRS256, claims, sstr, sig, false⟩ ∧
    w.Verify SigningMethodRS256 sstr sig pub = true

/-- The sample world seven tenths of a second into its second, with a parser that
reads the token of `subject` issued then for 1.4 seconds. -/
def issueWorld : World :=
  { lateWorld with
    ParseUnverified := fun t =>
      if t == "jwt.subject.sig" then
        .ok ⟨SigningMethodRS256,
          ⟨some (.str "subject"), some 1714403202, some 1714403200, some 1714403200⟩,
          "jwt.subject", "sig", false⟩
      else .error "token contains an invalid number of segments" }

/-- The claim C21 as it is worded, on expiry: the token GenerateToken issued under a
matching key pair for a `ttl > 0` is refused once the clock, `t`, is past
`iat + ttl`, both sides in nanoseconds since the Unix epoch. -/
def expiresPastTtl : Prop :=
  ∀ (w : World) (s : String) (ttl : Int) (privateKey publicKey token : String) (t : Time),
    0 < ttl → RoundTrip w privateKey publicKey (GenerateToken.claims w ttl s) →
    GenerateToken w ttl s privateKey = .ok token →
    w.now.Unix * 1000000000 + ttl < t.ns - 62135596800000000000 →
    ∃ err, ValidateToken { w with now := t } token publicKey = .error err

/-- The UTF-8 bytes of one character. -/
def utf8EncodeChar (c : Char) : List Nat :=
  let v := c.toNat
  if v ≤ 0x7f then [v]
  else if v ≤ 0x7ff then [v / 64 % 32 + 0xc0, v % 64 + 0x80]
  else if v ≤ 0xffff then [v / 4096 % 16 + 0xe0, v / 64 % 64 + 0x80, v % 64 + 0x80]
  else [v / 262144 % 8 + 0xf0, v / 4096 % 64 + 0x80, v / 64 % 64 + 0x80, v % 64 + 0x80]

/-- The conversion `[]byte(s)`: the UTF-8 bytes of a string. -/
def utf8Bytes (s : String) : List Nat :=
  s.toList.flatMap utf8EncodeChar

/-- The bytes the key schedule of bcrypt reads of a key: the key and a closing zero
byte, read cyclically, 72 bytes in all (the 18 words of the Blowfish P-array). -/
def cyclicKey (key : List Nat) : List Nat :=
  let ckey := key ++ [0]
  (List.range 72).map (fun i => ckey.getD (i % ckey.length) 0)

/-- The bytes of a password that bcrypt reads. -/
def bcryptKey (password : String) : List Nat :=
  cyclicKey (utf8Bytes password)

/-- What bcrypt gives, collisions of the hash put aside: the hash of a password
compares equal with that password, the comparison reads a password through the
bytes of `bcryptKey` only, and it refuses a password that gives other bytes than the
hashed one. -/
def BcryptLaws (w : World) : Prop :=
  (∀ p h, w.GenerateFromPassword p = .ok h → w.CompareHashAndPassword h p = true) ∧
  (∀ h p q, bcryptKey p = bcryptKey q →
    w.CompareHashAndPassword h p = w.CompareHashAndPassword h q) ∧
  (∀ p q h, w.GenerateFromPassword p = .ok h → w.CompareHashAndPassword h q = true →
    bcryptKey q = bcryptKey p)

/-- A toy hash: the key bytes, as characters, behind the bcrypt prefix. -/
def toyHash (password : String) : String :=
  "$2a$10$" ++ String.mk ((bcryptKey password).map Char.ofNat)

/-- The sample world with a toy bcrypt that refuses to hash more than 72 bytes and
compares by hashing again. -/
def bcryptWorld : World :=
  { sampleWorld with
    GenerateFromPassword := fun p =>
      if (utf8Bytes p).length > 72 then .error "bcrypt: password length exceeds 72 bytes"
      else .ok (toyHash p)
    CompareHashAndPassword := fun h p => h == toyHash p }

/-- A password of 72 bytes that passes the password rules. -/
def password72 : String :=
  "Password123.xxxxxxxxxxxxxxxxxxxxxxxxxxxxxxxxxxxxxxxxxxxxxxxxxxxxxxxxxxxx"

/-- The claim C22 as it is worded: with a bcrypt that keeps its laws, a password
verifies against the hash of `p` exactly when it is `p`. -/
def verifiesExactlyTheSame : Prop :=
  ∀ (w : World), BcryptLaws w → ∀ (p q h : String),
    HashPassword w p = .ok h → (VerifyPassword w h q = true ↔ q = p)

/-! ## Theorems -/

/-- Every field strings.Fields returns is a non-empty string. -/
theorem fieldsAux_ne_empty (cs cur : List Char) : ∀ f ∈ fieldsAux cs cur, f ≠ "" := by
  induction cs generalizing cur with
  | nil =>
    intro f hf
    unfold fieldsAux at hf
    split at hf
    · simp at hf
    · rename_i hcur
      simp only [List.mem_singleton] at hf
      subst hf
      intro h
      have h2 : cur.reverse = [] := by
        have := congrArg String.data h
        simpa using this
      simp at h2
      simp [h2] at hcur
  | cons c cs ih =>
    intro f hf
    unfold fieldsAux at hf
    split at hf
    · split at hf
      · exact ih [] f hf
      · rename_i hcur
        rcases List.mem_cons.mp hf with rfl | hf
        · intro h
          have h2 : cur.reverse = [] := by
            have := congrArg String.data h
            simpa using this
          simp at h2
          simp [h2] at hcur
        · exact ih [] f hf
    · exact ih (c :: cur) f hf

theorem Fields_ne_empty (s : String) : ∀ f ∈ Fields s, f ≠ "" :=
  fieldsAux_ne_empty s.toList []

/-- A character whose code lies in a range all of whose codes are in the list is in
the list. -/
theorem mem_of_range (l : List Char) (lo hi : Nat) (c : Char)
    (hl : ∀ n, lo ≤ n → n ≤ hi → Char.ofNat n ∈ l) (h1 : lo ≤ c.toNat) (h2 : c.toNat ≤ hi) :
    c ∈ l := by
  have := hl c.toNat h1 h2
  rwa [Char.ofNat_toNat] at this

theorem digits_contains (c : Char) :
    "0123456789".toList.contains c = decide ('0' ≤ c ∧ c ≤ '9') := by
  rw [Bool.eq_iff_iff]
  simp only [List.contains, List.elem_iff, decide_eq_true_eq]
  constructor
  · intro h
    simp only [String.toList, List.mem_cons, List.mem_singleton, List.not_mem_nil,
      or_false] at h
    rcases h with rfl | rfl | rfl | rfl | rfl | rfl | rfl | rfl | rfl | rfl <;> decide
  · rintro ⟨h1, h2⟩
    apply mem_of_range _ 48 57 c _ h1 h2
    intro n a b
    interval_cases n <;> decide

theorem uppers_contains (c : Char) :
    "ABCDEFGHIJKLMNOPQRSTUVWXYZ".toList.contains c = decide ('A' ≤ c ∧ c ≤ 'Z') := by
  rw [Bool.eq_iff_iff]
  simp only [List.contains, List.elem_iff, decide_eq_true_eq]
  constructor
  · intro h
    simp only [String.toList, List.mem_cons, List.mem_singleton, List.not_mem_nil,
      or_false] at h
    rcases h with rfl | rfl | rfl | rfl | rfl | rfl | rfl | rfl | rfl | rfl | rfl | rfl | rfl |
      rfl | rfl | rfl | rfl | rfl | rfl | rfl | rfl | rfl | rfl | rfl | rfl | rfl <;> decide
  · rintro ⟨h1, h2⟩
    apply mem_of_range _ 65 90 c _ h1 h2
    intro n a b
    interval_cases n <;> decide

theorem lowers_contains (c : Char) :
    "abcdefghijklmnopqrstuvwxyz".toList.contains c = decide ('a' ≤ c ∧ c ≤ 'z') := by
  rw [Bool.eq_iff_iff]
  simp only [List.contains, List.elem_iff, decide_eq_true_eq]
  constructor
  · intro h
    simp only [String.toList, List.mem_cons, List.mem_singleton, List.not_mem_nil,
      or_false] at h
    rcases h with rfl | rfl | rfl | rfl | rfl | rfl | rfl | rfl | rfl | rfl | rfl | rfl | rfl |
      rfl | rfl | rfl | rfl | rfl | rfl | rfl | rfl | rfl | rfl | rfl | rfl | rfl <;> decide
  · rintro ⟨h1, h2⟩
    apply mem_of_range _ 97 122 c _ h1 h2
    intro n a b
    interval_cases n <;> decide

theorem specials_contains (c : Char) :
    "*!.@$%^&()\x7b\x7d[]:;<>,.?/~_+-=".toList.contains c = decide (c ∈ specialChars) := by
  rw [Bool.eq_iff_iff]
  simp only [List.contains, List.elem_iff, decide_eq_true_eq]
  exact Iff.rfl

theorem ContainsAny_digits (s : String) : ContainsAny s "0123456789" = hasDigit s := by
  unfold ContainsAny hasDigit
  congr 1
  funext c
  exact digits_contains c

theorem ContainsAny_specials (s : String) :
    ContainsAny s "*!.@$%^&()\x7b\x7d[]:;<>,.?/~_+-=" = hasSpecial s := by
  unfold ContainsAny hasSpecial
  congr 1
  funext c
  exact specials_contains c

theorem ContainsAny_uppers (s : String) :
    ContainsAny s "ABCDEFGHIJKLMNOPQRSTUVWXYZ" = hasUpper s := by
  unfold ContainsAny hasUpper
  congr 1
  funext c
  exact uppers_contains c

theorem ContainsAny_lowers (s : String) :
    ContainsAny s "abcdefghijklmnopqrstuvwxyz" = hasLower s := by
  unfold ContainsAny hasLower
  congr 1
  funext c
  exact lowers_contains c

/-- The code's result in terms of the four requirements. -/
theorem PasswordRequirements_str (s : String) :
    PasswordRequirements (.str s) =
      if failedRequirements s = [] then none else some (Join (failedRequirements s) ", ") := by
  simp only [PasswordRequirements, ContainsAny_digits, ContainsAny_specials,
    ContainsAny_uppers, ContainsAny_lowers, failedRequirements, requirements]
  rcases hd : hasDigit s with _ | _ <;> rcases hs : hasSpecial s with _ | _ <;>
    rcases hu : hasUpper s with _ | _ <;> rcases hl : hasLower s with _ | _ <;>
    simp [Join, List.filter_cons, hd, hs, hu, hl]

/-- C5. PasswordRequirements returns nil exactly when the string holds a digit, a
special character, an uppercase and a lowercase letter; otherwise its error message
is the list of the failed requirements, in the fixed order digit, special character,
uppercase letter, lowercase letter, joined by a comma and a space. -/
theorem PasswordRequirements_spec (s : String) :
    (PasswordRequirements (.str s) = none ↔
      (hasDigit s = true ∧ hasSpecial s = true ∧ hasUpper s = true ∧ hasLower s = true)) ∧
    (PasswordRequirements (.str s) =
      if hasDigit s = true ∧ hasSpecial s = true ∧ hasUpper s = true ∧ hasLower s = true
      then none
      else some (", ".intercalate (failedRequirements s))) := by
  rw [PasswordRequirements_str]
  simp only [failedRequirements, requirements, Join]
  rcases hd : hasDigit s with _ | _ <;> rcases hs : hasSpecial s with _ | _ <;>
    rcases hu : hasUpper s with _ | _ <;> rcases hl : hasLower s with _ | _ <;>
    simp [List.filter_cons, hd, hs, hu, hl]

/-! ### The session resolver -/

/-- With a second field after `Bearer`, the selected token is that field, whatever
the cookie. -/
theorem selectAccessToken_bearer (token cookie : String) (rest : List String) :
    selectAccessToken ("Bearer" :: token :: rest) cookie = .ok token := by
  simp [selectAccessToken]

/-- C1. When the Authorization header splits into at least two fields, the first
being exactly `Bearer`, DeserializeUser validates the second field (on a context
that carries the database handle, as InjectDB leaves every context): a token that
fails validation is answered 401, a token that validates is resolved in the store.
The `access_token` cookie is ignored: with any other cookies the outcome is the
same, on the context with those cookies. -/
theorem DeserializeUser_bearer_header_priority (w : World) (context : Context) (db : DB)
    (token : String) (rest : List String)
    (hdb : context.Get "db" = some .gormDB)
    (hfields :
      Fields (context.Request.HeaderGet "Authorization") = "Bearer" :: token :: rest) :
    (DeserializeUser w context db =
      match ValidateToken w token w.config.AccessTokenPublicKey with
      | .error _ => .ok (AbortWithError context 401 "The access token is not valid", db)
      | .ok sub =>
        match db.First .id (Sprint sub) with
        | (db, .error _) =>
          .ok (AbortWithError context 404
            "the user belonging to this token no longer exists", db)
        | (db, .ok user) => .ok (context.Set "currentUser" (.userPtr user), db)) ∧
    (∀ cookies, DeserializeUser w (context.withCookies cookies) db =
      (DeserializeUser w context db).map (fun r => (r.1.withCookies cookies, r.2))) := by
  have hne : token ≠ "" := by
    apply Fields_ne_empty (context.Request.HeaderGet "Authorization")
    rw [hfields]
    simp
  have hdb2 : ∀ cookies, (context.withCookies cookies).Get "db" = some .gormDB := fun _ => hdb
  have hf2 : ∀ cookies,
      Fields ((context.withCookies cookies).Request.HeaderGet "Authorization") =
        "Bearer" :: token :: rest := fun _ => hfields
  constructor
  · simp only [DeserializeUser, GetDatabaseInContext, hdb, hfields, selectAccessToken_bearer]
    simp only [beq_iff_eq, hne, if_false]
  · intro cookies
    simp only [DeserializeUser, GetDatabaseInContext, hdb, hdb2 cookies, hfields, hf2 cookies,
      selectAccessToken_bearer]
    simp only [beq_iff_eq, hne, if_false]
    cases ValidateToken w token w.config.AccessTokenPublicKey with
    | error e => rfl
    | ok sub =>
      rcases hfirst : db.First .id (Sprint sub) with ⟨db2, r⟩
      cases r <;> simp only [hfirst] <;> rfl

/-- C1, on a request whose header carries an invalid token while its cookie carries
a valid one: the answer is 401. -/
theorem DeserializeUser_bearer_header_priority_witness :
    (sampleContext (some "Bearer bad") (some "jwt.6ba7b810-9dad-11d1-80b4-00c04fd430c8.sig")
        "").Get "db" = some .gormDB ∧
    ValidateToken sampleWorld "jwt.6ba7b810-9dad-11d1-80b4-00c04fd430c8.sig"
        sampleWorld.config.AccessTokenPublicKey =
      .ok (some (.str "6ba7b810-9dad-11d1-80b4-00c04fd430c8")) ∧
    DeserializeUser sampleWorld
        (sampleContext (some "Bearer bad") (some "jwt.6ba7b810-9dad-11d1-80b4-00c04fd430c8.sig") "")
        sampleDB =
      .ok (AbortWithError
        (sampleContext (some "Bearer bad") (some "jwt.6ba7b810-9dad-11d1-80b4-00c04fd430c8.sig") "")
        401 "The access token is not valid", sampleDB) := by
  refine ⟨by decide, by decide, ?_⟩
  have h := (DeserializeUser_bearer_header_priority sampleWorld
    (sampleContext (some "Bearer bad") (some "jwt.6ba7b810-9dad-11d1-80b4-00c04fd430c8.sig") "")
    sampleDB "bad" [] (by decide) (by decide)).1
  rw [h]
  decide

/-- C2. On the header `Bearer` with no token after it, DeserializeUser does not fall
back to the cookie: whatever the cookie holds, reading the second field of a
one-field slice is an index-out-of-range panic. -/
theorem DeserializeUser_bare_bearer_panics (w : World) (db : DB) (cookie : Option String)
    (body : String) :
    DeserializeUser w (sampleContext (some "Bearer") cookie body) db =
      .error "runtime error: index out of range [1] with length 1" := by
  have hf : Fields ((sampleContext (some "Bearer") cookie body).Request.HeaderGet
      "Authorization") = ["Bearer"] := by rfl
  have hdb : (sampleContext (some "Bearer") cookie body).Get "db" = some .gormDB := by
    rfl
  simp only [DeserializeUser, GetDatabaseInContext, hdb, hf]
  simp [selectAccessToken]

/-- When the first header field is not `Bearer` (another scheme, another
capitalisation, or no header at all), DeserializeUser goes by the `access_token`
cookie: 401 when there is none or it is empty, else the outcome of validating it. -/
theorem DeserializeUser_falls_back_to_cookie (w : World) (context : Context) (db : DB)
    (hdb : context.Get "db" = some .gormDB)
    (hfields : (Fields (context.Request.HeaderGet "Authorization"))[0]? ≠ some "Bearer") :
    DeserializeUser w context db =
      if (context.Cookie "access_token").1 = "" then
        .ok (AbortWithError context 401 "You are not logged in", db)
      else
        match ValidateToken w (context.Cookie "access_token").1
            w.config.AccessTokenPublicKey with
        | .error _ => .ok (AbortWithError context 401 "The access token is not valid", db)
        | .ok sub =>
          match db.First .id (Sprint sub) with
          | (db, .error _) =>
            .ok (AbortWithError context 404
              "the user belonging to this token no longer exists", db)
          | (db, .ok user) => .ok (context.Set "currentUser" (.userPtr user), db) := by
  have hsel : selectAccessToken (Fields (context.Request.HeaderGet "Authorization"))
      (context.Cookie "access_token").1 = .ok (context.Cookie "access_token").1 := by
    unfold selectAccessToken
    rw [if_neg]
    simp only [Bool.and_eq_true, not_and]
    intro _ hb
    exact hfields (by simpa using hb)
  simp only [DeserializeUser, GetDatabaseInContext, hdb, hsel, beq_iff_eq]

/-! ### The role gate -/

/-- C3. After CheckUserRole(role), on a context not yet aborted, the next handler
runs exactly when the context holds a `*User` under `currentUser` whose Role is
`role`, letter for letter: then CheckUserRole returns the context untouched and the
chain goes on to the next handler; in every other case (no `currentUser`, another
type, another role) the chain ends in a 401 abort without running it. In all cases
the keys of the context, the attached identity among them, and the store are left
as they were, and CheckUserRole does not panic. -/
theorem CheckUserRole_gate (role : String) (context : Context) (db : DB)
    (next : HandlerFunc) (h : context.aborted = false) :
    ((∃ u, context.Get "currentUser" = some (.userPtr u) ∧ u.Role = role) →
      CheckUserRole role context db = .ok (context, db) ∧
      runChain [CheckUserRole role, next] context db = next context db) ∧
    ((¬ ∃ u, context.Get "currentUser" = some (.userPtr u) ∧ u.Role = role) →
      ∃ message,
        CheckUserRole role context db = .ok (AbortWithError context 401 message, db) ∧
        runChain [CheckUserRole role, next] context db =
          .ok (AbortWithError context 401 message, db)) ∧
    (∃ c, CheckUserRole role context db = .ok (c, db) ∧ c.Keys = context.Keys ∧
      c.Get "currentUser" = context.Get "currentUser") := by
  refine ⟨?_, ?_, ?_⟩
  · rintro ⟨u, hu, hr⟩
    have h1 : CheckUserRole role context db = .ok (context, db) := by
      simp [CheckUserRole, hu, hr]
    refine ⟨h1, ?_⟩
    simp only [runChain, h, h1, Bool.false_eq_true, if_false]
    cases hn : next context db with
    | error e => rfl
    | ok r => rfl
  · intro hno
    cases hg : context.Get "currentUser" with
    | none =>
      refine ⟨"You are not logged in", ?_, ?_⟩ <;>
        simp [CheckUserRole, runChain, hg, h, AbortWithError]
    | some v =>
      cases v with
      | userPtr u =>
        have hr : u.Role ≠ role := fun hr => hno ⟨u, hg, hr⟩
        refine ⟨"You are not allowed", ?_, ?_⟩ <;>
          simp [CheckUserRole, runChain, hg, h, hr, AbortWithError]
      | nil =>
        refine ⟨"invalid user type", ?_, ?_⟩ <;>
          simp [CheckUserRole, runChain, hg, h, AbortWithError]
      | str s =>
        refine ⟨"invalid user type", ?_, ?_⟩ <;>
          simp [CheckUserRole, runChain, hg, h, AbortWithError]
      | gormDB =>
        refine ⟨"invalid user type", ?_, ?_⟩ <;>
          simp [CheckUserRole, runChain, hg, h, AbortWithError]
      | other d =>
        refine ⟨"invalid user type", ?_, ?_⟩ <;>
          simp [CheckUserRole, runChain, hg, h, AbortWithError]
  · unfold CheckUserRole
    split
    · exact ⟨_, rfl, rfl, rfl⟩
    · split
      · split
        · exact ⟨_, rfl, rfl, rfl⟩
        · exact ⟨_, rfl, rfl, rfl⟩
      · exact ⟨_, rfl, rfl, rfl⟩

/-- C3, on a user whose role is `admin`: the gate for `admin` lets the next handler
run, the gate for `user` answers 401. -/
theorem CheckUserRole_gate_witness :
    (sampleContextWith sampleAdmin).aborted = false ∧
    runChain [CheckUserRole "admin", markHandler] (sampleContextWith sampleAdmin) sampleDB =
      markHandler (sampleContextWith sampleAdmin) sampleDB ∧
    runChain [CheckUserRole "user", markHandler] (sampleContextWith sampleAdmin) sampleDB =
      .ok (AbortWithError (sampleContextWith sampleAdmin) 401 "You are not allowed",
        sampleDB) := by
  have hw := CheckUserRole_gate "admin" (sampleContextWith sampleAdmin) sampleDB markHandler
    (by decide)
  exact ⟨by decide, (hw.1 ⟨sampleAdmin, by decide, by decide⟩).2, by decide⟩

/-- C4, as worded, fails: for the sample user, whose role is `user`, on a route that
requires `admin`, the answer is 401, not 403. -/
theorem CheckUserRole_mismatch_not_forbidden :
    CheckUserRole "admin" (sampleContextWith sampleUser) sampleDB =
      .ok (AbortWithError (sampleContextWith sampleUser) 401 "You are not allowed",
        sampleDB) ∧
    ¬ mismatchIsForbidden := by
  refine ⟨by decide, ?_⟩
  intro hclaim
  obtain ⟨c, hc, hs⟩ := hclaim "admin" (sampleContextWith sampleUser) sampleDB sampleUser
    (by decide) (by decide)
  have hrun : CheckUserRole "admin" (sampleContextWith sampleUser) sampleDB =
      .ok (AbortWithError (sampleContextWith sampleUser) 401 "You are not allowed",
        sampleDB) := by decide
  rw [hrun] at hc
  injection hc with hc
  injection hc with hc _
  subst hc
  revert hs
  decide

/-- C4, amended. For every attached identity whose role differs from the required
role, CheckUserRole aborts with 401 and the message `You are not allowed`; with no
identity attached it aborts with 401 as well, under the message
`You are not logged in`: the same status, told apart by the message only. -/
theorem CheckUserRole_mismatch_unauthorized (role : String) (context : Context) (db : DB)
    (u : User) (hu : context.Get "currentUser" = some (.userPtr u)) (hrole : u.Role ≠ role) :
    CheckUserRole role context db =
      .ok (AbortWithError context 401 "You are not allowed", db) ∧
    (∀ context2 : Context, context2.Get "currentUser" = none →
      CheckUserRole role context2 db =
        .ok (AbortWithError context2 401 "You are not logged in", db)) := by
  constructor
  · simp [CheckUserRole, hu, hrole]
  · intro context2 h2
    simp [CheckUserRole, h2]

/-- C4 amended, on the sample user and the role `admin`. -/
theorem CheckUserRole_mismatch_unauthorized_witness :
    (sampleContextWith sampleUser).Get "currentUser" = some (.userPtr sampleUser) ∧
    sampleUser.Role ≠ "admin" ∧
    CheckUserRole "admin" (sampleContextWith sampleUser) sampleDB =
      .ok (AbortWithError (sampleContextWith sampleUser) 401 "You are not allowed",
        sampleDB) :=
  ⟨by decide, by decide,
    (CheckUserRole_mismatch_unauthorized "admin" (sampleContextWith sampleUser) sampleDB
      sampleUser (by decide) (by decide)).1⟩

/-! ### Validation of the payloads -/
theorem utf8ByteSize_eq_zero (s : String) : s.utf8ByteSize = 0 ↔ s = "" := by
  rcases s with ⟨l⟩
  cases l with
  | nil => simp [String.utf8ByteSize, String.utf8ByteSize.go]
  | cons c cs =>
    have hpos := Char.utf8Size_pos c
    simp only [String.utf8ByteSize, String.utf8ByteSize.go]
    constructor
    · intro h; omega
    · intro h
      have := congrArg String.data h
      simp at this

theorem ValidateStruct_eq_none (w : World) (fields : List FieldRules) :
    ValidateStruct w fields = none ↔ ∀ fr ∈ fields, Validate w fr.value fr.rules = none := by
  unfold ValidateStruct
  simp only [gt_iff_lt, List.length_pos, ne_eq, ite_eq_right_iff, reduceCtorEq, imp_false,
    Decidable.not_not, List.filterMap_eq_nil_iff, Option.map_eq_none']

theorem Validate_required_length (w : World) (x : String) (a b : Nat) (ha : 0 < a) (hb : 0 < b)
    (rest : List Rule) :
    Validate w (.str x) (.Required :: .Length a b :: rest) = none ↔
      (a ≤ x.utf8ByteSize ∧ x.utf8ByteSize ≤ b) ∧ Validate w (.str x) rest = none := by
  simp only [Validate, Rule.Validate, FieldValue.IsEmpty]
  by_cases h0 : x.utf8ByteSize = 0
  · simp [h0]; omega
  · by_cases h1 : x.utf8ByteSize < a
    · simp [h0, ha, hb, h1]
    · by_cases h2 : b < x.utf8ByteSize
      · simp [h0, ha, hb, h1, h2]
      · simp [h0, ha, hb, h1, h2]
        omega

theorem Validate_required_in (w : World) (x : String) (values : List String) :
    Validate w (.str x) [.Required, .In values] = none ↔ x ∈ values ∧ x ≠ "" := by
  rw [ne_eq, ← utf8ByteSize_eq_zero]
  simp only [Validate, Rule.Validate, FieldValue.IsEmpty]
  by_cases h0 : x.utf8ByteSize = 0
  · simp [h0]
  · by_cases h1 : x ∈ values <;> simp [h0, h1]

theorem Validate_required_email (w : World) (x : String) :
    Validate w (.str x) [.Required, .Email] = none ↔ x ≠ "" ∧ w.IsEmail x = true := by
  rw [ne_eq, ← utf8ByteSize_eq_zero]
  simp only [Validate, Rule.Validate, FieldValue.IsEmpty]
  by_cases h0 : x.utf8ByteSize = 0
  · simp [h0]
  · by_cases h1 : w.IsEmail x <;> simp [h0, h1]

theorem Validate_required_time (w : World) (t : Time) :
    Validate w (.time t) [.Required] = none ↔ t ≠ ⟨0⟩ := by
  simp only [Validate, Rule.Validate, FieldValue.IsEmpty, Time.IsZero]
  rcases t with ⟨n⟩
  by_cases h : n = 0 <;> simp [h]

theorem Validate_password (w : World) (x : String) :
    Validate w (.str x) [.Required, .Length 8 100, .PrintableASCII, .By PasswordRequirements]
        = none ↔
      (8 ≤ x.utf8ByteSize ∧ x.utf8ByteSize ≤ 100) ∧ IsPrintableASCII x = true ∧
        PasswordRequirements (.str x) = none := by
  rw [Validate_required_length w x 8 100 (by decide) (by decide)]
  simp only [Validate, Rule.Validate, FieldValue.IsEmpty, FieldValue.toAny]
  by_cases h0 : x.utf8ByteSize = 0
  · simp [h0]
  · by_cases h1 : IsPrintableASCII x
    · cases h2 : PasswordRequirements (.str x) <;> simp [h0, h1, h2]
    · simp [h0, h1]

/-- C6. SignUpInput.Validate returns no error exactly when FirstName and Name have
a length (in bytes, as `len`) between 1 and 20, Birthday is not the zero time, Gender
is one of male, female, other, Email is non-blank and accepted by the e-mail check,
and Password has a length between 8 and 100, only printable ASCII characters, and
passes PasswordRequirements. In particular a payload whose password is `Short1.`,
`Password123` or `Password.` is rejected, whatever its other fields. -/
theorem SignUpInput_Validate_spec (w : World) (s : SignUpInput) :
    (s.Validate w = none ↔
      (1 ≤ s.FirstName.utf8ByteSize ∧ s.FirstName.utf8ByteSize ≤ 20) ∧
      (1 ≤ s.Name.utf8ByteSize ∧ s.Name.utf8ByteSize ≤ 20) ∧
      s.Birthday ≠ ⟨0⟩ ∧
      s.Gender ∈ ["male", "female", "other"] ∧
      (s.Email ≠ "" ∧ w.IsEmail s.Email = true) ∧
      (8 ≤ s.Password.utf8ByteSize ∧ s.Password.utf8ByteSize ≤ 100) ∧
      IsPrintableASCII s.Password = true ∧
      PasswordRequirements (.str s.Password) = none) ∧
    SignUpInput.Validate w { s with Password := "Short1." } ≠ none ∧
    SignUpInput.Validate w { s with Password := "Password123" } ≠ none ∧
    SignUpInput.Validate w { s with Password := "Password." } ≠ none := by
  have key : ∀ t : SignUpInput, t.Validate w = none ↔
      (1 ≤ t.FirstName.utf8ByteSize ∧ t.FirstName.utf8ByteSize ≤ 20) ∧
      (1 ≤ t.Name.utf8ByteSize ∧ t.Name.utf8ByteSize ≤ 20) ∧
      t.Birthday ≠ ⟨0⟩ ∧
      t.Gender ∈ ["male", "female", "other"] ∧
      (t.Email ≠ "" ∧ w.IsEmail t.Email = true) ∧
      (8 ≤ t.Password.utf8ByteSize ∧ t.Password.utf8ByteSize ≤ 100) ∧
      IsPrintableASCII t.Password = true ∧
      PasswordRequirements (.str t.Password) = none := by
    intro t
    rw [SignUpInput.Validate, ValidateStruct_eq_none]
    simp only [List.mem_cons, List.mem_singleton, List.not_mem_nil, or_false,
      forall_eq_or_imp, forall_eq]
    rw [Validate_required_length w _ 1 20 (by decide) (by decide),
      Validate_required_length w _ 1 20 (by decide) (by decide),
      Validate_required_time, Validate_required_in, Validate_required_email,
      Validate_password]
    simp only [Validate, and_true]
    constructor
    · rintro ⟨h1, h2, h3, ⟨h4, _⟩, h5, h6⟩
      exact ⟨h1, h2, h3, by simpa using h4, h5, h6⟩
    · rintro ⟨h1, h2, h3, h4, h5, h6⟩
      refine ⟨h1, h2, h3, ⟨by simpa using h4, ?_⟩, h5, h6⟩
      rcases h4 with h | h | h <;> rw [h] <;> decide
  refine ⟨key s, ?_, ?_, ?_⟩
  · rw [Ne, key]
    rintro ⟨_, _, _, _, _, ⟨h, _⟩, _⟩
    have h7 : "Short1.".utf8ByteSize = 7 := by decide
    change 8 ≤ "Short1.".utf8ByteSize at h
    omega
  · rw [Ne, key]
    rintro ⟨_, _, _, _, _, _, _, h⟩
    have hn : PasswordRequirements (.str "Password123") ≠ none := by decide
    exact hn h
  · rw [Ne, key]
    rintro ⟨_, _, _, _, _, _, _, h⟩
    have hn : PasswordRequirements (.str "Password.") ≠ none := by decide
    exact hn h

/-! ### The record store -/

theorem leastID_mem : ∀ (l : List User) (u : User), leastID l = some u → u ∈ l
  | [], u, h => by simp [leastID] at h
  | x :: xs, u, h => by
    unfold leastID at h
    cases hxs : leastID xs with
    | none =>
      rw [hxs] at h
      simp only [Option.some.injEq] at h
      simp [h]
    | some v =>
      rw [hxs] at h
      simp only at h
      split at h
      · simp only [Option.some.injEq] at h
        subst h
        exact List.mem_cons_of_mem _ (leastID_mem xs v hxs)
      · simp only [Option.some.injEq] at h
        simp [h]

theorem leastID_eq_none : ∀ (l : List User), leastID l = none → l = []
  | [], _ => rfl
  | x :: xs, h => by
    unfold leastID at h
    cases hxs : leastID xs with
    | none => rw [hxs] at h; simp at h
    | some v =>
      rw [hxs] at h
      simp only at h
      split at h <;> simp at h

theorem First_state (db : DB) (column : Column) (arg : String) :
    (db.First column arg).1 =
      { db with log := db.log ++ [.First column arg], faults := db.faults.tail } := by
  unfold DB.First DB.call
  cases db.faults.head?.join <;> simp only
  split <;> rfl

theorem First_ok_mem (db : DB) (column : Column) (arg : String) (u : User)
    (h : (db.First column arg).2 = .ok u) : u ∈ db.users ∧ column.get u = arg := by
  unfold DB.First DB.call at h
  cases hf : db.faults.head?.join with
  | some e => rw [hf] at h; simp at h
  | none =>
    rw [hf] at h
    simp only at h
    cases hl : leastID (List.filter (fun u => column.get u == arg) db.users) with
    | none => rw [hl] at h; simp at h
    | some v =>
      rw [hl] at h
      simp only [Except.ok.injEq] at h
      subst h
      have := leastID_mem _ _ hl
      simpa using this

theorem First_found (db : DB) (column : Column) (arg : String)
    (hf : db.faults.head?.join = none) (hex : ∃ u ∈ db.users, column.get u = arg) :
    ∃ u, (db.First column arg).2 = .ok u := by
  unfold DB.First DB.call
  rw [hf]
  simp only
  cases hl : leastID (List.filter (fun u => column.get u == arg) db.users) with
  | some v => exact ⟨v, rfl⟩
  | none =>
    exfalso
    have := leastID_eq_none _ hl
    obtain ⟨u, hu, he⟩ := hex
    have hm : u ∈ List.filter (fun u => column.get u == arg) db.users := by
      simp [List.mem_filter, hu, he]
    rw [this] at hm
    simp at hm

theorem First_missing (db : DB) (column : Column) (arg : String)
    (hno : ∀ u ∈ db.users, column.get u ≠ arg) :
    ∃ e, (db.First column arg).2 = .error e := by
  cases h : (db.First column arg).2 with
  | error e => exact ⟨e, rfl⟩
  | ok u =>
    have := First_ok_mem db column arg u h
    exact absurd this.2 (hno u this.1)

theorem Create_log (w : World) (db : DB) (u : User) :
    (db.Create w u).1.log = db.log ++ [.Create u] := by
  unfold DB.Create DB.call
  cases db.faults.head?.join <;> simp only
  split <;> rfl

theorem Create_error_users (w : World) (db : DB) (u : User) (e : DBError)
    (h : (db.Create w u).2 = .error e) : (db.Create w u).1.users = db.users := by
  unfold DB.Create DB.call at h ⊢
  cases hf : db.faults.head?.join with
  | some e => rfl
  | none =>
    rw [hf] at h
    simp only at h ⊢
    split
    · rfl
    · rename_i hany
      rw [if_neg hany] at h
      simp at h

theorem Create_ok_users (w : World) (db : DB) (u stored : User)
    (h : (db.Create w u).2 = .ok stored) :
    (db.Create w u).1.users = db.users ++ [stored] ∧ stored.Email = u.Email ∧
      stored.Password = u.Password ∧ stored.Verified = u.Verified ∧
      (u.Role = "user" → stored.Role = "user") := by
  unfold DB.Create DB.call at h ⊢
  cases hf : db.faults.head?.join with
  | some e => rw [hf] at h; simp at h
  | none =>
    rw [hf] at h
    simp only at h ⊢
    split
    · rename_i hany
      rw [if_pos hany] at h
      simp at h
    · rename_i hany
      rw [if_neg hany] at h
      simp only [Except.ok.injEq] at h
      subst h
      refine ⟨rfl, rfl, rfl, rfl, ?_⟩
      intro hr
      simp [User.BeforeCreate, hr]

theorem Create_duplicate (w : World) (db : DB) (u : User)
    (hex : ∃ x ∈ db.users, x.Email = u.Email) :
    (db.Create w u).1.users = db.users := by
  cases h : (db.Create w u).2 with
  | error e => exact Create_error_users w db u e h
  | ok stored =>
    exfalso
    unfold DB.Create DB.call at h
    cases hf : db.faults.head?.join with
    | some e => rw [hf] at h; simp at h
    | none =>
      rw [hf] at h
      simp only at h
      obtain ⟨x, hx, he⟩ := hex
      rw [if_pos] at h
      · simp at h
      · simp only [List.any_eq_true]
        exact ⟨x, hx, by simp [User.BeforeCreate, he]⟩

/-! ### Registration -/

theorem abort_not_created (context c : Context) (code : Int) (message : String) (d d2 : DB)
    (h : (Except.ok (AbortWithError context code message, d) : Except String (Context × DB)) =
      .ok (c, d2))
    (h201 : c.status = some 201) (hcode : code ≠ 201) : False := by
  simp only [Except.ok.injEq, Prod.mk.injEq] at h
  rw [← h.1] at h201
  simp [AbortWithError] at h201
  exact hcode h201

theorem SignUpUser_created (w : World) (context c : Context) (db db2 : DB)
    (hrun : SignUpUser w context db = .ok (c, db2)) (h201 : c.status = some 201) :
    ∃ payload h stored,
      w.bindSignUpInput context.Request.Body = .ok (some payload) ∧
      payload.Validate w = none ∧
      HashPassword w payload.Password = .ok h ∧
      c = SendSuccess context 201 (.H [("status", "success")]) ∧
      db2.log = db.log ++
        [.First .email (w.ToLower payload.Email), .Create (SignUpUser.newUser w payload h)] ∧
      db2.users = db.users ++ [stored] ∧
      stored.Email = w.ToLower payload.Email ∧ stored.Password = h ∧
      stored.Role = "user" ∧ stored.Verified = false := by
  unfold SignUpUser at hrun
  split at hrun
  · cases hrun
  · exact (abort_not_created _ _ _ _ _ _ hrun h201 (by decide)).elim
  · split at hrun
    · exact (abort_not_created _ _ _ _ _ _ hrun h201 (by decide)).elim
    · cases hrun
    · rename_i payload hbind
      split at hrun
      · exact (abort_not_created _ _ _ _ _ _ hrun h201 (by decide)).elim
      · rename_i hvalid
        split at hrun
        · exact (abort_not_created _ _ _ _ _ _ hrun h201 (by decide)).elim
        · rename_i hashedPassword hhash
          simp only at hrun
          split at hrun
          · exact (abort_not_created _ _ _ _ _ _ hrun h201 (by decide)).elim
          · split at hrun
            · exact (abort_not_created _ _ _ _ _ _ hrun h201 (by decide)).elim
            · rename_i dbf ef hfirst
              split at hrun
              · exact (abort_not_created _ _ _ _ _ _ hrun h201 (by decide)).elim
              · rename_i dbc stored hcreate
                simp only [Except.ok.injEq, Prod.mk.injEq] at hrun
                obtain ⟨hc, hd⟩ := hrun
                subst hd
                have hf1 := First_state db .email (SignUpUser.newUser w payload hashedPassword).Email
                rw [hfirst] at hf1
                simp only at hf1
                have hc2 : (dbf.Create w (SignUpUser.newUser w payload hashedPassword)).2 =
                    .ok stored := by rw [hcreate]
                have hcu := Create_ok_users w dbf _ stored hc2
                have hcl := Create_log w dbf (SignUpUser.newUser w payload hashedPassword)
                rw [hcreate] at hcu hcl
                simp only at hcu hcl
                refine ⟨payload, hashedPassword, stored, hbind, hvalid, hhash, hc.symm, ?_, ?_,
                  hcu.2.1, hcu.2.2.1, hcu.2.2.2.2 rfl, hcu.2.2.2.1⟩
                · rw [hcl, hf1]
                  simp [SignUpUser.newUser]
                · rw [hcu.1, hf1]

/-- C7. A valid payload, an email the store does not hold, and a hash of the bcrypt
shape: SignUpUser validates the record it built, the hash standing in the Password
field, against the password rules, and answers 400 because the hash has no
uppercase letter; no user is created. -/
theorem SignUpUser_hash_without_uppercase :
    sampleSignUpInput.Validate lowercaseWorld = none ∧
    emptyDB.users = [] ∧
    isBcryptHash lowercaseHash = true ∧
    HashPassword lowercaseWorld sampleSignUpInput.Password = .ok lowercaseHash ∧
    SignUpUser lowercaseWorld (sampleContext none none "sign-up") emptyDB =
      .ok (AbortWithError (sampleContext none none "sign-up") 400
        "Password: must contain at least one uppercase letter.", emptyDB) := by
  refine ⟨by decide, by decide, by decide, by decide, by decide⟩

/-- What SignUpUser does by design: on a context with the database handle, a valid
payload, a hash with which the new record passes User.Validate, an email the store
does not hold, a store that answers both calls and a fresh UUID, the user is created
and the answer is 201. -/
theorem SignUpUser_registers (w : World) (context : Context) (db : DB)
    (payload : SignUpInput) (h : String)
    (hdb : context.Get "db" = some .gormDB)
    (hbind : w.bindSignUpInput context.Request.Body = .ok (some payload))
    (hvalid : payload.Validate w = none)
    (hhash : HashPassword w payload.Password = .ok h)
    (hrecord : (SignUpUser.newUser w payload h).Validate w = none)
    (hfaults : db.faults = [])
    (hemail : ∀ u ∈ db.users, u.Email ≠ w.ToLower payload.Email)
    (hid : ∀ u ∈ db.users, u.ID ≠ w.uuidNew) :
    ∃ db2 stored, SignUpUser w context db =
        .ok (SendSuccess context 201 (.H [("status", "success")]), db2) ∧
      db2.users = db.users ++ [stored] ∧ stored.Email = w.ToLower payload.Email := by
  obtain ⟨e, he⟩ := First_missing db .email (w.ToLower payload.Email) hemail
  have hs := First_state db .email (w.ToLower payload.Email)
  rcases hf : db.First .email (w.ToLower payload.Email) with ⟨dbf, r⟩
  rw [hf] at he hs
  simp only at he hs
  subst he
  have hany : (dbf.users.any (fun x => x.ID == w.uuidNew || x.Email == w.ToLower payload.Email))
      = false := by
    rw [hs]
    simp only [List.any_eq_false, Bool.or_eq_true, beq_iff_eq, not_or]
    exact fun u hu => ⟨hid u hu, hemail u hu⟩
  have hff : dbf.faults.head?.join = none := by rw [hs]; simp [hfaults]
  have hc : ∃ stored, (dbf.Create w (SignUpUser.newUser w payload h)).2 = .ok stored := by
    simp only [DB.Create, DB.call, hff, User.BeforeCreate, SignUpUser.newUser]
    simp only [SignUpUser.newUser] at hany
    rw [if_neg (by simp [hany])]
    exact ⟨_, rfl⟩
  obtain ⟨stored, hst⟩ := hc
  have hcu := Create_ok_users w dbf _ stored hst
  refine ⟨(dbf.Create w (SignUpUser.newUser w payload h)).1, stored, ?_, ?_, hcu.2.1⟩
  · simp only [SignUpUser, GetDatabaseInContext, hdb, hbind, hvalid, hhash, hrecord]
    have hf2 : db.First .email (SignUpUser.newUser w payload h).Email = (dbf, .error e) := hf
    rw [hf2]
    rcases hcr : dbf.Create w (SignUpUser.newUser w payload h) with ⟨dbc, rc⟩
    rw [hcr] at hst
    simp only at hst
    subst hst
    simp only [hcr]
  · rw [hcu.1, hs]

theorem SignUpUser_existing_email (w : World) (context : Context) (db : DB)
    (payload : SignUpInput)
    (hdb : context.Get "db" = some .gormDB)
    (hbind : w.bindSignUpInput context.Request.Body = .ok (some payload))
    (hvalid : payload.Validate w = none)
    (hexists : ∃ u ∈ db.users, u.Email = w.ToLower payload.Email) :
    ∃ c db2, SignUpUser w context db = .ok (c, db2) ∧ db2.users = db.users ∧
      (∀ h, HashPassword w payload.Password = .ok h →
        (SignUpUser.newUser w payload h).Validate w = none → db.faults.head?.join = none →
        c = AbortWithError context 409 "User with that email already exists") ∧
      (∀ e, HashPassword w payload.Password = .error e →
        c = AbortWithError context 500 e) := by
  simp only [SignUpUser, GetDatabaseInContext, hdb, hbind, hvalid]
  cases hhash : HashPassword w payload.Password with
  | error e =>
    refine ⟨_, _, rfl, rfl, ?_, ?_⟩
    · intro h hh; cases hh
    · intro e2 he; cases he; rfl
  | ok h =>
    simp only
    cases hrec : (SignUpUser.newUser w payload h).Validate w with
    | some errs =>
      refine ⟨_, _, rfl, rfl, ?_, ?_⟩
      · intro h2 hh hv; cases hh; rw [hrec] at hv; cases hv
      · intro e2 he; cases he
    | none =>
      simp only
      have hs := First_state db .email (SignUpUser.newUser w payload h).Email
      rcases hf : db.First .email (SignUpUser.newUser w payload h).Email with ⟨dbf, r⟩
      rw [hf] at hs
      simp only at hs
      cases r with
      | ok u =>
        refine ⟨_, _, rfl, by rw [hs], ?_, ?_⟩
        · intro _ _ _ _; rfl
        · intro e2 he; cases he
      | error e =>
        simp only
        have hex2 : ∃ x ∈ dbf.users, x.Email = (SignUpUser.newUser w payload h).Email := by
          rw [hs]; exact hexists
        have hcd := Create_duplicate w dbf (SignUpUser.newUser w payload h) hex2
        rcases hc : dbf.Create w (SignUpUser.newUser w payload h) with ⟨dbc, rc⟩
        rw [hc] at hcd
        simp only at hcd
        have hu : dbc.users = db.users := by rw [hcd, hs]
        cases rc with
        | error e3 =>
          refine ⟨_, _, rfl, hu, ?_, ?_⟩
          · intro h2 hh _ hfa
            exfalso
            obtain ⟨u, hu2⟩ := First_found db .email (SignUpUser.newUser w payload h).Email hfa
              hexists
            rw [hf] at hu2
            cases hu2
          · intro e2 he; cases he
        | ok st =>
          refine ⟨_, _, rfl, hu, ?_, ?_⟩
          · intro h2 hh _ hfa
            exfalso
            obtain ⟨u, hu2⟩ := First_found db .email (SignUpUser.newUser w payload h).Email hfa
              hexists
            rw [hf] at hu2
            cases hu2
          · intro e2 he; cases he

/-- C8, amended. For every valid sign-up payload whose lower-cased email is the
lower-cased email of an identity registered through SignUpUser, SignUpUser creates no
record. It answers 409 Conflict when HashPassword returns a hash with which the new
record passes User.Validate and the store answers the lookup, and 500 when
HashPassword fails. -/
theorem SignUpUser_duplicate_email (w0 w : World) (context0 context c0 : Context)
    (db0 db : DB) (payload0 payload : SignUpInput)
    (hreg : SignUpUser w0 context0 db0 = .ok (c0, db)) (h201 : c0.status = some 201)
    (hbind0 : w0.bindSignUpInput context0.Request.Body = .ok (some payload0))
    (hdb : context.Get "db" = some .gormDB)
    (hbind : w.bindSignUpInput context.Request.Body = .ok (some payload))
    (hvalid : payload.Validate w = none)
    (hsame : w.ToLower payload.Email = w0.ToLower payload0.Email) :
    ∃ c db2, SignUpUser w context db = .ok (c, db2) ∧ db2.users = db.users ∧
      (∀ h, HashPassword w payload.Password = .ok h →
        (SignUpUser.newUser w payload h).Validate w = none → db.faults.head?.join = none →
        c = AbortWithError context 409 "User with that email already exists") ∧
      (∀ e, HashPassword w payload.Password = .error e →
        c = AbortWithError context 500 e) := by
  obtain ⟨p, h, stored, hb, _, _, _, _, husers, hemail, _⟩ :=
    SignUpUser_created w0 context0 c0 db0 db hreg h201
  rw [hbind0] at hb
  simp only [Except.ok.injEq, Option.some.injEq] at hb
  subst hb
  apply SignUpUser_existing_email w context db payload hdb hbind hvalid
  exact ⟨stored, by rw [husers]; simp, by rw [hemail, hsame]⟩

/-- C8 amended, on the sample registration followed by the same payload: 409, and
the table is as the registration left it. -/
theorem SignUpUser_duplicate_email_witness :
    SignUpUser sampleWorld (sampleContext none none "sign-up") emptyDB =
      .ok (SendSuccess (sampleContext none none "sign-up") 201 (.H [("status", "success")]),
        registeredDB) ∧
    ∃ db2, SignUpUser sampleWorld (sampleContext none none "sign-up") registeredDB =
        .ok (AbortWithError (sampleContext none none "sign-up") 409
          "User with that email already exists", db2) ∧
      db2.users = registeredDB.users := by
  obtain ⟨c, db2, hrun, hu, h409, _⟩ :=
    SignUpUser_duplicate_email sampleWorld sampleWorld (sampleContext none none "sign-up")
      (sampleContext none none "sign-up")
      (SendSuccess (sampleContext none none "sign-up") 201 (.H [("status", "success")]))
      emptyDB registeredDB sampleSignUpInput sampleSignUpInput
      (by decide) (by decide) (by decide) (by decide) (by decide) (by decide) (by decide)
  have hc := h409 sampleHash (by decide) (by decide) (by decide)
  subst hc
  exact ⟨by decide, db2, hrun, hu⟩

/-- C8, as worded, fails: after the sample registration, a valid payload with the
same email and a password of 73 bytes is answered 500, because bcrypt refuses the
password before the store is asked. -/
theorem SignUpUser_duplicate_not_always_conflict :
    longSignUpInput.Validate longPasswordWorld = none ∧
    SignUpUser longPasswordWorld (sampleContext none none "sign-up") registeredDB =
      .ok (AbortWithError (sampleContext none none "sign-up") 500
        "could not hash password: bcrypt: password length exceeds 72 bytes", registeredDB) ∧
    ¬ duplicateIsConflict := by
  refine ⟨by decide, by decide, ?_⟩
  intro hclaim
  obtain ⟨c, db2, hrun, hs, _⟩ :=
    hclaim sampleWorld longPasswordWorld (sampleContext none none "sign-up")
      (sampleContext none none "sign-up")
      (SendSuccess (sampleContext none none "sign-up") 201 (.H [("status", "success")]))
      emptyDB registeredDB sampleSignUpInput longSignUpInput
      (by decide) (by decide) (by decide) (by decide) (by decide) (by decide) (by decide)
  have heval : SignUpUser longPasswordWorld (sampleContext none none "sign-up") registeredDB =
      .ok (AbortWithError (sampleContext none none "sign-up") 500
        "could not hash password: bcrypt: password length exceeds 72 bytes", registeredDB) := by
    decide
  rw [heval] at hrun
  simp only [Except.ok.injEq, Prod.mk.injEq] at hrun
  rw [← hrun.1] at hs
  revert hs
  decide

/-- C9. On every successful registration (the answer is 201), whatever the payload,
the store was handed one record to create: its Email is the lower-cased payload
email, its Role is user, its Verified flag is false and its Password is what
HashPassword returned for the payload password. The response body is the status
alone. -/
theorem SignUpUser_record (w : World) (context c : Context) (db db2 : DB)
    (hrun : SignUpUser w context db = .ok (c, db2)) (h201 : c.status = some 201) :
    ∃ payload h newUser,
      w.bindSignUpInput context.Request.Body = .ok (some payload) ∧
      HashPassword w payload.Password = .ok h ∧
      db2.log = db.log ++ [.First .email (w.ToLower payload.Email), .Create newUser] ∧
      newUser.Email = w.ToLower payload.Email ∧
      newUser.Role = "user" ∧
      newUser.Verified = false ∧
      newUser.Password = h ∧
      c.body = some (.H [("status", "success")]) := by
  obtain ⟨payload, h, stored, hb, _, hh, hc, hlog, _⟩ :=
    SignUpUser_created w context c db db2 hrun h201
  exact ⟨payload, h, SignUpUser.newUser w payload h, hb, hh, hlog, rfl, rfl, rfl, rfl,
    by rw [hc]; rfl⟩

/-- C9, on the sample registration. -/
theorem SignUpUser_record_witness :
    SignUpUser sampleWorld (sampleContext none none "sign-up") emptyDB =
      .ok (SendSuccess (sampleContext none none "sign-up") 201 (.H [("status", "success")]),
        registeredDB) ∧
    ∃ newUser, registeredDB.log = [.First .email "john.doe@mail.pe", .Create newUser] ∧
      newUser.Email = "john.doe@mail.pe" ∧ newUser.Role = "user" ∧
      newUser.Verified = false ∧ newUser.Password = sampleHash := by
  obtain ⟨payload, h, newUser, hb, hh, hlog, he, hr, hv, hp, _⟩ :=
    SignUpUser_record sampleWorld (sampleContext none none "sign-up")
      (SendSuccess (sampleContext none none "sign-up") 201 (.H [("status", "success")]))
      emptyDB registeredDB (by decide) (by decide)
  have hpl : payload = sampleSignUpInput := by
    have hb2 : sampleWorld.bindSignUpInput (sampleContext none none "sign-up").Request.Body =
        .ok (some sampleSignUpInput) := by decide
    rw [hb2] at hb
    simp only [Except.ok.injEq, Option.some.injEq] at hb
    exact hb.symm
  subst hpl
  have hh2 : HashPassword sampleWorld sampleSignUpInput.Password = .ok sampleHash := by decide
  rw [hh2] at hh
  simp only [Except.ok.injEq] at hh
  subst hh
  have hl : sampleWorld.ToLower sampleSignUpInput.Email = "john.doe@mail.pe" := by decide
  rw [hl] at hlog he
  exact ⟨by decide, newUser, hlog, he, hr, hv, hp⟩

/-! ### Sign-in -/

/-- C10. For every well-formed sign-in payload, SignInUser answers the same whether
no identity has the lower-cased email (store `db1`) or one has it and the password
does not verify (store `db2`): in both runs the context that comes out is the one
that came in, aborted with 401 and the body `Invalid email or Password`, and no
cookie is added to it. -/
theorem SignInUser_indistinguishable (w : World) (context : Context) (db1 db2 : DB)
    (payload : SignInInput)
    (hdb : context.Get "db" = some .gormDB)
    (hbind : w.bindSignInInput context.Request.Body = .ok (some payload))
    (hvalid : payload.Validate w = none)
    (hunknown : ∀ u ∈ db1.users, u.Email ≠ w.ToLower payload.Email)
    (hwrong : ∀ u ∈ db2.users, u.Email = w.ToLower payload.Email →
      VerifyPassword w u.Password payload.Password = false) :
    ∃ d1 d2,
      SignInUser w context db1 =
        .ok (AbortWithError context 401 "Invalid email or Password", d1) ∧
      SignInUser w context db2 =
        .ok (AbortWithError context 401 "Invalid email or Password", d2) ∧
      (AbortWithError context 401 "Invalid email or Password").status = some 401 ∧
      (AbortWithError context 401 "Invalid email or Password").cookies = context.cookies := by
  refine ⟨(db1.First .email (w.ToLower payload.Email)).1,
    (db2.First .email (w.ToLower payload.Email)).1, ?_, ?_, rfl, rfl⟩
  · obtain ⟨e, he⟩ := First_missing db1 .email (w.ToLower payload.Email) hunknown
    simp only [SignInUser, GetDatabaseInContext, hdb, hbind, hvalid]
    rcases hf : db1.First .email (w.ToLower payload.Email) with ⟨dbf, r⟩
    rw [hf] at he
    simp only at he
    subst he
    rfl
  · simp only [SignInUser, GetDatabaseInContext, hdb, hbind, hvalid]
    rcases hf : db2.First .email (w.ToLower payload.Email) with ⟨dbf, r⟩
    cases r with
    | error e => rfl
    | ok user =>
      have hm := First_ok_mem db2 .email (w.ToLower payload.Email) user (by rw [hf])
      have hv := hwrong user hm.1 hm.2
      simp only [hv]
      rfl

/-- C10, on the sample payload (a wrong password): the empty store and the store
that holds the sample user give one and the same answer. -/
theorem SignInUser_indistinguishable_witness :
    sampleSignInInput.Validate sampleWorld = none ∧
    ∃ d1 d2,
      SignInUser sampleWorld (sampleContext none none "sign-in") emptyDB =
        .ok (AbortWithError (sampleContext none none "sign-in") 401
          "Invalid email or Password", d1) ∧
      SignInUser sampleWorld (sampleContext none none "sign-in") sampleDB =
        .ok (AbortWithError (sampleContext none none "sign-in") 401
          "Invalid email or Password", d2) := by
  obtain ⟨d1, d2, h1, h2, _⟩ :=
    SignInUser_indistinguishable sampleWorld (sampleContext none none "sign-in") emptyDB
      sampleDB sampleSignInInput (by decide) (by decide) (by decide) (by decide) (by decide)
  exact ⟨by decide, d1, d2, h1, h2⟩

/-! ### Logout -/

/-- C13. For every request, LogoutUser answers 200 and sets the three cookies
`access_token`, `refresh_token` and `logged_in` to the empty value with the max-age
-1; the store comes out as it went in, its log of calls included, so nothing was
read or changed. -/
theorem LogoutUser_clears_cookies (context : Context) (db : DB) :
    ∃ c, LogoutUser context db = .ok (c, db) ∧
      c.status = some 200 ∧
      c.body = some (.H [("status", "success")]) ∧
      c.cookies = context.cookies ++
        [⟨"access_token", "", -1, "/", "localhost", false, true⟩,
         ⟨"refresh_token", "", -1, "/", "localhost", false, true⟩,
         ⟨"logged_in", "", -1, "/", "localhost", false, false⟩] ∧
      (-1 : Int) < 0 := by
  refine ⟨_, rfl, rfl, rfl, ?_, by decide⟩
  simp [SendSuccess, Context.SetCookie]

/-! ### The token service -/

/-- C19, as worded, fails: issued seven tenths into a second with a ttl of 1.4
seconds, the token has `exp = iat + 2`, which is neither `iat` plus the ttl nor `iat`
plus its whole seconds. -/
theorem GenerateToken_claims_not_exact :
    (GenerateToken.claims lateWorld 1400000000 "subject").iat = some 1714403200 ∧
    (GenerateToken.claims lateWorld 1400000000 "subject").exp = some 1714403202 ∧
    (1400000000 : Int) / 1000000000 = 1 ∧
    ¬ claimsAddTtlExactly := by
  refine ⟨by decide, by decide, by decide, ?_⟩
  intro hclaim
  obtain ⟨_, iat, exp, hi, he, _, heq⟩ := hclaim lateWorld 1400000000 "subject"
  have hi2 : (GenerateToken.claims lateWorld 1400000000 "subject").iat = some 1714403200 := by
    decide
  have he2 : (GenerateToken.claims lateWorld 1400000000 "subject").exp = some 1714403202 := by
    decide
  rw [hi2] at hi
  rw [he2] at he
  simp only [Option.some.injEq] at hi he
  omega

/-- C19, amended. For every issuance time and every ttl, the claims GenerateToken
builds have `iat` the issuance time in whole seconds, `nbf = iat`, and `exp` the
whole seconds of issuance time plus ttl: that is `iat + k` when the ttl is `k` whole
seconds, and for any ttl it lies between `iat` plus the whole seconds of the ttl and
one second more. -/
theorem GenerateToken_claims_seconds (w : World) (ttl k : Int) (payload : UUID) :
    (GenerateToken.claims w ttl payload).sub = some (.str payload) ∧
    (GenerateToken.claims w ttl payload).iat = some w.now.Unix ∧
    (GenerateToken.claims w ttl payload).nbf = (GenerateToken.claims w ttl payload).iat ∧
    (GenerateToken.claims w ttl payload).exp = some (w.now.Add ttl).Unix ∧
    (GenerateToken.claims w (k * 1000000000) payload).exp = some (w.now.Unix + k) ∧
    w.now.Unix + ttl / 1000000000 ≤ (w.now.Add ttl).Unix ∧
    (w.now.Add ttl).Unix ≤ w.now.Unix + ttl / 1000000000 + 1 := by
  refine ⟨rfl, rfl, rfl, rfl, ?_, ?_, ?_⟩
  · simp only [GenerateToken.claims, Time.Unix, Time.Add, Option.some.injEq]
    omega
  · simp only [Time.Unix, Time.Add]
    omega
  · simp only [Time.Unix, Time.Add]
    omega

/-- The method check of ValidateToken: a token whose method is not served by the
RSA type (none, the HMAC, RSA-PSS and ECDSA families) is rejected, whatever its
claims and signature. -/
theorem ValidateToken_rejects_other_types (w : World) (tokenString publicKey : String)
    (token : Token) (hparse : w.ParseUnverified tokenString = .ok token)
    (hmethod : ∀ alg, token.Method ≠ .RSA alg) :
    ∃ e, ValidateToken w tokenString publicKey = .error e := by
  unfold ValidateToken
  cases w.DecodeString publicKey with
  | error e => exact ⟨_, rfl⟩
  | ok bytes =>
    simp only
    cases w.ParseRSAPublicKeyFromPEM bytes with
    | error e => exact ⟨_, rfl⟩
    | ok key =>
      simp only [Parse, hparse, keyFunc]
      cases hm : token.Method with
      | RSA alg => exact absurd hm (hmethod alg)
      | RSAPSS alg => exact ⟨_, rfl⟩
      | HMAC alg => exact ⟨_, rfl⟩
      | ECDSA alg => exact ⟨_, rfl⟩
      | none => exact ⟨_, rfl⟩

/-- The method check of ValidateToken lets every method of the RSA type through:
with a key that decodes, claims in their time window and a signature the method
verifies, the token validates whatever its `alg`, RS256, RS384 or RS512. -/
theorem ValidateToken_accepts_RSA_type (w : World) (tokenString publicKey alg : String)
    (bytes : Bytes) (key : RSAPublicKey) (token : Token)
    (hdecode : w.DecodeString publicKey = .ok bytes)
    (hkey : w.ParseRSAPublicKeyFromPEM bytes = .ok key)
    (hparse : w.ParseUnverified tokenString = .ok token)
    (hmethod : token.Method = .RSA alg)
    (hclaims : token.Claims.Valid w.now.Unix = none)
    (hsig : w.Verify token.Method token.signingString token.Signature key = true) :
    ValidateToken w tokenString publicKey = .ok token.Claims.sub := by
  simp [ValidateToken, Parse, keyFunc, hdecode, hkey, hparse, hmethod, hclaims,
    hmethod ▸ hsig]

/-- C20. A token whose header names RS384 validates: in the sample world with a
parser that reads `alg` as RS384, the method of the sample token is of the RSA type
with the name RS384, and ValidateToken returns its subject. -/
theorem ValidateToken_accepts_RS384 :
    (rs384World.ParseUnverified sampleRefreshToken).map (fun t => t.Method) =
      .ok (.RSA "RS384") ∧
    SigningMethod.RSA "RS384" ≠ SigningMethodRS256 ∧
    ValidateToken rs384World sampleRefreshToken rs384World.config.AccessTokenPublicKey =
      .ok (some (.str "6ba7b810-9dad-11d1-80b4-00c04fd430c8")) := by
  refine ⟨by decide, by decide, by decide⟩

/-! ### The session cookies -/

theorem Join_pair_ne_empty (a b : String) : Join [a, b] "." ≠ "" := by
  intro h
  have h2 := congrArg String.length h
  simp [Join, String.intercalate, String.intercalate.go, String.length_append] at h2
  have h3 : ".".length = 1 := by decide
  omega

theorem GenerateToken_ne_empty (w : World) (ttl : Int) (payload : UUID) (privateKey t : String)
    (h : GenerateToken w ttl payload privateKey = .ok t) : t ≠ "" := by
  unfold GenerateToken at h
  split at h
  · cases h
  · split at h
    · cases h
    · simp only at h
      split at h
      · cases h
      · rename_i token hs
        simp only [Except.ok.injEq] at h
        subst h
        unfold SignedString at hs
        split at hs
        · cases hs
        · split at hs
          · cases hs
          · simp only [Except.ok.injEq] at hs
            subst hs
            exact Join_pair_ne_empty _ _
theorem abort_cookies (context c : Context) (code : Int) (message : String) (d d2 : DB)
    (h : (Except.ok (AbortWithError context code message, d) : Except String (Context × DB)) =
      .ok (c, d2)) : c.cookies = context.cookies := by
  simp only [Except.ok.injEq, Prod.mk.injEq] at h
  rw [← h.1]
  rfl

/-- A sign-in that does not answer 200 sets no cookie. -/
theorem SignInUser_failure_sets_no_cookie (w : World) (context c : Context) (db d : DB)
    (hrun : SignInUser w context db = .ok (c, d)) (hfail : c.status ≠ some 200) :
    c.cookies = context.cookies := by
  unfold SignInUser at hrun
  split at hrun
  · cases hrun
  · exact abort_cookies _ _ _ _ _ _ hrun
  · split at hrun
    · exact abort_cookies _ _ _ _ _ _ hrun
    · cases hrun
    · split at hrun
      · exact abort_cookies _ _ _ _ _ _ hrun
      · split at hrun
        · exact abort_cookies _ _ _ _ _ _ hrun
        · split at hrun
          · exact abort_cookies _ _ _ _ _ _ hrun
          · simp only at hrun
            split at hrun
            · exact abort_cookies _ _ _ _ _ _ hrun
            · split at hrun
              · exact abort_cookies _ _ _ _ _ _ hrun
              · simp only [Except.ok.injEq, Prod.mk.injEq] at hrun
                exfalso
                apply hfail
                rw [← hrun.1]
                rfl

/-- C11. For every sign-in with a registered email and its correct password (on a
context with the database handle, a store that answers, and keys with which
GenerateToken succeeds), SignInUser answers 200 and adds exactly three cookies:
`access_token` and `refresh_token`, http-only, each holding a non-empty token, and
`logged_in`, not http-only, holding `true`, all with the path `/`; the `token` field
of the body is the value of the `access_token` cookie. And whatever the store, a
sign-in on that request which is not answered 200 adds no cookie. -/
theorem SignInUser_sets_session_cookies (w : World) (context : Context) (db : DB)
    (payload : SignInInput)
    (hdb : context.Get "db" = some .gormDB)
    (hbind : w.bindSignInInput context.Request.Body = .ok (some payload))
    (hvalid : payload.Validate w = none)
    (hfaults : db.faults.head?.join = none)
    (hexists : ∃ u ∈ db.users, u.Email = w.ToLower payload.Email)
    (hcorrect : ∀ u ∈ db.users, u.Email = w.ToLower payload.Email →
      VerifyPassword w u.Password payload.Password = true)
    (haccess : ∀ id, ∃ t, GenerateToken w w.config.AccessTokenExpiresIn id
      w.config.AccessTokenPrivateKey = .ok t)
    (hrefresh : ∀ id, ∃ t, GenerateToken w w.config.RefreshTokenExpiresIn id
      w.config.RefreshTokenPrivateKey = .ok t) :
    (∃ accessToken refreshToken c db2,
      SignInUser w context db = .ok (c, db2) ∧
      c.status = some 200 ∧
      c.cookies = context.cookies ++
        [⟨"access_token", accessToken, wrapInt (w.config.AccessTokenMaxAge * 60), "/",
            "localhost", false, true⟩,
         ⟨"refresh_token", refreshToken, wrapInt (w.config.RefreshTokenMaxAge * 60), "/",
            "localhost", false, true⟩,
         ⟨"logged_in", "true", wrapInt (w.config.AccessTokenMaxAge * 60), "/",
            "localhost", false, false⟩] ∧
      accessToken ≠ "" ∧ refreshToken ≠ "" ∧
      c.body = some (.H [("status", "success"), ("token", accessToken)])) ∧
    (∀ (db1 d : DB) (c : Context), SignInUser w context db1 = .ok (c, d) →
      c.status ≠ some 200 → c.cookies = context.cookies) := by
  refine ⟨?_, fun db1 d c hrun hfail =>
    SignInUser_failure_sets_no_cookie w context c db1 d hrun hfail⟩
  obtain ⟨user, hfirst⟩ := First_found db .email (w.ToLower payload.Email) hfaults hexists
  have hmem := First_ok_mem db .email (w.ToLower payload.Email) user hfirst
  have hverify := hcorrect user hmem.1 hmem.2
  obtain ⟨accessToken, hat⟩ := haccess user.ID
  obtain ⟨refreshToken, hrt⟩ := hrefresh user.ID
  rcases hf : db.First .email (w.ToLower payload.Email) with ⟨dbf, r⟩
  rw [hf] at hfirst
  simp only at hfirst
  subst hfirst
  refine ⟨accessToken, refreshToken,
    SendSuccess
      (((context.SetCookie "access_token" accessToken
          (wrapInt (w.config.AccessTokenMaxAge * 60)) "/" "localhost" false true).SetCookie
        "refresh_token" refreshToken
          (wrapInt (w.config.RefreshTokenMaxAge * 60)) "/" "localhost" false true).SetCookie
        "logged_in" "true" (wrapInt (w.config.AccessTokenMaxAge * 60)) "/" "localhost"
          false false)
      200 (.H [("status", "success"), ("token", accessToken)]),
    dbf, ?_, rfl, ?_,
    GenerateToken_ne_empty _ _ _ _ _ hat, GenerateToken_ne_empty _ _ _ _ _ hrt, rfl⟩
  · simp only [SignInUser, GetDatabaseInContext, hdb, hbind, hvalid, hf, hverify, hat, hrt]
    rfl
  · simp [SendSuccess, Context.SetCookie]

/-- C11, on the sample user signing in with the correct password. -/
theorem SignInUser_sets_session_cookies_witness :
    sampleDB.faults.head?.join = none ∧
    (∃ u ∈ sampleDB.users, u.Email = goodSignInWorld.ToLower "John.Doe@mail.pe") ∧
    ∃ accessToken refreshToken c db2,
      SignInUser goodSignInWorld (sampleContext none none "sign-in") sampleDB = .ok (c, db2) ∧
      c.status = some 200 ∧
      c.cookies = (sampleContext none none "sign-in").cookies ++
        [⟨"access_token", accessToken,
            wrapInt (goodSignInWorld.config.AccessTokenMaxAge * 60), "/", "localhost", false,
            true⟩,
         ⟨"refresh_token", refreshToken,
            wrapInt (goodSignInWorld.config.RefreshTokenMaxAge * 60), "/", "localhost", false,
            true⟩,
         ⟨"logged_in", "true", wrapInt (goodSignInWorld.config.AccessTokenMaxAge * 60), "/",
            "localhost", false, false⟩] ∧
      accessToken ≠ "" ∧ refreshToken ≠ "" ∧
      c.body = some (.H [("status", "success"), ("token", accessToken)]) :=
  ⟨by decide, by decide,
    (SignInUser_sets_session_cookies goodSignInWorld (sampleContext none none "sign-in")
      sampleDB ⟨"John.Doe@mail.pe", "Password123."⟩ (by decide) (by decide) (by decide)
      (by decide) (by decide) (by decide) (fun _ => ⟨_, rfl⟩) (fun _ => ⟨_, rfl⟩)).1⟩

/-- C12. With the configured max-ages 15 and 60, the cookies of a successful sign-in
carry the max-ages 900, 3600 and 900, and those of a successful refresh 900 and 900:
the configured number times sixty, not the configured number. -/
theorem cookie_max_age_is_sixty_times_configured :
    goodSignInWorld.config.AccessTokenMaxAge = 15 ∧
    goodSignInWorld.config.RefreshTokenMaxAge = 60 ∧
    (SignInUser goodSignInWorld (sampleContext none none "sign-in") sampleDB).map
        (fun r => r.1.cookies.map (fun k => (k.Name, k.MaxAge))) =
      .ok [("access_token", 900), ("refresh_token", 3600), ("logged_in", 900)] ∧
    sampleWorld.config.AccessTokenMaxAge = 15 ∧
    (RefreshAccessToken sampleWorld (refreshContext (some sampleRefreshToken)) sampleDB).map
        (fun r => r.1.cookies.map (fun k => (k.Name, k.MaxAge))) =
      .ok [("access_token", 900), ("logged_in", 900)] := by
  refine ⟨by decide, by decide, by decide, by decide, by decide⟩

/-- When the store answers and one row alone has the value in the column, First
returns that row. -/
theorem First_unique (db : DB) (column : Column) (arg : String) (u : User)
    (hf : db.faults.head?.join = none) (hu : u ∈ db.users) (hcol : column.get u = arg)
    (huniq : ∀ v ∈ db.users, column.get v = arg → v = u) :
    (db.First column arg).2 = .ok u := by
  obtain ⟨v, hv⟩ := First_found db column arg hf ⟨u, hu, hcol⟩
  have hm := First_ok_mem db column arg v hv
  rw [hv, huniq v hm.1 hm.2]

/-! ### Refresh -/

/-- C14. RefreshAccessToken goes by the `refresh_token` cookie alone. A request
without that cookie is answered 401, whatever its header and other cookies. With
the cookie (and the database handle on the context): a token that fails validation
against the refresh public key is answered 401, and a valid token whose subject is
the ID of no identity is answered 404. Each of these answers leaves the cookies of
the response as they were. -/
theorem RefreshAccessToken_failures (w : World) (context : Context) (db : DB)
    (cookie : String)
    (hdb : context.Get "db" = some .gormDB)
    (hcookie : context.Request.Cookies.lookup "refresh_token" = some cookie) :
    (∀ (context2 : Context) (db2 : DB),
      context2.Request.Cookies.lookup "refresh_token" = none →
      RefreshAccessToken w context2 db2 =
        .ok (AbortWithError context2 401 "could not found refresh token", db2)) ∧
    (∀ e, ValidateToken w cookie w.config.RefreshTokenPublicKey = .error e →
      RefreshAccessToken w context db =
        .ok (AbortWithError context 401 "The refresh token is not valid", db)) ∧
    (∀ sub, ValidateToken w cookie w.config.RefreshTokenPublicKey = .ok sub →
      (∀ u ∈ db.users, u.ID ≠ Sprint sub) →
      ∃ db2, RefreshAccessToken w context db =
          .ok (AbortWithError context 404
            "the user belonging to this token no logger exists", db2) ∧
        db2.users = db.users) ∧
    (∀ (c : Context) (code : Int) (message : String),
      (AbortWithError c code message).cookies = c.cookies) := by
  refine ⟨?_, ?_, ?_, fun _ _ _ => rfl⟩
  · intro context2 db2 h2
    simp [RefreshAccessToken, Context.Cookie, h2]
  · intro e he
    simp [RefreshAccessToken, Context.Cookie, hcookie, GetDatabaseInContext, hdb, he]
  · intro sub hs hnone
    obtain ⟨e, he⟩ := First_missing db .id (Sprint sub) hnone
    have hst := First_state db .id (Sprint sub)
    rcases hf : db.First .id (Sprint sub) with ⟨dbf, r⟩
    rw [hf] at he hst
    simp only at he hst
    subst he
    refine ⟨dbf, ?_, by rw [hst]⟩
    simp [RefreshAccessToken, Context.Cookie, hcookie, GetDatabaseInContext, hdb, hs, hf]

/-- C14, on a request whose `refresh_token` cookie holds a malformed token. -/
theorem RefreshAccessToken_failures_witness :
    (refreshContext (some "bad")).Get "db" = some .gormDB ∧
    (refreshContext (some "bad")).Request.Cookies.lookup "refresh_token" = some "bad" ∧
    RefreshAccessToken sampleWorld (refreshContext (some "bad")) sampleDB =
      .ok (AbortWithError (refreshContext (some "bad")) 401 "The refresh token is not valid",
        sampleDB) :=
  ⟨by decide, by decide,
    (RefreshAccessToken_failures sampleWorld (refreshContext (some "bad")) sampleDB "bad"
      (by decide) (by decide)).2.1 "validate: token contains an invalid number of segments"
      (by decide)⟩

/-- C15. For every request whose `refresh_token` cookie holds a token that validates
against the refresh public key, its subject being the ID of an identity in the store
(the store answers, the ID is a key, and GenerateToken succeeds for it),
RefreshAccessToken answers 200 with the access token GenerateToken issues for that
ID, whose `sub` claim is the ID; it adds the cookies `access_token`, holding that
token, and `logged_in`, and the body holds the same token. No cookie named
`refresh_token` is added, and the request cookies are as they were. -/
theorem RefreshAccessToken_renews_access_only (w : World) (context : Context) (db : DB)
    (cookie accessToken : String) (sub : Option JSONValue) (u : User)
    (hdb : context.Get "db" = some .gormDB)
    (hcookie : context.Request.Cookies.lookup "refresh_token" = some cookie)
    (hvalid : ValidateToken w cookie w.config.RefreshTokenPublicKey = .ok sub)
    (hfaults : db.faults.head?.join = none)
    (hu : u ∈ db.users) (hid : u.ID = Sprint sub)
    (hkey : ∀ v ∈ db.users, v.ID = Sprint sub → v = u)
    (hgen : GenerateToken w w.config.AccessTokenExpiresIn u.ID
      w.config.AccessTokenPrivateKey = .ok accessToken) :
    ∃ c db2,
      RefreshAccessToken w context db = .ok (c, db2) ∧
      c.status = some 200 ∧
      (GenerateToken.claims w w.config.AccessTokenExpiresIn u.ID).sub = some (.str u.ID) ∧
      c.cookies = context.cookies ++
        [⟨"access_token", accessToken, wrapInt (w.config.AccessTokenMaxAge * 60), "/",
            "localhost", false, true⟩,
         ⟨"logged_in", "true", wrapInt (w.config.AccessTokenMaxAge * 60), "/",
            "localhost", false, false⟩] ∧
      c.body = some (.H [("status", "success"), ("token", accessToken)]) ∧
      (∀ k ∈ c.cookies, k ∉ context.cookies → k.Name ≠ "refresh_token") ∧
      c.Request = context.Request ∧
      db2.users = db.users := by
  have hfirst := First_unique db .id (Sprint sub) u hfaults hu hid hkey
  have hst := First_state db .id (Sprint sub)
  rcases hf : db.First .id (Sprint sub) with ⟨dbf, r⟩
  rw [hf] at hfirst hst
  simp only at hfirst hst
  subst hfirst
  have hck : (SendSuccess
      ((context.SetCookie "access_token" accessToken
          (wrapInt (w.config.AccessTokenMaxAge * 60)) "/" "localhost" false true).SetCookie
        "logged_in" "true" (wrapInt (w.config.AccessTokenMaxAge * 60)) "/" "localhost"
          false false)
      200 (.H [("status", "success"), ("token", accessToken)])).cookies =
      context.cookies ++
        [⟨"access_token", accessToken, wrapInt (w.config.AccessTokenMaxAge * 60), "/",
            "localhost", false, true⟩,
         ⟨"logged_in", "true", wrapInt (w.config.AccessTokenMaxAge * 60), "/",
            "localhost", false, false⟩] := by
    simp [SendSuccess, Context.SetCookie]
  refine ⟨SendSuccess
      ((context.SetCookie "access_token" accessToken
          (wrapInt (w.config.AccessTokenMaxAge * 60)) "/" "localhost" false true).SetCookie
        "logged_in" "true" (wrapInt (w.config.AccessTokenMaxAge * 60)) "/" "localhost"
          false false)
      200 (.H [("status", "success"), ("token", accessToken)]),
    dbf, ?_, rfl, rfl, hck, rfl, ?_, rfl, by rw [hst]⟩
  · simp only [RefreshAccessToken, Context.Cookie, hcookie, GetDatabaseInContext, hdb, hvalid,
      hf, hgen]
  · intro k hk hnot
    rw [hck] at hk
    rcases List.mem_append.mp hk with h | h
    · exact absurd h hnot
    · simp only [List.mem_cons, List.mem_singleton, List.not_mem_nil, or_false] at h
      rcases h with rfl | rfl
      · show "access_token" ≠ "refresh_token"
        decide
      · show "logged_in" ≠ "refresh_token"
        decide

/-- C15, on the sample user and the refresh token of the sample world. -/
theorem RefreshAccessToken_renews_access_only_witness :
    ValidateToken sampleWorld sampleRefreshToken sampleWorld.config.RefreshTokenPublicKey =
      .ok (some (.str sampleUser.ID)) ∧
    ∃ c db2,
      RefreshAccessToken sampleWorld (refreshContext (some sampleRefreshToken)) sampleDB =
        .ok (c, db2) ∧
      c.status = some 200 ∧
      c.cookies.map (fun k => k.Name) = ["access_token", "logged_in"] ∧
      c.body = some (.H [("status", "success"),
        ("token", "jwt.6ba7b810-9dad-11d1-80b4-00c04fd430c8.sig")]) := by
  obtain ⟨c, db2, hrun, hs, _, hc, hb, _⟩ :=
    RefreshAccessToken_renews_access_only sampleWorld (refreshContext (some sampleRefreshToken))
      sampleDB sampleRefreshToken "jwt.6ba7b810-9dad-11d1-80b4-00c04fd430c8.sig"
      (some (.str sampleUser.ID)) sampleUser (by decide) (by decide) (by decide) (by decide)
      (by decide) (by decide) (by decide) (by decide)
  refine ⟨by decide, c, db2, hrun, hs, ?_, hb⟩
  rw [hc]
  decide

/-! ### The session resolver, after the selection of the token -/

/-- DeserializeUser once the token is selected. -/
theorem DeserializeUser_of_selected (w : World) (context : Context) (db : DB)
    (accessToken : String)
    (hdb : context.Get "db" = some .gormDB)
    (hsel : selectAccessToken (Fields (context.Request.HeaderGet "Authorization"))
      (context.Cookie "access_token").1 = .ok accessToken) :
    DeserializeUser w context db =
      if accessToken = "" then
        .ok (AbortWithError context 401 "You are not logged in", db)
      else
        match ValidateToken w accessToken w.config.AccessTokenPublicKey with
        | .error _ => .ok (AbortWithError context 401 "The access token is not valid", db)
        | .ok sub =>
          match db.First .id (Sprint sub) with
          | (db, .error _) =>
            .ok (AbortWithError context 404
              "the user belonging to this token no longer exists", db)
          | (db, .ok user) => .ok (context.Set "currentUser" (.userPtr user), db) := by
  simp only [DeserializeUser, GetDatabaseInContext, hdb, hsel, beq_iff_eq]

/-- A chain whose first handler aborts stops there. -/
theorem runChain_abort (h next : HandlerFunc) (context : Context) (db d : DB) (code : Int)
    (message : String) (hna : context.aborted = false)
    (hrun : h context db = .ok (AbortWithError context code message, d)) :
    runChain [h, next] context db = .ok (AbortWithError context code message, d) := by
  simp [runChain, hna, hrun, AbortWithError]

/-- DeserializeUser when the selection of the token returns. If the selected token is
empty or fails ValidateToken, the request is aborted with 401: the keys of the
context are as they were, so no identity is attached, the store comes out as it
went in, its log included, so it was not queried, and the next handler does not
run. For a token that fails validation the answer is the same whatever the error. -/
theorem DeserializeUser_unauthenticated (w : World) (context : Context) (db : DB)
    (next : HandlerFunc) (accessToken : String)
    (hdb : context.Get "db" = some .gormDB)
    (hna : context.aborted = false)
    (hsel : selectAccessToken (Fields (context.Request.HeaderGet "Authorization"))
      (context.Cookie "access_token").1 = .ok accessToken)
    (hbad : accessToken = "" ∨
      ∃ e, ValidateToken w accessToken w.config.AccessTokenPublicKey = .error e) :
    ∃ message,
      DeserializeUser w context db = .ok (AbortWithError context 401 message, db) ∧
      runChain [DeserializeUser w, next] context db =
        .ok (AbortWithError context 401 message, db) ∧
      (AbortWithError context 401 message).status = some 401 ∧
      (AbortWithError context 401 message).Keys = context.Keys ∧
      (accessToken ≠ "" → message = "The access token is not valid") := by
  have hcore := DeserializeUser_of_selected w context db accessToken hdb hsel
  by_cases hempty : accessToken = ""
  · rw [if_pos hempty] at hcore
    exact ⟨"You are not logged in", hcore, runChain_abort _ _ _ _ _ _ _ hna hcore, rfl, rfl,
      fun h => absurd hempty h⟩
  · rw [if_neg hempty] at hcore
    rcases hbad with h | ⟨e, he⟩
    · exact absurd h hempty
    · rw [he] at hcore
      exact ⟨"The access token is not valid", hcore, runChain_abort _ _ _ _ _ _ _ hna hcore,
        rfl, rfl, fun _ => rfl⟩

/-- The same on a request with neither header nor cookie. -/
theorem DeserializeUser_unauthenticated_witness :
    selectAccessToken (Fields ((sampleContext none none "").Request.HeaderGet "Authorization"))
      ((sampleContext none none "").Cookie "access_token").1 = .ok "" ∧
    runChain [DeserializeUser sampleWorld, markHandler] (sampleContext none none "") sampleDB =
      .ok (AbortWithError (sampleContext none none "") 401 "You are not logged in",
        sampleDB) := by
  obtain ⟨message, hrun, hchain, _⟩ :=
    DeserializeUser_unauthenticated sampleWorld (sampleContext none none "") sampleDB
      markHandler "" (by decide) (by decide) (by decide) (Or.inl rfl)
  have hm : DeserializeUser sampleWorld (sampleContext none none "") sampleDB =
      .ok (AbortWithError (sampleContext none none "") 401 "You are not logged in",
        sampleDB) := by decide
  rw [hm] at hrun
  rw [hchain, ← hrun]
  exact ⟨by decide, rfl⟩

/-- C16. A request can carry no credential and still not be answered 401. With the
header `Authorization: Bearer`, which holds no token, and no `access_token` cookie,
DeserializeUser reads the missing second field of the header and panics: it does
not answer 401 with any message, and the chain ends in the panic. -/
theorem DeserializeUser_no_credential_not_401 (w : World) (db : DB) (body : String)
    (next : HandlerFunc) :
    (sampleContext (some "Bearer") none body).Cookie "access_token" = ("", false) ∧
    (Fields ((sampleContext (some "Bearer") none body).Request.HeaderGet
      "Authorization"))[1]? = none ∧
    (∀ message d, DeserializeUser w (sampleContext (some "Bearer") none body) db ≠
      .ok (AbortWithError (sampleContext (some "Bearer") none body) 401 message, d)) ∧
    runChain [DeserializeUser w, next] (sampleContext (some "Bearer") none body) db =
      .error "runtime error: index out of range [1] with length 1" := by
  have hf : Fields ((sampleContext (some "Bearer") none body).Request.HeaderGet
      "Authorization") = ["Bearer"] := by rfl
  have hdb : (sampleContext (some "Bearer") none body).Get "db" = some .gormDB := by
    rfl
  have hd : DeserializeUser w (sampleContext (some "Bearer") none body) db =
      .error "runtime error: index out of range [1] with length 1" := by
    simp only [DeserializeUser, GetDatabaseInContext, hdb, hf]
    simp [selectAccessToken]
  refine ⟨rfl, by rw [hf]; rfl, ?_, ?_⟩
  · intro message d h
    rw [hd] at h
    cases h
  · have ha : (sampleContext (some "Bearer") none body).aborted = false := rfl
    simp [runChain, ha, hd]

/-- C17. When the selected token is valid and no identity in the store has its
subject as ID, DeserializeUser aborts with 404, not the 401 of an invalid token; the
keys of the context are as they were, so no identity is attached, the table of users
is unchanged, and the next handler does not run. -/
theorem DeserializeUser_identity_gone (w : World) (context : Context) (db : DB)
    (next : HandlerFunc) (accessToken : String) (sub : Option JSONValue)
    (hdb : context.Get "db" = some .gormDB)
    (hna : context.aborted = false)
    (hsel : selectAccessToken (Fields (context.Request.HeaderGet "Authorization"))
      (context.Cookie "access_token").1 = .ok accessToken)
    (hne : accessToken ≠ "")
    (hvalid : ValidateToken w accessToken w.config.AccessTokenPublicKey = .ok sub)
    (hnone : ∀ u ∈ db.users, u.ID ≠ Sprint sub) :
    ∃ db2,
      DeserializeUser w context db =
        .ok (AbortWithError context 404
          "the user belonging to this token no longer exists", db2) ∧
      runChain [DeserializeUser w, next] context db =
        .ok (AbortWithError context 404
          "the user belonging to this token no longer exists", db2) ∧
      (AbortWithError context 404
        "the user belonging to this token no longer exists").status = some 404 ∧
      (404 : Int) ≠ 401 ∧
      (AbortWithError context 404
        "the user belonging to this token no longer exists").Keys = context.Keys ∧
      db2.users = db.users := by
  have hcore := DeserializeUser_of_selected w context db accessToken hdb hsel
  rw [if_neg hne, hvalid] at hcore
  simp only at hcore
  obtain ⟨e, he⟩ := First_missing db .id (Sprint sub) hnone
  have hst := First_state db .id (Sprint sub)
  rcases hf : db.First .id (Sprint sub) with ⟨dbf, r⟩
  rw [hf] at he hst hcore
  simp only at he hst hcore
  subst he
  simp only at hcore
  exact ⟨dbf, hcore, runChain_abort _ _ _ _ _ _ _ hna hcore, rfl, by decide, rfl, by rw [hst]⟩

/-- C17, on the token of the sample user against the empty store. -/
theorem DeserializeUser_identity_gone_witness :
    ValidateToken sampleWorld sampleRefreshToken sampleWorld.config.AccessTokenPublicKey =
      .ok (some (.str "6ba7b810-9dad-11d1-80b4-00c04fd430c8")) ∧
    ∃ db2, DeserializeUser sampleWorld (sampleContext none (some sampleRefreshToken) "") emptyDB =
      .ok (AbortWithError (sampleContext none (some sampleRefreshToken) "") 404
        "the user belonging to this token no longer exists", db2) := by
  obtain ⟨db2, hrun, _⟩ :=
    DeserializeUser_identity_gone sampleWorld (sampleContext none (some sampleRefreshToken) "")
      emptyDB markHandler sampleRefreshToken (some (.str "6ba7b810-9dad-11d1-80b4-00c04fd430c8"))
      (by decide) (by decide) (by decide) (by decide) (by decide) (by decide)
  exact ⟨by decide, db2, hrun⟩

/-- C18. When the selected token is valid and its subject is the ID of an identity in
the store (the store answers, and the ID is a key), DeserializeUser sets exactly that
identity under `currentUser` on the context, leaves the table of users unchanged, and
the next handler runs on that context. -/
theorem DeserializeUser_attaches_identity (w : World) (context : Context) (db : DB)
    (next : HandlerFunc) (accessToken : String) (sub : Option JSONValue) (u : User)
    (hdb : context.Get "db" = some .gormDB)
    (hna : context.aborted = false)
    (hsel : selectAccessToken (Fields (context.Request.HeaderGet "Authorization"))
      (context.Cookie "access_token").1 = .ok accessToken)
    (hne : accessToken ≠ "")
    (hvalid : ValidateToken w accessToken w.config.AccessTokenPublicKey = .ok sub)
    (hfaults : db.faults.head?.join = none)
    (hu : u ∈ db.users) (hid : u.ID = Sprint sub)
    (hkey : ∀ v ∈ db.users, v.ID = Sprint sub → v = u) :
    ∃ db2,
      DeserializeUser w context db = .ok (context.Set "currentUser" (.userPtr u), db2) ∧
      (context.Set "currentUser" (.userPtr u)).Get "currentUser" = some (.userPtr u) ∧
      runChain [DeserializeUser w, next] context db =
        next (context.Set "currentUser" (.userPtr u)) db2 ∧
      db2.users = db.users := by
  have hcore := DeserializeUser_of_selected w context db accessToken hdb hsel
  rw [if_neg hne, hvalid] at hcore
  simp only at hcore
  have hfirst := First_unique db .id (Sprint sub) u hfaults hu hid hkey
  have hst := First_state db .id (Sprint sub)
  rcases hf : db.First .id (Sprint sub) with ⟨dbf, r⟩
  rw [hf] at hfirst hst hcore
  simp only at hfirst hst hcore
  subst hfirst
  simp only at hcore
  refine ⟨dbf, hcore, ?_, ?_, by rw [hst]⟩
  · simp [Context.Get, Context.Set, List.lookup]
  · have hna2 : (context.Set "currentUser" (.userPtr u)).aborted = false := hna
    simp only [runChain, hna, hcore, hna2, Bool.false_eq_true, if_false]
    cases next (context.Set "currentUser" (.userPtr u)) dbf with
    | error e => rfl
    | ok r => rfl

/-- C18, on the token of the sample user against the store that holds that user. -/
theorem DeserializeUser_attaches_identity_witness :
    sampleUser ∈ sampleDB.users ∧
    ∃ db2, DeserializeUser sampleWorld (sampleContext none (some sampleRefreshToken) "")
        sampleDB =
      .ok ((sampleContext none (some sampleRefreshToken) "").Set "currentUser"
        (.userPtr sampleUser), db2) := by
  obtain ⟨db2, hrun, _⟩ :=
    DeserializeUser_attaches_identity sampleWorld
      (sampleContext none (some sampleRefreshToken) "") sampleDB markHandler sampleRefreshToken
      (some (.str "6ba7b810-9dad-11d1-80b4-00c04fd430c8")) sampleUser
      (by decide) (by decide) (by decide) (by decide) (by decide) (by decide) (by decide)
      (by decide) (by decide)
  exact ⟨by decide, db2, hrun⟩

/-- C28. The credential extraction of DeserializeUser is not total. A header that
holds the word `Bearer` and white space only splits into one field, and the
extraction reads the second: an index out of range, whatever the cookies hold. The
chain ends in that panic: the middleware writes no response and the next handler is
not called. -/
theorem DeserializeUser_extraction_not_total (w : World) (db : DB) (cookie : Option String)
    (next : HandlerFunc) :
    Fields " Bearer\t" = ["Bearer"] ∧
    selectAccessToken (Fields " Bearer\t") (cookie.getD "") =
      .error "runtime error: index out of range [1] with length 1" ∧
    runChain [DeserializeUser w, next] (sampleContext (some " Bearer\t") cookie "") db =
      .error "runtime error: index out of range [1] with length 1" := by
  have hf : Fields " Bearer\t" = ["Bearer"] := by decide
  have hsel : ∀ c : String, selectAccessToken (Fields " Bearer\t") c =
      .error "runtime error: index out of range [1] with length 1" := by
    intro c
    rw [hf]
    simp [selectAccessToken]
  refine ⟨hf, hsel _, ?_⟩
  have hh : (sampleContext (some " Bearer\t") cookie "").Request.HeaderGet
      "Authorization" = " Bearer\t" := by rfl
  have hdb : (sampleContext (some " Bearer\t") cookie "").Get "db" = some .gormDB := by
    rfl
  have ha : (sampleContext (some " Bearer\t") cookie "").aborted = false := rfl
  simp only [runChain, ha, DeserializeUser, GetDatabaseInContext, hdb, hh, hsel]
  simp

/-- C29. The user response of GetMe carries an empty `FirstName`, whatever the first
name of the attached identity: the struct literal leaves the field out. On the other
ten shared fields the response agrees with the identity, and without an attached
identity GetMe answers 401. -/
theorem GetMe_drops_first_name (u : User) (db : DB) :
    (∃ r, GetMe (sampleContextWith u) db =
        .ok (SendSuccess (sampleContextWith u) 200 (.userResponse r), db) ∧
      r.FirstName = "" ∧
      r.ID = u.ID ∧ r.Name = u.Name ∧ r.Birthday = u.Birthday ∧ r.Gender = u.Gender ∧
      r.Email = u.Email ∧ r.Role = u.Role ∧ r.Address = u.Address.String ∧
      r.SubscriptionCode = u.SubscriptionCode.String ∧ r.CreatedAt = u.CreatedAt ∧
      r.UpdatedAt = u.UpdatedAt) ∧
    GetMe (sampleContext none none "") db =
      .ok (AbortWithError (sampleContext none none "") 401 "You are not logged in", db) := by
  refine ⟨⟨_, rfl, rfl, rfl, rfl, rfl, rfl, rfl, rfl, rfl, rfl, rfl, rfl⟩, rfl⟩

/-- C23. UpdateUser writes the password of the request body as it came. On the sample
request, whose body carries the plaintext `Password123.`, the update succeeds and the
stored `Password` of the identity is that plaintext; the outcome is the same
whatever the salted hashing would return, so no hash is computed. SignUpUser, for the
same password, writes the output of HashPassword. -/
theorem UpdateUser_stores_request_password
    (generate : String → Except String String) :
    UpdateUser { sampleWorld with GenerateFromPassword := generate }
        (paramContext sampleUser.ID "user") sampleDB =
      .ok (SendSuccess (paramContext sampleUser.ID "user") 200 (.user sampleSaved),
        { users := [sampleSaved], faults := [],
          log := [.First .id sampleUser.ID,
                  .Save { sampleUserInput with ID := sampleUser.ID }] }) ∧
    sampleWorld.bindUser (paramContext sampleUser.ID "user").Request.Body =
      .ok sampleUserInput ∧
    sampleSaved.Password = sampleUserInput.Password ∧
    sampleUserInput.Password = "Password123." ∧
    HashPassword sampleWorld "Password123." = .ok sampleHash ∧
    registeredDB.users.map (fun u => u.Password) = [sampleHash] := by
  refine ⟨?_, rfl, rfl, rfl, rfl, ?_⟩
  · rfl
  · decide

/-- C24. The response bodies of GetUserByID, GetUsers and UpdateUser are whole
`models.User` records, whose encoding has the `Password` field: on the sample store
with the stored credential `password`, the first two answer 200 with that
credential in the body, so two stores that differ only in it get different
responses, and the third answers with the password it has just stored. GetMe,
by contrast, answers with a user response, which has no such field. -/
theorem user_responses_carry_password (password : String) :
    GetUserByID sampleWorld (paramContext sampleUser.ID "") (credentialDB password) =
      .ok (SendSuccess (paramContext sampleUser.ID "") 200
            (.user { sampleUser with Password := password }),
          { credentialDB password with log := [.First .id sampleUser.ID] }) ∧
    GetUsers (paramContext "" "") (credentialDB password) =
      .ok (SendSuccess (paramContext "" "") 200
            (.users [{ sampleUser with Password := password }]),
          { credentialDB password with log := [.Find] }) ∧
    (UpdateUser sampleWorld (paramContext sampleUser.ID "user")
        (credentialDB password)).map (fun r => (r.1.body, r.2.users)) =
      .ok (some (.user sampleSaved), [sampleSaved]) ∧
    Body.user { sampleUser with Password := "hash-1" } ≠
      Body.user { sampleUser with Password := "hash-2" } ∧
    (GetMe (sampleContextWith { sampleUser with Password := "hash-1" }) sampleDB).map
        (fun r => (r.1.status, r.1.body)) =
      (GetMe (sampleContextWith { sampleUser with Password := "hash-2" }) sampleDB).map
        (fun r => (r.1.status, r.1.body)) := by
  refine ⟨rfl, rfl, rfl, by decide, rfl⟩

/-- C25. The text of an internal error reaches the client. A store error `e` in
GetUsers, GetUserByID, UpdateUser and DeleteUser, and a signing error `e` in
SignInUser and RefreshAccessToken, are answered 500 with `e` as, or in, the message;
a hashing error in SignUpUser likewise. Only the failed insert of SignUpUser (502)
gets a fixed message, whatever the error. -/
theorem internal_error_text_reaches_client (e : String) :
    (GetUsers (paramContext "" "") (faultyDB e)).map (fun r => (r.1.status, r.1.body)) =
      .ok (some 500, some (.H [("status", "fail"), ("message", e)])) ∧
    (GetUserByID sampleWorld (paramContext sampleUser.ID "") (faultyDB e)).map
        (fun r => (r.1.status, r.1.body)) =
      .ok (some 500, some (.H [("status", "fail"), ("message", e)])) ∧
    (UpdateUser sampleWorld (paramContext sampleUser.ID "user") (faultyDB e)).map
        (fun r => (r.1.status, r.1.body)) =
      .ok (some 500, some (.H [("status", "fail"), ("message", e)])) ∧
    (DeleteUser sampleWorld (paramContext sampleUser.ID "") (faultyDB e)).map
        (fun r => (r.1.status, r.1.body)) =
      .ok (some 500, some (.H [("status", "fail"), ("message", e)])) ∧
    (SignInUser { goodSignInWorld with Sign := fun _ _ _ => .error e }
        (sampleContext none none "sign-in") sampleDB).map
        (fun r => (r.1.status, r.1.body)) =
      .ok (some 500,
        some (.H [("status", "fail"), ("message", "create: sign token: " ++ e)])) ∧
    (RefreshAccessToken { sampleWorld with Sign := fun _ _ _ => .error e }
        (refreshContext (some sampleRefreshToken)) sampleDB).map
        (fun r => (r.1.status, r.1.body)) =
      .ok (some 500,
        some (.H [("status", "fail"), ("message", "create: sign token: " ++ e)])) ∧
    (SignUpUser { sampleWorld with GenerateFromPassword := fun _ => .error e }
        (sampleContext none none "sign-up") emptyDB).map
        (fun r => (r.1.status, r.1.body)) =
      .ok (some 500,
        some (.H [("status", "fail"), ("message", "could not hash password: " ++ e)])) ∧
    (SignUpUser sampleWorld (sampleContext none none "sign-up")
        { emptyDB with faults := [none, some e] }).map
        (fun r => (r.1.status, r.1.body)) =
      .ok (some 502, some (.H [("status", "fail"), ("message", "Something bad happened")])) := by
  refine ⟨rfl, rfl, rfl, rfl, rfl, rfl, rfl, rfl⟩

/-- C26. A store failure `e` other than record-not-found is not always answered 500,
and does not always stop the handler. SignInUser answers it 401, RefreshAccessToken
and DeserializeUser 404; SignUpUser goes on to the insert when its lookup fails,
creating the record (201), and answers a failed insert 502. The user controllers do
stop with 500 after the one failed call. -/
theorem store_failure_not_internal_error (e : String) :
    (SignInUser goodSignInWorld (sampleContext none none "sign-in") (faultyDB e)).map
        (fun r => (r.1.status, r.2.log.length)) = .ok (some 401, 1) ∧
    (RefreshAccessToken sampleWorld (refreshContext (some sampleRefreshToken))
        (faultyDB e)).map (fun r => (r.1.status, r.2.log.length)) = .ok (some 404, 1) ∧
    (DeserializeUser sampleWorld (sampleContext none (some sampleAccessToken) "")
        (faultyDB e)).map (fun r => (r.1.status, r.2.log.length)) = .ok (some 404, 1) ∧
    (SignUpUser sampleWorld (sampleContext none none "sign-up")
        { emptyDB with faults := [some e] }).map
        (fun r => (r.1.status, r.2.log.length, r.2.users.length)) = .ok (some 201, 2, 1) ∧
    (SignUpUser sampleWorld (sampleContext none none "sign-up")
        { emptyDB with faults := [none, some e] }).map
        (fun r => (r.1.status, r.2.log.length, r.2.users.length)) = .ok (some 502, 2, 0) ∧
    (GetUsers (paramContext "" "") (faultyDB e)).map
        (fun r => (r.1.status, r.2.log.length)) = .ok (some 500, 1) ∧
    (GetUserByID sampleWorld (paramContext sampleUser.ID "") (faultyDB e)).map
        (fun r => (r.1.status, r.2.log.length)) = .ok (some 500, 1) ∧
    (UpdateUser sampleWorld (paramContext sampleUser.ID "user") (faultyDB e)).map
        (fun r => (r.1.status, r.2.log.length)) = .ok (some 500, 1) ∧
    (DeleteUser sampleWorld (paramContext sampleUser.ID "") (faultyDB e)).map
        (fun r => (r.1.status, r.2.log.length)) = .ok (some 500, 1) := by
  refine ⟨rfl, rfl, rfl, rfl, rfl, rfl, rfl, rfl, rfl⟩

/-! ### The chain of the admin routes -/

/-- An aborted context stops the chain. -/
theorem runChain_aborted (hs : List HandlerFunc) (c : Context) (db : DB)
    (ha : c.aborted = true) : runChain hs c db = .ok (c, db) := by
  cases hs with
  | nil => rfl
  | cons h hs => simp [runChain, ha]

/-- A handler that returns hands its context and store to the rest of the chain. -/
theorem runChain_cons_ok (h : HandlerFunc) (hs : List HandlerFunc) (c c2 : Context)
    (db db2 : DB) (hna : c.aborted = false) (hrun : h c db = .ok (c2, db2)) :
    runChain (h :: hs) c db = runChain hs c2 db2 := by
  simp [runChain, hna, hrun]

/-- A handler that panics ends the chain in its panic. -/
theorem runChain_cons_error (h : HandlerFunc) (hs : List HandlerFunc) (c : Context)
    (db : DB) (panic : String) (hna : c.aborted = false) (hrun : h c db = .error panic) :
    runChain (h :: hs) c db = .error panic := by
  simp [runChain, hna, hrun]

/-- The last handler of a chain, on a context that is not aborted, is the chain. -/
theorem runChain_single (h : HandlerFunc) (c : Context) (db : DB)
    (hna : c.aborted = false) : runChain [h] c db = h c db := by
  simp only [runChain, hna]
  rcases h c db with e | ⟨c2, d2⟩ <;> simp

/-- The only panic of the token selection is the index out of range. -/
theorem selectAccessToken_error (fields : List String) (cookie panic : String)
    (h : selectAccessToken fields cookie = .error panic) :
    panic = "runtime error: index out of range [1] with length 1" := by
  unfold selectAccessToken at h
  split at h
  · split at h
    · cases h
    · cases h; rfl
  · cases h

/-- C30. On a route under `/admin` the handler runs only behind a valid access token
of a stored administrator. For every request and store, either DeserializeUser has
validated a token whose subject is the ID of a stored identity with the role
`admin`, and the chain is the handler run on a context with that identity attached
and a store with the same users; or the outcome of the chain does not depend on the
handler, which never runs: the request comes out aborted with the users of the
store as they were, or the chain ends in the index panic of the token selection,
before any store call. -/
theorem adminRoute_guard (w : World) (context : Context) (db : DB) :
    (∃ token sub u c d,
        ValidateToken w token w.config.AccessTokenPublicKey = .ok sub ∧
        u ∈ db.users ∧ u.ID = Sprint sub ∧ u.Role = "admin" ∧
        c.Get "currentUser" = some (.userPtr u) ∧ d.users = db.users ∧
        ∀ handler, runChain (adminRoute w handler) context db = handler c d) ∨
    (∃ r, (∀ handler, runChain (adminRoute w handler) context db = r) ∧
      ((∃ c d, r = .ok (c, d) ∧ c.aborted = true ∧ d.users = db.users) ∨
        r = .error "runtime error: index out of range [1] with length 1")) := by
  rcases hab : context.aborted with _ | _
  swap
  · -- the request arrives aborted
    right
    exact ⟨.ok (context, db), fun handler => runChain_aborted _ _ _ hab,
      Or.inl ⟨context, db, rfl, hab, rfl⟩⟩
  -- InjectDB
  have h1 : InjectDB context db = .ok (context.Set "db" .gormDB, db) := rfl
  have hna1 : (context.Set "db" .gormDB).aborted = false := hab
  have hdb : (context.Set "db" .gormDB).Get "db" = some .gormDB := by
    simp [Context.Get, Context.Set, List.lookup]
  have hstep1 : ∀ handler, runChain (adminRoute w handler) context db =
      runChain [DeserializeUser w, CheckUserRole "admin", handler]
        (context.Set "db" .gormDB) db :=
    fun handler => runChain_cons_ok _ _ _ _ _ _ hab h1
  generalize context.Set "db" .gormDB = c1 at hna1 hdb hstep1
  -- the outcome when a handler aborts
  have habort : ∀ (hs : List HandlerFunc) (h : HandlerFunc) (c : Context) (d0 d : DB)
      (code : Int) (message : String), c.aborted = false →
      h c d0 = .ok (AbortWithError c code message, d) →
      runChain (h :: hs) c d0 = .ok (AbortWithError c code message, d) := by
    intro hs h c d0 d code message hna hrun
    rw [runChain_cons_ok _ _ _ _ _ _ hna hrun]
    exact runChain_aborted _ _ _ rfl
  -- DeserializeUser
  rcases hsel : selectAccessToken (Fields (c1.Request.HeaderGet "Authorization"))
      (c1.Cookie "access_token").1 with panic | accessToken
  · right
    have hp := selectAccessToken_error _ _ _ hsel
    subst hp
    have hd : DeserializeUser w c1 db =
        .error "runtime error: index out of range [1] with length 1" := by
      simp only [DeserializeUser, GetDatabaseInContext, hdb, hsel]
    exact ⟨_, fun handler => by rw [hstep1, runChain_cons_error _ _ _ _ _ hna1 hd],
      Or.inr rfl⟩
  have hd := DeserializeUser_of_selected w c1 db accessToken hdb hsel
  by_cases hempty : accessToken = ""
  · right
    rw [if_pos hempty] at hd
    exact ⟨_, fun handler => by rw [hstep1, habort _ _ _ _ _ _ _ hna1 hd],
      Or.inl ⟨_, _, rfl, rfl, rfl⟩⟩
  rw [if_neg hempty] at hd
  rcases hval : ValidateToken w accessToken w.config.AccessTokenPublicKey with err | sub
  · right
    rw [hval] at hd
    exact ⟨_, fun handler => by rw [hstep1, habort _ _ _ _ _ _ _ hna1 hd],
      Or.inl ⟨_, _, rfl, rfl, rfl⟩⟩
  rw [hval] at hd
  simp only at hd
  have hst := First_state db .id (Sprint sub)
  rcases hf : db.First .id (Sprint sub) with ⟨d, r⟩
  rw [hf] at hd hst
  have husers : d.users = db.users := by
    have : d = { db with log := db.log ++ [.First .id (Sprint sub)],
                         faults := db.faults.tail } := hst
    rw [this]
  rcases r with err | user
  · right
    simp only at hd
    exact ⟨_, fun handler => by rw [hstep1, habort _ _ _ _ _ _ _ hna1 hd],
      Or.inl ⟨_, _, rfl, rfl, husers⟩⟩
  simp only at hd
  have hmem := First_ok_mem db .id (Sprint sub) user (by rw [hf])
  -- CheckUserRole
  have hna2 : (c1.Set "currentUser" (.userPtr user)).aborted = false := hna1
  have hcur : (c1.Set "currentUser" (.userPtr user)).Get "currentUser" =
      some (.userPtr user) := by
    simp [Context.Get, Context.Set, List.lookup]
  have hstep2 : ∀ handler, runChain (adminRoute w handler) context db =
      runChain [CheckUserRole "admin", handler] (c1.Set "currentUser" (.userPtr user)) d :=
    fun handler => by rw [hstep1, runChain_cons_ok _ _ _ _ _ _ hna1 hd]
  by_cases hrole : user.Role = "admin"
  · left
    have hc : CheckUserRole "admin" (c1.Set "currentUser" (.userPtr user)) d =
        .ok (c1.Set "currentUser" (.userPtr user), d) := by
      simp [CheckUserRole, hcur, hrole]
    refine ⟨accessToken, sub, user, _, d, hval, hmem.1, hmem.2, hrole, hcur, husers, ?_⟩
    intro handler
    rw [hstep2, runChain_cons_ok _ _ _ _ _ _ hna2 hc, runChain_single _ _ _ hna2]
  · right
    have hc : CheckUserRole "admin" (c1.Set "currentUser" (.userPtr user)) d =
        .ok (AbortWithError (c1.Set "currentUser" (.userPtr user)) 401
          "You are not allowed", d) := by
      simp [CheckUserRole, hcur, hrole]
    exact ⟨_, fun handler => by rw [hstep2, habort _ _ _ _ _ _ _ hna2 hc],
      Or.inl ⟨_, _, rfl, rfl, husers⟩⟩

/-! ### The user controllers by ID -/

/-- A lookup that finds nothing, on a store that answers, is record-not-found. -/
theorem First_not_found (db : DB) (column : Column) (arg : String)
    (hf : db.faults.head?.join = none) (hno : ∀ u ∈ db.users, column.get u ≠ arg) :
    db.First column arg =
      ({ db with log := db.log ++ [.First column arg], faults := db.faults.tail },
        .error .ErrRecordNotFound) := by
  unfold DB.First DB.call
  rw [hf]
  simp only
  cases hl : leastID (List.filter (fun u => column.get u == arg) db.users) with
  | none => rfl
  | some v =>
    exfalso
    have hm := leastID_mem _ _ hl
    rw [List.mem_filter] at hm
    exact hno v hm.1 (by simpa using hm.2)

/-- C27, counterexample. UpdateUser reads and validates the body before it looks the
user up: for the well-formed `unknownID`, which no user of the sample store has, a
request whose body does not bind is answered 400, not 404, and the store is not
queried. -/
theorem UpdateUser_unknown_id_bad_body :
    sampleWorld.uuidParse ((paramContext unknownID "").Param "id") = .ok unknownID ∧
    (∀ u ∈ sampleDB.users, u.ID ≠ (paramContext unknownID "").Param "id") ∧
    UpdateUser sampleWorld (paramContext unknownID "") sampleDB =
      .ok (AbortWithError (paramContext unknownID "") 400 "EOF", sampleDB) ∧
    ¬ unknownIdIsNotFound := by
  have h1 : sampleWorld.uuidParse ((paramContext unknownID "").Param "id") =
      .ok unknownID := by decide
  have h2 : ∀ u ∈ sampleDB.users, u.ID ≠ (paramContext unknownID "").Param "id" := by
    decide
  have h3 : UpdateUser sampleWorld (paramContext unknownID "") sampleDB =
      .ok (AbortWithError (paramContext unknownID "") 400 "EOF", sampleDB) := by decide
  refine ⟨h1, h2, h3, ?_⟩
  intro h
  obtain ⟨c, d, hr, hs, -⟩ := h sampleWorld (paramContext unknownID "") sampleDB unknownID
    rfl rfl h1 h2
  rw [h3] at hr
  cases hr
  revert hs
  decide

/-- With the handle on the context, GetDatabaseInContext returns it. -/
theorem GetDatabaseInContext_ok (context : Context) (hdb : context.Get "db" = some .gormDB) :
    GetDatabaseInContext context = .ok (.ok ()) := by
  simp only [GetDatabaseInContext, hdb]

/-- A successful UpdateUser has bound the body, found the user of the `id`
parameter, and overwritten its row with the bound record under that ID. -/
theorem UpdateUser_saved (w : World) (context c : Context) (db d : DB)
    (hid : context.Param "id" ≠ uuidNil)
    (h : UpdateUser w context db = .ok (c, d)) (hs : c.status = some 200) :
    ∃ user, w.bindUser context.Request.Body = .ok user ∧
      (∃ old ∈ db.users, old.ID = context.Param "id") ∧
      c.body = some (.user { user with ID := context.Param "id", UpdatedAt := w.now }) ∧
      d.users = db.users.map (fun x =>
        if x.ID == context.Param "id" then
          { user with ID := context.Param "id", UpdatedAt := w.now } else x) := by
  unfold UpdateUser at h
  simp only at h
  rcases hp : w.uuidParse (context.Param "id") with e | id
  · rw [hp] at h; simp only at h; cases h; cases hs
  rw [hp] at h; simp only at h
  rcases hb : w.bindUser context.Request.Body with e | user
  · rw [hb] at h; simp only at h; cases h; cases hs
  rw [hb] at h; simp only at h
  rcases hv : user.Validate w with _ | errs
  swap
  · rw [hv] at h; simp only at h; cases h; cases hs
  rw [hv] at h; simp only at h
  rcases hg : GetDatabaseInContext context with p | (e | _)
  · rw [hg] at h; simp only at h; cases h
  · rw [hg] at h; simp only at h; cases h; cases hs
  rw [hg] at h; simp only at h
  have hst := First_state db .id (context.Param "id")
  rcases hf : db.First .id (context.Param "id") with ⟨d1, r⟩
  rw [hf] at h hst
  rcases r with e | oldUser
  · cases e <;> (simp only at h; cases h; cases hs)
  simp only at h
  have hmem := First_ok_mem db .id (context.Param "id") oldUser (by rw [hf])
  have hold : oldUser.ID = context.Param "id" := hmem.2
  have hd1 : d1.users = db.users := by
    have : d1 = { db with log := db.log ++ [.First .id (context.Param "id")],
                          faults := db.faults.tail } := hst
    rw [this]
  refine ⟨user, rfl, ⟨oldUser, hmem.1, hold⟩, ?_⟩
  rw [hold] at h
  have hnil : (context.Param "id" == uuidNil) = false := by simpa using hid
  unfold DB.Save DB.call at h
  simp only [hnil, Bool.false_eq_true, if_false] at h
  have hany : (d1.users.any fun x => x.ID == context.Param "id") = true := by
    rw [hd1, List.any_eq_true]
    exact ⟨oldUser, hmem.1, by simpa using hold⟩
  rcases hfa : d1.faults.head?.join with _ | e
  swap
  · rw [hfa] at h; simp only at h; cases h; cases hs
  rw [hfa] at h; simp only at h
  rcases hdup : (d1.users.any fun x => x.ID != context.Param "id" && x.Email == user.Email)
    with _ | _
  swap
  · rw [hdup] at h; simp only [if_true] at h; cases h; cases hs
  rw [hdup] at h
  simp only [Bool.false_eq_true, if_false, hany, if_true] at h
  cases h
  exact ⟨rfl, by simp only [hd1]⟩

/-- C27, amended. With the store at hand and answering: when the `id` parameter is
not a UUID, GetUserByID, UpdateUser and DeleteUser answer 400 and the store comes out
as it went in, its log included. When it is a UUID that no user has, GetUserByID and
DeleteUser answer 404, and so does UpdateUser provided the body binds and passes
User.Validate (a body that does not is answered 400 before the lookup); the users
are as they were. And a successful UpdateUser for an `id` other than the nil UUID
has overwritten the row of the user with that `id` by the bound record with its ID
set to that `id`, whatever ID the body carried, and no other row is touched or
added. -/
theorem user_by_id_handlers (w : World) (context : Context) (db : DB)
    (hdb : context.Get "db" = some .gormDB) (hfault : db.faults.head?.join = none) :
    ((∃ e, w.uuidParse (context.Param "id") = .error e) →
      GetUserByID w context db =
        .ok (AbortWithError context 400 "Invalid UUID format", db) ∧
      UpdateUser w context db =
        .ok (AbortWithError context 400 "Invalid UUID format", db) ∧
      DeleteUser w context db =
        .ok (AbortWithError context 400 "Invalid UUID format", db)) ∧
    ((∃ id, w.uuidParse (context.Param "id") = .ok id) →
      (∀ u ∈ db.users, u.ID ≠ context.Param "id") →
      ∃ d, d.users = db.users ∧
        GetUserByID w context db =
          .ok (AbortWithError context 404 "Can't found user", d) ∧
        DeleteUser w context db =
          .ok (AbortWithError context 404 "Can't found user", d) ∧
        (∀ user, w.bindUser context.Request.Body = .ok user → user.Validate w = none →
          UpdateUser w context db =
            .ok (AbortWithError context 404 "Can't found user", d)) ∧
        (∀ e, w.bindUser context.Request.Body = .error e →
          UpdateUser w context db = .ok (AbortWithError context 400 e, db)) ∧
        (∀ user errs, w.bindUser context.Request.Body = .ok user →
          user.Validate w = some errs →
          UpdateUser w context db = .ok (AbortWithError context 400 errs.Error, db))) ∧
    (context.Param "id" ≠ uuidNil →
      ∀ c d, UpdateUser w context db = .ok (c, d) → c.status = some 200 →
        ∃ user, w.bindUser context.Request.Body = .ok user ∧
          (∃ old ∈ db.users, old.ID = context.Param "id") ∧
          c.body = some (.user
            { user with ID := context.Param "id", UpdatedAt := w.now }) ∧
          d.users = db.users.map (fun x =>
            if x.ID == context.Param "id" then
              { user with ID := context.Param "id", UpdatedAt := w.now } else x)) := by
  have hg := GetDatabaseInContext_ok context hdb
  refine ⟨?_, ?_, fun hid c d h hs => UpdateUser_saved w context c db d hid h hs⟩
  · rintro ⟨e, he⟩
    refine ⟨?_, ?_, ?_⟩
    · simp only [GetUserByID, he]
    · simp only [UpdateUser, he]
    · simp only [DeleteUser, he]
  · rintro ⟨id, hp⟩ hno
    have hf := First_not_found db .id (context.Param "id") hfault hno
    refine ⟨{ db with log := db.log ++ [.First .id (context.Param "id")],
                      faults := db.faults.tail }, rfl, ?_, ?_, ?_, ?_, ?_⟩
    · simp only [GetUserByID, hp, hg, hf]
    · simp only [DeleteUser, hp, hg, hf]
    · intro user hb hv
      simp only [UpdateUser, hp, hb, hv, hg, hf]
    · intro e hb
      simp only [UpdateUser, hp, hb]
    · intro user errs hb hv
      simp only [UpdateUser, hp, hb, hv]

/-- C27, on the sample store: the `id` `1234` is answered 400 by the three handlers,
the unknown `unknownID` is answered 404, by UpdateUser too when the body is the
sample update, and the sample update of the sample user is stored under the ID of
that user, not under the ID of the body. -/
theorem user_by_id_handlers_witness :
    (paramContext "1234" "user").Get "db" = some .gormDB ∧
    sampleDB.faults.head?.join = none ∧
    (GetUserByID sampleWorld (paramContext "1234" "user") sampleDB =
        .ok (AbortWithError (paramContext "1234" "user") 400 "Invalid UUID format",
          sampleDB) ∧
      UpdateUser sampleWorld (paramContext "1234" "user") sampleDB =
        .ok (AbortWithError (paramContext "1234" "user") 400 "Invalid UUID format",
          sampleDB) ∧
      DeleteUser sampleWorld (paramContext "1234" "user") sampleDB =
        .ok (AbortWithError (paramContext "1234" "user") 400 "Invalid UUID format",
          sampleDB)) ∧
    (∃ d, d.users = sampleDB.users ∧
      GetUserByID sampleWorld (paramContext unknownID "user") sampleDB =
        .ok (AbortWithError (paramContext unknownID "user") 404 "Can't found user", d) ∧
      DeleteUser sampleWorld (paramContext unknownID "user") sampleDB =
        .ok (AbortWithError (paramContext unknownID "user") 404 "Can't found user", d) ∧
      UpdateUser sampleWorld (paramContext unknownID "user") sampleDB =
        .ok (AbortWithError (paramContext unknownID "user") 404 "Can't found user", d)) ∧
    (∃ user, sampleWorld.bindUser (paramContext sampleUser.ID "user").Request.Body =
        .ok user ∧
      user.ID = "11111111-2222-3333-4444-555555555555" ∧
      (∃ old ∈ sampleDB.users, old.ID = sampleUser.ID) ∧
      sampleSaved = { user with ID := sampleUser.ID, UpdatedAt := sampleWorld.now } ∧
      [sampleSaved] = sampleDB.users.map (fun x =>
        if x.ID == sampleUser.ID then
          { user with ID := sampleUser.ID, UpdatedAt := sampleWorld.now } else x)) := by
  refine ⟨by decide, by decide,
    (user_by_id_handlers sampleWorld (paramContext "1234" "user") sampleDB
      (by decide) (by decide)).1 ⟨"invalid UUID length", by decide⟩, ?_, ?_⟩
  · obtain ⟨d, hd, h1, h2, h3, -, -⟩ :=
      (user_by_id_handlers sampleWorld (paramContext unknownID "user") sampleDB
        (by decide) (by decide)).2.1 ⟨unknownID, by decide⟩ (by decide)
    exact ⟨d, hd, h1, h2, h3 sampleUserInput (by decide) (by decide)⟩
  · obtain ⟨user, hb, hold, hbody, husers⟩ :=
      (user_by_id_handlers sampleWorld (paramContext sampleUser.ID "user") sampleDB
        (by decide) (by decide)).2.2 (by decide)
        (SendSuccess (paramContext sampleUser.ID "user") 200 (.user sampleSaved))
        { users := [sampleSaved], faults := [],
          log := [.First .id sampleUser.ID,
                  .Save { sampleUserInput with ID := sampleUser.ID }] }
        (by decide) (by decide)
    have hu : user = sampleUserInput := by
      have h2 : sampleWorld.bindUser (paramContext sampleUser.ID "user").Request.Body =
          .ok sampleUserInput := by decide
      rw [h2] at hb
      cases hb
      rfl
    subst hu
    exact ⟨sampleUserInput, hb, by decide, hold, by decide, by decide⟩

/-! ### Issue, then validate -/

/-- Under a fitting key pair GenerateToken returns the joined token. -/
theorem GenerateToken_of_RoundTrip (w : World) (s : String) (ttl : Int)
    (privateKey : String) (dpriv : Bytes) (key : RSAPrivateKey) (sstr sig : String)
    (h1 : w.DecodeString privateKey = .ok dpriv)
    (h2 : w.ParseRSAPrivateKeyFromPEM dpriv = .ok key)
    (h5 : w.SigningString SigningMethodRS256 (GenerateToken.claims w ttl s) = .ok sstr)
    (h6 : w.Sign SigningMethodRS256 sstr key = .ok sig) :
    GenerateToken w ttl s privateKey = .ok (Join [sstr, sig] ".") := by
  simp only [GenerateToken, SignedString, h1, h2, h5, h6]

/-- ValidateToken on a token the parser reads and the key verifies: the outcome is
that of the claims against the clock. -/
theorem ValidateToken_of_parsed (w : World) (token publicKey : String) (dpub : Bytes)
    (pub : RSAPublicKey) (claims : MapClaims) (sstr sig : String)
    (h3 : w.DecodeString publicKey = .ok dpub)
    (h4 : w.ParseRSAPublicKeyFromPEM dpub = .ok pub)
    (h7 : w.ParseUnverified token = .ok ⟨SigningMethodRS256, claims, sstr, sig, false⟩)
    (h8 : w.Verify SigningMethodRS256 sstr sig pub = true) :
    ValidateToken w token publicKey =
      match claims.Valid w.now.Unix with
      | none => .ok claims.sub
      | some err => .error ("validate: " ++ err) := by
  have h9 : w.Verify (.RSA "RS256") sstr sig pub = true := h8
  simp only [ValidateToken, h3, h4, Parse, h7, keyFunc, SigningMethodRS256]
  cases claims.Valid w.now.Unix <;> simp [h9]

/-- C21, counterexample. A token issued 0.7 s into a second for 1.4 s has
`exp = iat + 2`. With the clock 2.9 s past `iat`, which is past `iat + ttl` and
past the issuance time plus the ttl, ValidateToken still returns the subject. -/
theorem GenerateToken_valid_past_ttl :
    RoundTrip issueWorld sampleConfig.AccessTokenPrivateKey
      sampleConfig.AccessTokenPublicKey (GenerateToken.claims issueWorld 1400000000 "subject") ∧
    GenerateToken issueWorld 1400000000 "subject" sampleConfig.AccessTokenPrivateKey =
      .ok "jwt.subject.sig" ∧
    GenerateToken.claims issueWorld 1400000000 "subject" =
      ⟨some (.str "subject"), some 1714403202, some 1714403200, some 1714403200⟩ ∧
    issueWorld.now.Unix * 1000000000 + 1400000000 <
      (63850000002900000000 : Int) - 62135596800000000000 ∧
    ValidateToken { issueWorld with now := ⟨63850000002900000000⟩ } "jwt.subject.sig"
      sampleConfig.AccessTokenPublicKey = .ok (some (.str "subject")) ∧
    ¬ expiresPastTtl := by
  have hrt : RoundTrip issueWorld sampleConfig.AccessTokenPrivateKey
      sampleConfig.AccessTokenPublicKey
      (GenerateToken.claims issueWorld 1400000000 "subject") :=
    ⟨_, _, _, _, "jwt.subject", "sig", rfl, rfl, rfl, rfl, by decide, rfl, by decide,
      by decide⟩
  have hgen : GenerateToken issueWorld 1400000000 "subject"
      sampleConfig.AccessTokenPrivateKey = .ok "jwt.subject.sig" := by decide
  have hlate : issueWorld.now.Unix * 1000000000 + 1400000000 <
      (63850000002900000000 : Int) - 62135596800000000000 := by decide
  have hval : ValidateToken { issueWorld with now := ⟨63850000002900000000⟩ }
      "jwt.subject.sig" sampleConfig.AccessTokenPublicKey =
      .ok (some (.str "subject")) := by decide
  refine ⟨hrt, hgen, by decide, hlate, hval, ?_⟩
  intro h
  obtain ⟨err, he⟩ := h issueWorld "subject" 1400000000 _ _ _ ⟨63850000002900000000⟩
    (by decide) hrt hgen hlate
  rw [hval] at he
  cases he

/-- Claims whose `exp` is not zero and lies before the clock do not pass. -/
theorem MapClaims_Valid_expired (m : MapClaims) (now e : Int) (he : m.exp = some e)
    (h0 : e ≠ 0) (hlt : e < now) : ∃ err, m.Valid now = some err := by
  rcases m with ⟨sub, exp, iat, nbf⟩
  simp only at he
  subst he
  have hc : (e != 0 && !decide (now ≤ e)) = true := by
    have h1 : (e != 0) = true := by simpa using h0
    have h2 : decide (now ≤ e) = false := by simpa using hlt
    rw [h1, h2]
    rfl
  unfold MapClaims.Valid
  simp only [hc, if_true]
  cases iat <;> cases nbf <;>
    repeat (first | exact ⟨_, rfl⟩ | split)

/-- C21, amended. For every subject `s`, every ttl and every key pair the library
round-trips the claims under, GenerateToken returns a token, and ValidateToken with
the public key at the clock `t` returns `s` once the clock second is within
`[nbf, exp]`; it returns an error once the clock second is past `exp`, the whole
second of the issuance time plus the ttl (`exp` not being the zero second, which the
library reads as no expiry), and so, at the latest, once the clock is one full
second past the issuance time plus the ttl. -/
theorem ValidateToken_GenerateToken (w : World) (s : String) (ttl : Int)
    (privateKey publicKey : String) (t : Time)
    (hkeys : RoundTrip w privateKey publicKey (GenerateToken.claims w ttl s)) :
    ∃ token nbf exp, GenerateToken w ttl s privateKey = .ok token ∧
      (GenerateToken.claims w ttl s).nbf = some nbf ∧
      (GenerateToken.claims w ttl s).exp = some exp ∧
      exp = (w.now.Add ttl).Unix ∧
      (nbf ≤ t.Unix → t.Unix ≤ exp →
        ValidateToken { w with now := t } token publicKey = .ok (some (.str s))) ∧
      (exp ≠ 0 → exp < t.Unix →
        ∃ err, ValidateToken { w with now := t } token publicKey = .error err) ∧
      (exp ≠ 0 → w.now.ns + ttl + 1000000000 ≤ t.ns →
        ∃ err, ValidateToken { w with now := t } token publicKey = .error err) := by
  obtain ⟨dpriv, dpub, key, pub, sstr, sig, h1, h2, h3, h4, h5, h6, h7, h8⟩ := hkeys
  have hv := ValidateToken_of_parsed { w with now := t } (Join [sstr, sig] ".") publicKey
    dpub pub (GenerateToken.claims w ttl s) sstr sig h3 h4 h7 h8
  have hexpired : (w.now.Add ttl).Unix ≠ 0 → (w.now.Add ttl).Unix < t.Unix →
      ∃ err, ValidateToken { w with now := t } (Join [sstr, sig] ".") publicKey =
        .error err := by
    intro h0 hlt
    obtain ⟨err, he⟩ := MapClaims_Valid_expired (GenerateToken.claims w ttl s) t.Unix
      (w.now.Add ttl).Unix rfl h0 hlt
    rw [hv]
    have he2 : (GenerateToken.claims w ttl s).Valid
        ({ w with now := t } : World).now.Unix = some err := he
    rw [he2]
    exact ⟨_, rfl⟩
  refine ⟨Join [sstr, sig] ".", w.now.Unix, (w.now.Add ttl).Unix,
    GenerateToken_of_RoundTrip w s ttl privateKey dpriv key sstr sig h1 h2 h5 h6,
    rfl, rfl, rfl, ?_, hexpired, ?_⟩
  · intro hnbf hexp
    rw [hv]
    simp [MapClaims.Valid, GenerateToken.claims, hnbf, hexp]
  · intro h0 hlate
    apply hexpired h0
    simp only [Time.Unix, Time.Add]
    omega

/-- C21, on the token of `subject` issued 0.7 s into a second for 1.4 s: valid with
the clock in the second `exp`, refused with the clock in the next second. -/
theorem ValidateToken_GenerateToken_witness :
    RoundTrip issueWorld sampleConfig.AccessTokenPrivateKey
      sampleConfig.AccessTokenPublicKey
      (GenerateToken.claims issueWorld 1400000000 "subject") ∧
    ValidateToken { issueWorld with now := ⟨63850000002900000000⟩ } "jwt.subject.sig"
      sampleConfig.AccessTokenPublicKey = .ok (some (.str "subject")) ∧
    (∃ err, ValidateToken { issueWorld with now := ⟨63850000003100000000⟩ }
      "jwt.subject.sig" sampleConfig.AccessTokenPublicKey = .error err) := by
  have hrt : RoundTrip issueWorld sampleConfig.AccessTokenPrivateKey
      sampleConfig.AccessTokenPublicKey
      (GenerateToken.claims issueWorld 1400000000 "subject") :=
    ⟨_, _, _, _, "jwt.subject", "sig", rfl, rfl, rfl, rfl, by decide, rfl, by decide,
      by decide⟩
  have hgen : GenerateToken issueWorld 1400000000 "subject"
      sampleConfig.AccessTokenPrivateKey = .ok "jwt.subject.sig" := by decide
  refine ⟨hrt, ?_, ?_⟩
  · obtain ⟨token, nbf, exp, ht, hn, he, -, hok, -, -⟩ :=
      ValidateToken_GenerateToken issueWorld "subject" 1400000000
        sampleConfig.AccessTokenPrivateKey sampleConfig.AccessTokenPublicKey
        ⟨63850000002900000000⟩ hrt
    rw [hgen] at ht
    cases ht
    cases hn
    cases he
    exact hok (by decide) (by decide)
  · obtain ⟨token, nbf, exp, ht, hn, he, -, -, -, hlate⟩ :=
      ValidateToken_GenerateToken issueWorld "subject" 1400000000
        sampleConfig.AccessTokenPrivateKey sampleConfig.AccessTokenPublicKey
        ⟨63850000003100000000⟩ hrt
    rw [hgen] at ht
    cases ht
    cases he
    exact hlate (by decide) (by decide)

/-! ### Hash, then verify -/

/-- The bytes of a concatenation. -/
theorem utf8Bytes_append (p s : String) : utf8Bytes (p ++ s) = utf8Bytes p ++ utf8Bytes s := by
  simp [utf8Bytes, String.toList, String.data_append, List.flatMap_append]

/-- Bytes after the 72nd are not read. -/
theorem cyclicKey_append (a b : List Nat) (h : a.length = 72) :
    cyclicKey (a ++ b) = cyclicKey a := by
  unfold cyclicKey
  apply List.map_congr_left
  intro i hi
  rw [List.mem_range] at hi
  have h1 : i % (a ++ b ++ [0]).length = i := by
    apply Nat.mod_eq_of_lt
    simp only [List.length_append, h, List.length_singleton]
    omega
  have h2 : i % (a ++ [0]).length = i := by
    apply Nat.mod_eq_of_lt
    simp only [List.length_append, h, List.length_singleton]
    omega
  rw [h1, h2]
  have hi2 : i < a.length := by omega
  simp [List.getD_eq_getElem?_getD, List.getElem?_append_left, hi2, List.append_assoc]

/-- The entry of the key at a position inside the password. -/
theorem cyclicKey_getElem_lt (a : List Nat) (i : Nat) (hi : i < a.length) (h72 : i < 72) :
    (cyclicKey a)[i]? = a[i]? := by
  unfold cyclicKey
  have h1 : i % (a.length + 1) = i := Nat.mod_eq_of_lt (by omega)
  simp [List.getElem?_map, List.getElem?_range h72, h1, List.getD_eq_getElem?_getD,
    List.getElem?_append_left, hi]

/-- The entry of the key right after the password is the closing zero. -/
theorem cyclicKey_getElem_length (a : List Nat) (h72 : a.length < 72) :
    (cyclicKey a)[a.length]? = some 0 := by
  unfold cyclicKey
  have h1 : a.length % (a.length + 1) = a.length := Nat.mod_eq_of_lt (by omega)
  simp [List.getElem?_map, List.getElem?_range h72, h1, List.getD_eq_getElem?_getD]

/-- Keys of at most 71 bytes without a zero byte are read whole. -/
theorem cyclicKey_inj (a b : List Nat) (ha : a.length ≤ 71) (hb : b.length ≤ 71)
    (ha0 : 0 ∉ a) (hb0 : 0 ∉ b) (h : cyclicKey a = cyclicKey b) : a = b := by
  have hlen : ∀ (x y : List Nat), x.length ≤ 71 → y.length ≤ 71 → 0 ∉ y →
      cyclicKey x = cyclicKey y → ¬ x.length < y.length := by
    intro x y hx hy hy0 hxy hlt
    have e1 := cyclicKey_getElem_length x (by omega)
    have e2 := cyclicKey_getElem_lt y x.length hlt (by omega)
    rw [hxy, e2] at e1
    have : (0 : Nat) ∈ y := List.getElem?_mem e1
    exact hy0 this
  have h1 := hlen a b ha hb hb0 h
  have h2 := hlen b a hb ha ha0 h.symm
  have hl : a.length = b.length := by omega
  apply List.ext_getElem? 
  intro i
  by_cases hi : i < a.length
  · rw [← cyclicKey_getElem_lt a i hi (by omega), ← cyclicKey_getElem_lt b i (by omega) (by omega), h]
  · rw [List.getElem?_eq_none (by omega), List.getElem?_eq_none (by omega)]

/-- Every byte of the encoding of a character is a byte. -/
theorem utf8EncodeChar_lt (c : Char) : ∀ b ∈ utf8EncodeChar c, b < 256 := by
  intro b hb
  unfold utf8EncodeChar at hb
  simp only at hb
  split at hb
  · simp only [List.mem_singleton] at hb; omega
  · split at hb
    · simp only [List.mem_cons, List.mem_singleton, List.mem_nil_iff, or_false] at hb
      omega
    · split at hb
      · simp only [List.mem_cons, List.mem_singleton, List.mem_nil_iff, or_false] at hb
        omega
      · simp only [List.mem_cons, List.mem_singleton, List.mem_nil_iff, or_false] at hb
        omega

/-- The encoding of a character is a prefix code. -/
theorem utf8EncodeChar_append_inj (c d : Char) (r s : List Nat)
    (h : utf8EncodeChar c ++ r = utf8EncodeChar d ++ s) : c = d ∧ r = s := by
  have hc : c.toNat < 0x110000 := by
    have := c.valid
    simp only [UInt32.isValidChar, Nat.isValidChar] at this
    simp only [Char.toNat]
    omega
  have hd : d.toNat < 0x110000 := by
    have := d.valid
    simp only [UInt32.isValidChar, Nat.isValidChar] at this
    simp only [Char.toNat]
    omega
  have key : c.toNat = d.toNat ∧ r = s := by
    unfold utf8EncodeChar at h
    simp only at h
    split at h <;> split at h <;>
      (try split at h) <;> (try split at h) <;> (try split at h) <;> (try split at h) <;>
      simp only [List.cons_append, List.nil_append, List.cons.injEq] at h <;>
      first
      | (exfalso; omega)
      | (constructor
         · omega
         · tauto)
  refine ⟨?_, key.2⟩
  apply Char.ext
  apply UInt32.ext
  exact key.1

/-- A byte goes to a character and back. -/
theorem toNat_ofNat_byte (n : Nat) (h : n < 256) : (Char.ofNat n).toNat = n := by
  have hv : n.isValidChar := Or.inl (by omega)
  simp only [Char.ofNat, hv, dif_pos, Char.ofNatAux, Char.toNat]
  rfl

/-- The encoding of a string determines it. -/
theorem flatMap_utf8EncodeChar_inj : ∀ (l m : List Char),
    l.flatMap utf8EncodeChar = m.flatMap utf8EncodeChar → l = m
  | [], [] => fun _ => rfl
  | [], d :: m => fun h => by
    exfalso
    have : utf8EncodeChar d ≠ [] := by
      unfold utf8EncodeChar; simp only; split <;> (try split) <;> (try split) <;> simp
    simp only [List.flatMap_nil, List.flatMap_cons] at h
    exact this (List.append_eq_nil.mp h.symm).1
  | c :: l, [] => fun h => by
    exfalso
    have : utf8EncodeChar c ≠ [] := by
      unfold utf8EncodeChar; simp only; split <;> (try split) <;> (try split) <;> simp
    simp only [List.flatMap_nil, List.flatMap_cons] at h
    exact this (List.append_eq_nil.mp h).1
  | c :: l, d :: m => fun h => by
    simp only [List.flatMap_cons] at h
    obtain ⟨h1, h2⟩ := utf8EncodeChar_append_inj c d _ _ h
    rw [h1, flatMap_utf8EncodeChar_inj l m h2]

/-- Two strings with the same bytes are the same string. -/
theorem utf8Bytes_inj (p q : String) (h : utf8Bytes p = utf8Bytes q) : p = q := by
  unfold utf8Bytes at h
  have := flatMap_utf8EncodeChar_inj _ _ h
  exact String.ext this

/-- The bytes of a string are bytes. -/
theorem utf8Bytes_lt (p : String) : ∀ b ∈ utf8Bytes p, b < 256 := by
  intro b hb
  unfold utf8Bytes at hb
  rw [List.mem_flatMap] at hb
  obtain ⟨c, _, hc⟩ := hb
  exact utf8EncodeChar_lt c b hc

/-- The bytes bcrypt reads are bytes. -/
theorem bcryptKey_lt (p : String) : ∀ b ∈ bcryptKey p, b < 256 := by
  intro b hb
  unfold bcryptKey cyclicKey at hb
  simp only [List.mem_map, List.mem_range] at hb
  obtain ⟨i, _, hi⟩ := hb
  subst hi
  rw [List.getD_eq_getElem?_getD]
  cases hg : (utf8Bytes p ++ [0])[i % (utf8Bytes p ++ [0]).length]? with
  | none => simp
  | some x =>
    have hm : x ∈ utf8Bytes p ++ [0] := List.getElem?_mem hg
    simp only [List.mem_append, List.mem_singleton] at hm
    simp only [Option.getD_some]
    rcases hm with hm | hm
    · exact utf8Bytes_lt p x hm
    · omega

/-- The toy hash determines the bytes read. -/
theorem toyHash_inj (p q : String) (h : toyHash p = toyHash q) :
    bcryptKey p = bcryptKey q := by
  unfold toyHash at h
  have h1 := congrArg String.data h
  simp only [String.data_append, List.append_cancel_left_eq] at h1
  have h2 := congrArg (List.map Char.toNat) h1
  simp only [List.map_map] at h2
  have hid : ∀ (r : String), List.map (Char.toNat ∘ Char.ofNat) (bcryptKey r) = bcryptKey r := by
    intro r
    conv_rhs => rw [← List.map_id (bcryptKey r)]
    apply List.map_congr_left
    intro b hb
    exact toNat_ofNat_byte b (bcryptKey_lt r b hb)
  rw [hid p, hid q] at h2
  exact h2

/-- The toy bcrypt keeps the laws. -/
theorem BcryptLaws_bcryptWorld : BcryptLaws bcryptWorld := by
  refine ⟨?_, ?_, ?_⟩
  · intro p h hg
    simp only [bcryptWorld] at hg ⊢
    split at hg
    · cases hg
    · cases hg
      simp
  · intro h p q hk
    simp only [bcryptWorld, toyHash, hk]
  · intro p q h hg hc
    simp only [bcryptWorld] at hg hc
    split at hg
    · cases hg
    · cases hg
      exact (toyHash_inj _ _ (by simpa using hc)).symm

/-- C22, counterexample. With a bcrypt that keeps its laws, the 72-byte password
`password72` is hashed without error, and the longer password `password72 ++ "x"`
verifies against that hash: the comparison reads 72 bytes. -/
theorem VerifyPassword_accepts_longer_password :
    BcryptLaws bcryptWorld ∧
    HashPassword bcryptWorld password72 = .ok (toyHash password72) ∧
    password72 ++ "x" ≠ password72 ∧
    VerifyPassword bcryptWorld (toyHash password72) (password72 ++ "x") = true ∧
    ¬ verifiesExactlyTheSame := by
  have hlen : (utf8Bytes password72).length = 72 := by decide
  have hh : HashPassword bcryptWorld password72 = .ok (toyHash password72) := by
    simp only [HashPassword, bcryptWorld, hlen]
    simp
  have hne : password72 ++ "x" ≠ password72 := by decide
  have hk : bcryptKey (password72 ++ "x") = bcryptKey password72 := by
    unfold bcryptKey
    rw [utf8Bytes_append, cyclicKey_append _ _ hlen]
  have hv : VerifyPassword bcryptWorld (toyHash password72) (password72 ++ "x") = true := by
    simp only [VerifyPassword, bcryptWorld, toyHash, hk]
    simp
  refine ⟨BcryptLaws_bcryptWorld, hh, hne, hv, ?_⟩
  intro h
  exact hne ((h bcryptWorld BcryptLaws_bcryptWorld password72 (password72 ++ "x") _ hh).1 hv)

/-- C22, amended. With a bcrypt that keeps its laws, if HashPassword returns `h` for
`p` without error then VerifyPassword returns no error for `p`, and for a password
`q` exactly when `q` gives the key schedule the same 72 bytes as `p`. So, between
passwords of at most 71 bytes without a zero byte, exactly when `q = p`; and when
`p` is 72 bytes long, `p` followed by anything verifies too. -/
theorem VerifyPassword_HashPassword (w : World) (p h : String) (hlaws : BcryptLaws w)
    (hh : HashPassword w p = .ok h) :
    VerifyPassword w h p = true ∧
    (∀ q, VerifyPassword w h q = true ↔ bcryptKey q = bcryptKey p) ∧
    (∀ q, (utf8Bytes p).length ≤ 71 → (utf8Bytes q).length ≤ 71 →
      0 ∉ utf8Bytes p → 0 ∉ utf8Bytes q →
      (VerifyPassword w h q = true ↔ q = p)) ∧
    ((utf8Bytes p).length = 72 → ∀ suffix, VerifyPassword w h (p ++ suffix) = true) := by
  have hg : w.GenerateFromPassword p = .ok h := by
    unfold HashPassword at hh
    split at hh
    · cases hh
    · rename_i hp heq
      cases hh
      exact heq
  have h1 : VerifyPassword w h p = true := hlaws.1 p h hg
  have h2 : ∀ q, VerifyPassword w h q = true ↔ bcryptKey q = bcryptKey p := by
    intro q
    constructor
    · intro hq
      exact hlaws.2.2 p q h hg hq
    · intro hq
      unfold VerifyPassword
      rw [hlaws.2.1 h q p hq]
      exact h1
  refine ⟨h1, h2, ?_, ?_⟩
  · intro q hp71 hq71 hp0 hq0
    rw [h2 q]
    constructor
    · intro hk
      exact utf8Bytes_inj q p (cyclicKey_inj _ _ hq71 hp71 hq0 hp0 hk)
    · intro hqp
      rw [hqp]
  · intro hlen suffix
    rw [h2]
    unfold bcryptKey
    rw [utf8Bytes_append, cyclicKey_append _ _ hlen]

/-- C22, on the toy bcrypt and the two passwords of the repository's test: the hash
of `secretPassword` verifies `secretPassword` and refuses `wrongPassword`. -/
theorem VerifyPassword_HashPassword_witness :
    BcryptLaws bcryptWorld ∧
    HashPassword bcryptWorld "secretPassword" = .ok (toyHash "secretPassword") ∧
    VerifyPassword bcryptWorld (toyHash "secretPassword") "secretPassword" = true ∧
    VerifyPassword bcryptWorld (toyHash "secretPassword") "wrongPassword" = false := by
  have hh : HashPassword bcryptWorld "secretPassword" = .ok (toyHash "secretPassword") := by
    decide
  have h := VerifyPassword_HashPassword bcryptWorld "secretPassword"
    (toyHash "secretPassword") BcryptLaws_bcryptWorld hh
  refine ⟨BcryptLaws_bcryptWorld, hh, h.1, ?_⟩
  have hno : ¬ VerifyPassword bcryptWorld (toyHash "secretPassword") "wrongPassword" = true :=
    fun hv => absurd ((h.2.2.1 "wrongPassword" (by decide) (by decide) (by decide)
      (by decide)).1 hv) (by decide)
  simpa using hno

end MyGPT
